import Mathlib

/-!
# Mindset crown-experiment: trial sequencing and session lifecycle

A shallow embedding of the browser controllers
`frontend/js/experiment.js` (4-direction experiment, namespace `Experiment`)
and `frontend/up-down-experiment/up-down.js` (balanced up/down variant,
namespace `UpDown`), followed by theorems about them.

Conventions of the embedding

* JavaScript numbers that hold counts are integers (`Int`), fractional
  configuration values and random draws are rationals (`ℚ`); rounding of
  IEEE doubles is not modelled.
* `Math.random()` is an explicit stream `random : Nat → Draw`; the n-th call
  returns `random n`.
* Loops that need not terminate take a fuel argument and return `none` when
  the fuel is used up before the loop exits.
-/

namespace Mindset

/-- One value returned by `Math.random()`: a number `r` with `0 ≤ r < 1`. -/
structure Draw where
  val : ℚ
  nonneg : 0 ≤ val
  lt_one : val < 1

/-- The draw `0`. -/
def Draw.zero : Draw := ⟨0, le_refl 0, by norm_num⟩

/-- The draw `1/2`. -/
def Draw.half : Draw := ⟨1 / 2, by norm_num, by norm_num⟩

/-- The draw `(n mod 40) / 40`; the source `fun n => Draw.fortieth n` visits
`0, 1/40, ..., 39/40` cyclically. -/
def Draw.fortieth (n : Nat) : Draw :=
  ⟨((n % 40 : Nat) : ℚ) / 40, by positivity, by
    rw [div_lt_one (by norm_num)]
    exact_mod_cast Nat.mod_lt n (by norm_num)⟩

/-- The direction cues: `config.directions` of experiment.js, of which the
up/down variant uses the first two. -/
inductive Direction
  | up
  | down
  | left
  | right
  deriving DecidableEq, Repr

namespace Experiment

/-- The `while (checks.length < numChecks)` loop of `generateAttentionChecks`
(experiment.js 356-361).  `k` is the index of the next `Math.random()` call,
`fuel` bounds the number of iterations. -/
def sampleLoop (totalTrials numChecks : Int) (random : Nat → Draw) :
    Nat → Nat → List Int → Option (List Int)
  | 0, _, checks => if (checks.length : Int) < numChecks then none else some checks
  | fuel + 1, k, checks =>
    if (checks.length : Int) < numChecks then
      let trialNum : Int := ⌊(random k).val * (totalTrials : ℚ)⌋ + 1
      if trialNum ∈ checks then
        sampleLoop totalTrials numChecks random fuel (k + 1) checks
      else
        sampleLoop totalTrials numChecks random fuel (k + 1) (checks ++ [trialNum])
    else some checks

/-- Function `generateAttentionChecks()` (experiment.js 352-364).  The two fields of
`config.state` it reads, `totalTrials` and `questionProbability`, are passed
explicitly.  `checks.sort((a, b) => a - b)` is the ascending numeric sort. -/
def generateAttentionChecks (totalTrials : Int) (questionProbability : ℚ)
    (random : Nat → Draw) (fuel : Nat) : Option (List Int) :=
  let numChecks : Int := ⌊(totalTrials : ℚ) * questionProbability⌋
  (sampleLoop totalTrials numChecks random fuel 0 []).map
    (fun checks => checks.insertionSort (· ≤ ·))

/-- A random source in which every trial number of `[1, totalTrials]` keeps
occurring: after any point `N` it is drawn again. -/
def FairSource (totalTrials : Int) (random : Nat → Draw) : Prop :=
  ∀ t : Int, 1 ≤ t → t ≤ totalTrials →
    ∀ N : Nat, ∃ n, N ≤ n ∧ ⌊(random n).val * (totalTrials : ℚ)⌋ + 1 = t

/-! ### The session controller of experiment.js

The page is event driven: a button click or an elapsed timer runs a piece of
code to its next `await`, where the activation is suspended.  `Sys` holds
`config.state`, the suspended activations, the `disabled` flags that the controller
sets on its buttons and logs of the observable effects; `step` runs one event. -/

/-- The modes set by the three mode buttons (experiment.js 99-101). -/
inductive Mode
  | innerSpeech
  | visualized
  | pronounced
  deriving DecidableEq, Repr

/-- Object `config.timings` (experiment.js 11-19), in milliseconds. -/
structure Timings where
  concentrationInterval : Int
  cueInterval : Int
  actionInterval : Int
  relaxInterval : Int
  restIntervalMin : Int
  restIntervalMax : Int
  modeAnnouncementDuration : Int

/-- The shipped `config.timings`. -/
def config.timings : Timings :=
  { concentrationInterval := 500, cueInterval := 500, actionInterval := 2500,
    relaxInterval := 1000, restIntervalMin := 1500, restIntervalMax := 2000,
    modeAnnouncementDuration := 3000 }

/-- Object `config.directions` (experiment.js 37). -/
def config.directions : List Direction :=
  [Direction.up, Direction.down, Direction.left, Direction.right]

/-- Object `config.state` (experiment.js 22-34). -/
structure State where
  currentMode : Option Mode
  isRunning : Bool
  isPaused : Bool
  currentDirection : Option Direction
  currentTrial : Int
  totalTrials : Int
  lastDirection : Option Direction
  sessionStartTime : Option Int
  questionProbability : ℚ
  isConnectedToCrown : Bool
  attentionChecks : List Int

/-- The initial `config.state`. -/
def config.state : State :=
  { currentMode := none, isRunning := false, isPaused := false, currentDirection := none,
    currentTrial := 0, totalTrials := 40, lastDirection := none, sessionStartTime := none,
    questionProbability := 3 / 20, isConnectedToCrown := false, attentionChecks := [] }

/-- The requests sent to the recording device: `/api/session/start`,
`/api/trial/start`, `/api/trial/end` and `/api/session/end`, with the fields of
their bodies that come from `config.state` (time stamps are left out). -/
inductive DeviceCall
  | startSession (mode : Option Mode) (totalTrials : Int)
  | startTrial (trialNumber : Int) (direction : Option Direction) (condition : Option Mode)
  | endTrial
  | endSession
  deriving DecidableEq, Repr

/-- How a device request ends: `data.success` true, `data.success` false, or a
thrown error. -/
inductive Outcome
  | ok
  | failed
  | threw
  deriving DecidableEq, Repr

/-- The phases of one trial. -/
inductive Phase
  | rest
  | concentration
  | cue
  | action
  | relax
  | complete
  deriving DecidableEq, Repr

/-- The `await` points at which an activation is suspended, and the timers of
`checkAttention`. -/
inductive Cont
  /-- Activation of `startExperiment` awaiting the session-start request (316-330). -/
  | sessionStartFetch
  /-- Activation of `startExperiment` awaiting `announceModeAndWait()` (345). -/
  | announce
  /-- Activation of `runNextTrial` awaiting `sleep(restDuration)` (420). -/
  | rest
  /-- Activation of `runNextTrial` awaiting the trial-start request (432-447). -/
  | trialStartFetch
  /-- Activation of `runNextTrial` awaiting `sleep(concentrationInterval)` (462). -/
  | concentration
  /-- Activation of `runNextTrial` awaiting `sleep(cueInterval)` (469). -/
  | cue
  /-- Activation of `runNextTrial` awaiting `sleep(actionInterval)` (484). -/
  | action
  /-- Activation of `runNextTrial` awaiting `sleep(relaxInterval)` (491). -/
  | relax
  /-- Activation of `runNextTrial` awaiting the trial-end request (502). -/
  | trialEndFetch
  /-- Activation of `runNextTrial` awaiting the promise of `showAttentionCheck()` (515). -/
  | attentionCheck
  /-- The 2000 ms timer of `checkAttention` (571). -/
  | feedbackDelay
  /-- The 500 ms timer of `checkAttention` (574). -/
  | fadeOut
  /-- Activation of `stopExperiment` awaiting the session-end request (640-647). -/
  | sessionEndFetch
  deriving DecidableEq, Repr

/-- The feedback shown by `checkAttention` (565-567): correct, or incorrect
together with the direction named in the message. -/
inductive Feedback
  | correct
  | incorrect (actual : Option Direction)
  deriving DecidableEq, Repr

/-- The connection form (its confirm button and inputs, 689-693): enabled, or disabled
while the activation of `connectToCrown` awaits the connect request (201) or, after a
successful connection, the 1500 ms timer that enables the form again (218-221). -/
inductive ConnectForm
  | enabled
  | awaitingResponse
  | awaitingTimer
  deriving DecidableEq, Repr

/-- The controller: `config.state`, the suspended activations, whether
`window.attentionCheckResolve` is set, the random source with the number of
draws taken, the logs of device calls, of phase waits (trial number, phase,
milliseconds) and of attention-check feedback, the `disabled` flag of the Start button
(273, 300, 617), the `disabled` flag of the three mode buttons, which are always set
together (303-305, 620-622), and the state of the connection form. -/
structure Sys where
  state : State
  pending : List Cont
  attentionCheckResolve : Bool
  random : Nat → Draw
  draws : Nat
  calls : List DeviceCall
  timeline : List (Int × Phase × Int)
  feedback : List Feedback
  startDisabled : Bool
  modeDisabled : Bool
  connectForm : ConnectForm

/-- A freshly loaded page: nothing suspended, nothing logged, no button disabled by the
controller.  The markup of the page is not among the sources; a Start button that the
markup disables behaves as the enabled one does, since `startExperiment` returns at once
until a mode is selected (281) and selecting a mode enables the button (273). -/
def Sys.init (state : State) (random : Nat → Draw) : Sys :=
  { state := state, pending := [], attentionCheckResolve := false, random := random,
    draws := 0, calls := [], timeline := [], feedback := [], startDisabled := false,
    modeDisabled := false, connectForm := ConnectForm.enabled }

/-- What can happen to the page: a click on a mode button, on Start (with the
value of `Date.now()` and the list returned by `generateAttentionChecks()` on
that call), on Pause or on Stop, a click on a direction button of the question
panel, the completion of what a suspended activation waits for (a timer,
or a device request with its outcome), a click on the confirm button of the connection
form (`complete` tells whether all three credentials are filled in), the completion of
the connect request, and the timer that enables the connection form again. -/
inductive Event
  | setMode (mode : Mode)
  | clickStart (now : Int) (checks : List Int)
  | clickPause
  | clickStop
  | answer (selectedDirection : Direction)
  | wake (c : Cont) (o : Outcome)
  | clickConfirmConnect (complete : Bool)
  | connectResponse (o : Outcome)
  | connectTimer

/-- Function `connectToCrown()` (173-233) up to its `await`: on a connected page it
disconnects (175-182); otherwise, with all credentials filled in, it disables the form and
sends the connect request (195-207). -/
def connectToCrown (complete : Bool) (sys : Sys) : Sys :=
  if sys.state.isConnectedToCrown then
    { sys with state := { sys.state with isConnectedToCrown := false } }
  else if !complete then sys
  else { sys with connectForm := ConnectForm.awaitingResponse }

/-- The rest of `connectToCrown()` once the connect request has completed (209-232): on
success the page is connected and the form stays disabled until the timer; otherwise the
form is enabled again. -/
def connectToCrownResponse (o : Outcome) (sys : Sys) : Sys :=
  if o = Outcome.ok then
    { sys with state := { sys.state with isConnectedToCrown := true },
               connectForm := ConnectForm.awaitingTimer }
  else { sys with connectForm := ConnectForm.enabled }

/-- Function `setMode(mode)` (238-274). -/
def setMode (mode : Mode) (sys : Sys) : Sys :=
  if sys.state.isRunning && !sys.state.isPaused then sys
  else { sys with state := { sys.state with currentMode := some mode },
                  startDisabled := false }

/-- Function `stopExperiment()` (610-664) up to its `await`. -/
def stopExperiment (sys : Sys) : Sys :=
  if !sys.state.isRunning then sys
  else
    let sys : Sys :=
      { sys with state := { sys.state with isRunning := false, isPaused := false },
                 startDisabled := false, modeDisabled := false }
    if sys.state.isConnectedToCrown then
      { sys with calls := sys.calls ++ [DeviceCall.endSession],
                 pending := sys.pending ++ [Cont.sessionEndFetch] }
    else sys

/-- The rest interval `Math.floor(Math.random() * (restIntervalMax - restIntervalMin)
+ restIntervalMin)` (412-415). -/
def restDuration (timings : Timings) (r : Draw) : Int :=
  ⌊r.val * ((timings.restIntervalMax : ℚ) - (timings.restIntervalMin : ℚ))
    + (timings.restIntervalMin : ℚ)⌋

/-- Function `runNextTrial()` (396-420) up to its first `await`. -/
def runNextTrial (sys : Sys) : Sys :=
  if !sys.state.isRunning || sys.state.isPaused then sys
  else
    let sys : Sys :=
      { sys with state := { sys.state with currentTrial := sys.state.currentTrial + 1 } }
    if sys.state.currentTrial > sys.state.totalTrials then stopExperiment sys
    else
      { sys with draws := sys.draws + 1,
                 timeline := sys.timeline ++ [(sys.state.currentTrial, Phase.rest,
                   restDuration config.timings (sys.random sys.draws))],
                 pending := sys.pending ++ [Cont.rest] }

/-- Function `showAttentionCheck()` (542-555), awaited by `runNextTrial` (515). -/
def showAttentionCheck (sys : Sys) : Sys :=
  { sys with state := { sys.state with isPaused := true },
             attentionCheckResolve := true,
             pending := sys.pending ++ [Cont.attentionCheck] }

/-- The end of `runNextTrial` (513-519): the attention check if one is scheduled
for this trial, then the next trial. -/
def finishTrial (sys : Sys) : Sys :=
  if sys.state.currentTrial ∈ sys.state.attentionChecks then showAttentionCheck sys
  else runNextTrial sys

/-- Entering the concentration interval (458-462). -/
def enterConcentration (sys : Sys) : Sys :=
  { sys with timeline := sys.timeline ++ [(sys.state.currentTrial, Phase.concentration,
               config.timings.concentrationInterval)],
             pending := sys.pending ++ [Cont.concentration] }

/-- Function `startExperiment()` (279-347) up to its first `await`.  `resumeExperiment`
(288) is defined nowhere, so the call throws and nothing changes. -/
def startExperiment (now : Int) (checks : List Int) (sys : Sys) : Sys :=
  if sys.state.currentMode = none then sys
  else if sys.state.isPaused then sys
  else
    let sys : Sys :=
      { sys with state := { sys.state with isRunning := true, isPaused := false,
                                           currentTrial := 0, sessionStartTime := some now,
                                           attentionChecks := checks },
                 startDisabled := true, modeDisabled := true }
    if sys.state.isConnectedToCrown then
      { sys with calls := sys.calls ++
                   [DeviceCall.startSession sys.state.currentMode sys.state.totalTrials],
                 pending := sys.pending ++ [Cont.sessionStartFetch] }
    else { sys with pending := sys.pending ++ [Cont.announce] }

/-- Function `checkAttention(selectedDirection)` (560-586) up to its first timer. -/
def checkAttention (selectedDirection : Direction) (sys : Sys) : Sys :=
  let correctDirection : Option Direction := sys.state.lastDirection
  let isCorrect : Bool := decide (some selectedDirection = correctDirection)
  { sys with feedback := sys.feedback ++
               [if isCorrect then Feedback.correct else Feedback.incorrect correctDirection],
             pending := sys.pending ++ [Cont.feedbackDelay] }

/-- Function `pauseExperiment()` (591-605). -/
def pauseExperiment (sys : Sys) : Sys :=
  if !sys.state.isRunning then sys
  else
    let sys : Sys := { sys with state := { sys.state with isPaused := !sys.state.isPaused } }
    if sys.state.isPaused then sys else runNextTrial sys

/-- The promise of `showAttentionCheck()` is resolved (581): the activation
awaiting it continues with `runNextTrial()` (519). -/
def resumeAttentionCheck (sys : Sys) : Sys :=
  runNextTrial { sys with pending := sys.pending.erase Cont.attentionCheck }

/-- The code that runs when the activation suspended at `c` is resumed; `o` is
the outcome of the device request it waited for (unused for timers).  The
activation itself has already been removed from `pending`. -/
def resume (c : Cont) (o : Outcome) (sys : Sys) : Sys :=
  match c with
  | Cont.sessionStartFetch =>
    -- 330-345
    if o = Outcome.ok then { sys with pending := sys.pending ++ [Cont.announce] }
    else stopExperiment sys
  | Cont.announce => runNextTrial sys
  | Cont.rest =>
    -- 422-454
    if !sys.state.isRunning || sys.state.isPaused then sys
    else
      let directionIndex : Int :=
        ⌊(sys.random sys.draws).val * ((config.directions.length : Nat) : ℚ)⌋
      let direction : Option Direction := config.directions[directionIndex.toNat]?
      let sys : Sys :=
        { sys with draws := sys.draws + 1,
                   state := { sys.state with currentDirection := direction,
                                             lastDirection := direction } }
      if sys.state.isConnectedToCrown then
        { sys with calls := sys.calls ++
                     [DeviceCall.startTrial sys.state.currentTrial sys.state.currentDirection
                       sys.state.currentMode],
                   pending := sys.pending ++ [Cont.trialStartFetch] }
      else enterConcentration sys
  | Cont.trialStartFetch => enterConcentration sys
  | Cont.concentration =>
    -- 464-469
    if !sys.state.isRunning || sys.state.isPaused then sys
    else
      { sys with timeline := sys.timeline ++
                   [(sys.state.currentTrial, Phase.cue, config.timings.cueInterval)],
                 pending := sys.pending ++ [Cont.cue] }
  | Cont.cue =>
    -- 471-484
    if !sys.state.isRunning || sys.state.isPaused then sys
    else
      { sys with timeline := sys.timeline ++
                   [(sys.state.currentTrial, Phase.action, config.timings.actionInterval)],
                 pending := sys.pending ++ [Cont.action] }
  | Cont.action =>
    -- 486-491
    if !sys.state.isRunning || sys.state.isPaused then sys
    else
      { sys with timeline := sys.timeline ++
                   [(sys.state.currentTrial, Phase.relax, config.timings.relaxInterval)],
                 pending := sys.pending ++ [Cont.relax] }
  | Cont.relax =>
    -- 493-511
    if !sys.state.isRunning || sys.state.isPaused then sys
    else
      let sys : Sys :=
        { sys with timeline := sys.timeline ++ [(sys.state.currentTrial, Phase.complete, 0)] }
      if sys.state.isConnectedToCrown then
        { sys with calls := sys.calls ++ [DeviceCall.endTrial],
                   pending := sys.pending ++ [Cont.trialEndFetch] }
      else finishTrial sys
  | Cont.trialEndFetch => finishTrial sys
  | Cont.attentionCheck => runNextTrial sys
  | Cont.feedbackDelay => { sys with pending := sys.pending ++ [Cont.fadeOut] }
  | Cont.fadeOut =>
    -- 575-583
    let sys : Sys := { sys with state := { sys.state with isPaused := false } }
    if sys.attentionCheckResolve then
      resumeAttentionCheck { sys with attentionCheckResolve := false }
    else sys
  | Cont.sessionEndFetch => sys

/-- One event.  A click on a mode button, on Start or on the confirm button of the
connection form reaches its handler (99-104, 110) only while the button is not disabled.
The handlers of Pause and Stop return at once when no run is in progress (592, 611) and
the two buttons are enabled when a run starts (301-302), so that their clicks are passed
to the handlers as they are.  A `wake` is effective only for a suspended activation; the
one awaiting an attention check is resumed by `checkAttention` alone. -/
def step (sys : Sys) : Event → Sys
  | Event.setMode mode => if sys.modeDisabled then sys else setMode mode sys
  | Event.clickStart now checks =>
    if sys.startDisabled then sys else startExperiment now checks sys
  | Event.clickPause => pauseExperiment sys
  | Event.clickStop => stopExperiment sys
  | Event.answer selectedDirection => checkAttention selectedDirection sys
  | Event.wake c o =>
    if c ∈ sys.pending ∧ c ≠ Cont.attentionCheck then
      resume c o { sys with pending := sys.pending.erase c }
    else sys
  | Event.clickConfirmConnect complete =>
    if sys.connectForm = ConnectForm.enabled then connectToCrown complete sys else sys
  | Event.connectResponse o =>
    if sys.connectForm = ConnectForm.awaitingResponse then connectToCrownResponse o sys
    else sys
  | Event.connectTimer =>
    if sys.connectForm = ConnectForm.awaitingTimer then
      { sys with connectForm := ConnectForm.enabled }
    else sys

/-- A sequence of events, in order. -/
def run (sys : Sys) (events : List Event) : Sys :=
  events.foldl step sys

/-- The kind of a device call, with the trial number of a trial start. -/
inductive CallKind
  | startSession
  | startTrial (trialNumber : Int)
  | endTrial
  | endSession
  deriving DecidableEq, Repr

/-- The kind of a logged device call. -/
def DeviceCall.kind : DeviceCall → CallKind
  | DeviceCall.startSession _ _ => CallKind.startSession
  | DeviceCall.startTrial trialNumber _ _ => CallKind.startTrial trialNumber
  | DeviceCall.endTrial => CallKind.endTrial
  | DeviceCall.endSession => CallKind.endSession

/-- The calls `startTrial(k), endTrial` for `k = 1..n` in order. -/
def trialCalls : Nat → List CallKind
  | 0 => []
  | n + 1 => trialCalls n ++ [CallKind.startTrial ((n : Int) + 1), CallKind.endTrial]

/-- The call sequence the specification gives for a session of `n` trials:
`startSession`, then `startTrial(k), endTrial` for `k = 1..n`, then `endSession`. -/
def sessionCalls (n : Nat) : List CallKind :=
  CallKind.startSession :: trialCalls n ++ [CallKind.endSession]

/-- The events of a session without pause or stop in which the session-start
request succeeds: answers to attention checks, elapsed timers and completed
device requests with any outcome at trial level. -/
def quietEvent : Event → Bool
  | Event.answer _ => true
  | Event.wake Cont.sessionStartFetch o => decide (o = Outcome.ok)
  | Event.wake _ _ => true
  | _ => false

/-- The timers of `checkAttention` and the tail of `stopExperiment`: activations
that never continue the trial loop. -/
def Cont.isAux : Cont → Bool
  | Cont.feedbackDelay => true
  | Cont.fadeOut => true
  | Cont.sessionEndFetch => true
  | _ => false

/-- The suspended activations that drive the session: those of `startExperiment`
and `runNextTrial`. -/
def driversOf (pending : List Cont) : List Cont :=
  pending.filter (fun c => !c.isAux)

/-- The facts shared by all stages of a session on a connected device with `n`
trials and attention-check schedule `checks`: the run flags, the single driving
activation and the calls issued. -/
def StageHolds (n : Nat) (checks : List Int) (sys : Sys) (running paused : Bool)
    (drivers : List Cont) (kinds : List CallKind) : Prop :=
  sys.state.isConnectedToCrown = true ∧ sys.state.totalTrials = (n : Int) ∧
    sys.state.attentionChecks = checks ∧
    sys.state.isRunning = running ∧ sys.state.isPaused = paused ∧
    sys.attentionCheckResolve = paused ∧ driversOf sys.pending = drivers ∧
    sys.calls.map DeviceCall.kind = kinds

/-- The stages a session without pause or stop passes through; `k` counts the
trials already completed and `c` is the `await` point inside the running trial. -/
inductive Stage
  | awaitingSession
  | announcing
  | resting (k : Nat)
  | inTrial (k : Nat) (c : Cont)
  | ending (k : Nat)
  | checking (k : Nat)
  | finished

/-- The controller is at the given stage: its flags, its driving activation, its
trial counter and the calls issued so far are those of the stage. -/
def AtStage (n : Nat) (checks : List Int) (sys : Sys) : Stage → Prop
  | Stage.awaitingSession =>
    sys.state.currentTrial = 0 ∧
      StageHolds n checks sys true false [Cont.sessionStartFetch] [CallKind.startSession]
  | Stage.announcing =>
    sys.state.currentTrial = 0 ∧
      StageHolds n checks sys true false [Cont.announce] [CallKind.startSession]
  | Stage.resting k =>
    k + 1 ≤ n ∧ sys.state.currentTrial = (k : Int) + 1 ∧
      StageHolds n checks sys true false [Cont.rest] (CallKind.startSession :: trialCalls k)
  | Stage.inTrial k c =>
    c ∈ [Cont.trialStartFetch, Cont.concentration, Cont.cue, Cont.action, Cont.relax] ∧
      k + 1 ≤ n ∧ sys.state.currentTrial = (k : Int) + 1 ∧
      StageHolds n checks sys true false [c]
        (CallKind.startSession :: trialCalls k ++ [CallKind.startTrial ((k : Int) + 1)])
  | Stage.ending k =>
    k + 1 ≤ n ∧ sys.state.currentTrial = (k : Int) + 1 ∧
      StageHolds n checks sys true false [Cont.trialEndFetch]
        (CallKind.startSession :: trialCalls (k + 1))
  | Stage.checking k =>
    k + 1 ≤ n ∧ sys.state.currentTrial = (k : Int) + 1 ∧
      StageHolds n checks sys true true [Cont.attentionCheck]
        (CallKind.startSession :: trialCalls (k + 1))
  | Stage.finished => StageHolds n checks sys false false [] (sessionCalls n)

/-- The stage reached by `runNextTrial()` after `j` completed trials. -/
def Stage.next (n j : Nat) : Stage :=
  if j < n then Stage.resting j else Stage.finished

/-- The events of trial `k + 1` in a session without pause or stop: the timers and
device requests in order, the requests ending with the given outcomes, and, if the
trial is in the schedule, an answer to the attention check and its two timers. -/
def trialEvents (checks : List Int) (startOutcome endOutcome : Nat → Outcome)
    (answers : Nat → Direction) (k : Nat) : List Event :=
  [Event.wake Cont.rest Outcome.ok, Event.wake Cont.trialStartFetch (startOutcome k),
    Event.wake Cont.concentration Outcome.ok, Event.wake Cont.cue Outcome.ok,
    Event.wake Cont.action Outcome.ok, Event.wake Cont.relax Outcome.ok,
    Event.wake Cont.trialEndFetch (endOutcome k)] ++
  (if ((k : Int) + 1) ∈ checks then
    [Event.answer (answers k), Event.wake Cont.feedbackDelay Outcome.ok,
      Event.wake Cont.fadeOut Outcome.ok]
  else [])

/-- The events of the `d` trials that follow `j` completed trials. -/
def trialsFrom (checks : List Int) (startOutcome endOutcome : Nat → Outcome)
    (answers : Nat → Direction) : Nat → Nat → List Event
  | _, 0 => []
  | j, d + 1 =>
    trialEvents checks startOutcome endOutcome answers j ++
      trialsFrom checks startOutcome endOutcome answers (j + 1) d

/-- The events of a whole session of `n` trials after the click on Start. -/
def sessionEvents (checks : List Int) (startOutcome endOutcome : Nat → Outcome)
    (answers : Nat → Direction) (n : Nat) : List Event :=
  [Event.wake Cont.sessionStartFetch Outcome.ok, Event.wake Cont.announce Outcome.ok] ++
    trialsFrom checks startOutcome endOutcome answers 0 n

/-- A page with the visualized mode selected, a connected device and three trials per
session. -/
def threeTrialState : State :=
  { config.state with currentMode := some Mode.visualized, isConnectedToCrown := true,
                      totalTrials := 3 }

/-- A controller whose session has stopped on a connected device, with two calls logged. -/
def stoppedSys : Sys :=
  { Sys.init { config.state with currentMode := some Mode.visualized,
                                 isConnectedToCrown := true }
      (fun _ => Draw.half) with
    calls := [DeviceCall.startSession (some Mode.visualized) 40, DeviceCall.endSession] }

/-! ### Example states and event classes for the session lifecycle -/

/-- A run in progress on a connected device: trial 7 of 40 at its cue interval, with a
schedule, a start time and the calls of a started trial. -/
def runningSys : Sys :=
  { state := { config.state with currentMode := some Mode.innerSpeech, isRunning := true,
                                 isPaused := false, currentTrial := 7,
                                 currentDirection := some Direction.left,
                                 lastDirection := some Direction.left,
                                 sessionStartTime := some 100,
                                 isConnectedToCrown := true,
                                 attentionChecks := [3, 9, 14, 20, 27, 33] },
    pending := [Cont.cue], attentionCheckResolve := false, random := fun _ => Draw.zero,
    draws := 14,
    calls := [DeviceCall.startSession (some Mode.innerSpeech) 40,
              DeviceCall.startTrial 7 (some Direction.left) (some Mode.innerSpeech)],
    timeline := [(7, Phase.rest, 1500), (7, Phase.concentration, 500), (7, Phase.cue, 500)],
    feedback := [],
    startDisabled := true, modeDisabled := true, connectForm := ConnectForm.enabled }

/-- The run of `runningSys` after a click on Pause. -/
def pausedSys : Sys :=
  { runningSys with state := { runningSys.state with isPaused := true } }

/-- Trial 5 of a run on a connected device during its action interval. -/
def trialFiveAction : Sys :=
  { state := { config.state with currentMode := some Mode.innerSpeech, isRunning := true,
                                 isPaused := false, currentTrial := 5,
                                 currentDirection := some Direction.up,
                                 lastDirection := some Direction.up,
                                 sessionStartTime := some 100,
                                 isConnectedToCrown := true, attentionChecks := [] },
    pending := [Cont.action], attentionCheckResolve := false, random := fun _ => Draw.zero,
    draws := 10,
    calls := [DeviceCall.startTrial 5 (some Direction.up) (some Mode.innerSpeech)],
    timeline := [(5, Phase.rest, 1500), (5, Phase.concentration, 500), (5, Phase.cue, 500),
                 (5, Phase.action, 2500)],
    feedback := [],
    startDisabled := true, modeDisabled := true, connectForm := ConnectForm.enabled }

/-- A page with a mode selected and a connected device, no run started. -/
def readySys : Sys :=
  Sys.init { config.state with currentMode := some Mode.pronounced,
                               isConnectedToCrown := true }
    (fun _ => Draw.zero)

/-- Every event but a click on Start. -/
def Event.notStart : Event → Bool
  | Event.clickStart _ _ => false
  | _ => true

/-- The suspended activations of `runNextTrial`. -/
def Cont.isTrialLoop : Cont → Bool
  | Cont.rest => true
  | Cont.trialStartFetch => true
  | Cont.concentration => true
  | Cont.cue => true
  | Cont.action => true
  | Cont.relax => true
  | Cont.trialEndFetch => true
  | Cont.attentionCheck => true
  | _ => false

/-- A freshly loaded page with the visualized mode selected, a connected device and
three trials per session. -/
def threeTrialSys : Sys :=
  Sys.init threeTrialState (fun _ => Draw.zero)

/-- A session is started, its first trial reaches the rest interval, and the user clicks
Pause and then Pause again (resume) before the rest interval has elapsed. -/
def pauseResumeEvents : List Event :=
  [Event.clickStart 0 [], Event.wake Cont.sessionStartFetch Outcome.ok,
    Event.wake Cont.announce Outcome.ok, Event.clickPause, Event.clickPause]

/-- After `pauseResumeEvents`: each timer and each device request of the two suspended
activations completes, first the one of the older activation, then the one of the newer. -/
def doubleLoopEvents : List Event :=
  [Event.wake Cont.rest Outcome.ok, Event.wake Cont.rest Outcome.ok,
    Event.wake Cont.trialStartFetch Outcome.ok, Event.wake Cont.trialStartFetch Outcome.ok,
    Event.wake Cont.concentration Outcome.ok, Event.wake Cont.concentration Outcome.ok,
    Event.wake Cont.cue Outcome.ok, Event.wake Cont.cue Outcome.ok,
    Event.wake Cont.action Outcome.ok, Event.wake Cont.action Outcome.ok,
    Event.wake Cont.relax Outcome.ok, Event.wake Cont.relax Outcome.ok,
    Event.wake Cont.trialEndFetch Outcome.ok, Event.wake Cont.trialEndFetch Outcome.ok]

/-- Whether a device call is a trial start. -/
def DeviceCall.isStartTrial : DeviceCall → Bool
  | DeviceCall.startTrial _ _ _ => true
  | _ => false

/-- The events that can occur while an attention check is outstanding without a click on
Pause or Start and before the last timer of `checkAttention` has elapsed (the moment at
which the answer is processed). -/
def Event.keepsCheck : Event → Bool
  | Event.clickPause => false
  | Event.clickStart _ _ => false
  | Event.wake Cont.fadeOut _ => false
  | _ => true

/-- Trial 2 of 3 has just ended on a connected device and is in the schedule. -/
def trialTwoDone : Sys :=
  { state := { config.state with currentMode := some Mode.innerSpeech, isRunning := true,
                                 isPaused := false, currentTrial := 2, totalTrials := 3,
                                 currentDirection := some Direction.up,
                                 lastDirection := some Direction.up,
                                 sessionStartTime := some 100,
                                 isConnectedToCrown := true, attentionChecks := [2] },
    pending := [], attentionCheckResolve := false, random := fun _ => Draw.zero,
    draws := 4,
    calls := [DeviceCall.startTrial 2 (some Direction.up) (some Mode.innerSpeech),
              DeviceCall.endTrial],
    timeline := [], feedback := [],
    startDisabled := true, modeDisabled := true, connectForm := ConnectForm.enabled }

/-- The session of `threeTrialSys` has been started and trial 1 is in its rest interval. -/
def restingSys : Sys :=
  run threeTrialSys [Event.clickStart 0 [], Event.wake Cont.sessionStartFetch Outcome.ok,
    Event.wake Cont.announce Outcome.ok]

/-- The events of one trial from the end of its rest interval to the end of its relax
interval, the trial-start request ending with the given outcome. -/
def phaseEvents (startOutcome : Outcome) : List Event :=
  [Event.wake Cont.rest Outcome.ok, Event.wake Cont.trialStartFetch startOutcome,
    Event.wake Cont.concentration Outcome.ok, Event.wake Cont.cue Outcome.ok,
    Event.wake Cont.action Outcome.ok, Event.wake Cont.relax Outcome.ok]

/-- The direction sent with a trial-start call. -/
def DeviceCall.startedDirection : DeviceCall → Option (Option Direction)
  | DeviceCall.startTrial _ direction _ => some direction
  | _ => none

/-- The directions sent in the trial-start calls, oldest first. -/
def trialStartDirections (calls : List DeviceCall) : List (Option Direction) :=
  calls.filterMap DeviceCall.startedDirection

/-- Whether some trial has entered its concentration interval. -/
def concentrationEntered (timeline : List (Int × Phase × Int)) : Bool :=
  timeline.any (fun entry => decide (entry.2.1 = Phase.concentration))

/-- Some trial has started since the page was loaded: a trial-start call has been issued
(connected device) or a concentration interval has been entered. -/
def trialStarted (sys : Sys) : Prop :=
  trialStartDirections sys.calls ≠ [] ∨ concentrationEntered sys.timeline = true

/-- What holds of the direction fields in every state reached from a freshly loaded page. -/
structure DirInv (sys : Sys) : Prop where
  current : sys.state.lastDirection = sys.state.currentDirection
  started : sys.state.lastDirection ≠ none ↔ trialStarted sys
  awaiting : Cont.trialStartFetch ∈ sys.pending → trialStartDirections sys.calls ≠ []

/-- The events of the connection form: a click on its confirm button, the completion of
the connect request and the timer that enables the form again. -/
def Event.usesConnectForm : Event → Bool
  | Event.clickConfirmConnect _ => true
  | Event.connectResponse _ => true
  | Event.connectTimer => true
  | _ => false

/-- What holds of the trial-start calls in every state reached from a freshly loaded page
without an event of the connection form: the latest call carries lastDirection, and
without a device no call has been issued. -/
structure CallInv (sys : Sys) : Prop where
  latest : ∀ d, (trialStartDirections sys.calls).getLast? = some d →
    sys.state.lastDirection = d
  offline : sys.state.isConnectedToCrown = false → trialStartDirections sys.calls = []

/-- The direction of the trial that the event starts in the given state, if it starts
one: the rest interval of a suspended activation of `runNextTrial` ends while the run is
running and not paused (420-422), and the direction is drawn (424-427). -/
def trialStartAt (sys : Sys) : Event → Option (Option Direction)
  | Event.wake Cont.rest _ =>
    if Cont.rest ∈ sys.pending ∧ (!sys.state.isRunning || sys.state.isPaused) = false then
      some (config.directions[
        (⌊(sys.random sys.draws).val * ((config.directions.length : Nat) : ℚ)⌋).toNat]?)
    else none
  | _ => none

/-- The directions of the trials started by a sequence of events, oldest first. -/
def startedDirections (sys : Sys) : List Event → List (Option Direction)
  | [] => []
  | e :: events =>
    match trialStartAt sys e with
    | some direction => direction :: startedDirections (step sys e) events
    | none => startedDirections (step sys e) events

/-- While a run is in progress the Start button and the mode buttons are disabled. -/
def StartLocked (sys : Sys) : Prop :=
  sys.state.isRunning = true → sys.startDisabled = true ∧ sys.modeDisabled = true

/-- A schedule of six attention checks, as `generateAttentionChecks()` returns for 40
trials and probability 0.15. -/
def sixChecks : List Int := [3, 9, 14, 20, 27, 33]

/-- The page as loaded, with the shipped `config.state`. -/
def freshPage (random : Nat → Draw) : Sys :=
  Sys.init config.state random

/-- The device is connected through the connection form: the click on its confirm button
with the credentials filled in, the successful connect request and the timer that enables
the form again. -/
def connectEvents : List Event :=
  [Event.clickConfirmConnect true, Event.connectResponse Outcome.ok, Event.connectTimer]

/-- On a connected page with the pronounced mode selected: a click on Start, then, while
the session-start request is pending, a click on Pause and a second click on Pause
(resume), the rest interval of trial 1 elapses, and the session-start request throws. -/
def racedStartEvents : List Event :=
  connectEvents ++
    [Event.setMode Mode.pronounced, Event.clickStart 100 sixChecks, Event.clickPause,
      Event.clickPause, Event.wake Cont.rest Outcome.ok,
      Event.wake Cont.sessionStartFetch Outcome.threw]

/-- A random source whose first two draws are 0 and whose later draws are 1/2: trial 1
rests 1500 ms and gets the direction up, trial 2 gets the direction left. -/
def upThenLeft (n : Nat) : Draw :=
  if n < 2 then Draw.zero else Draw.half

/-- A session is started on a connected page and trial 1 starts; the user then disconnects
with the connection form; trial 1 runs to its end and the rest interval of trial 2
elapses. -/
def disconnectBetweenTrials : List Event :=
  connectEvents ++
    [Event.setMode Mode.innerSpeech, Event.clickStart 100 sixChecks,
      Event.wake Cont.sessionStartFetch Outcome.ok, Event.wake Cont.announce Outcome.ok,
      Event.wake Cont.rest Outcome.ok, Event.clickConfirmConnect true,
      Event.wake Cont.trialStartFetch Outcome.ok, Event.wake Cont.concentration Outcome.ok,
      Event.wake Cont.cue Outcome.ok, Event.wake Cont.action Outcome.ok,
      Event.wake Cont.relax Outcome.ok, Event.wake Cont.rest Outcome.ok]

/-- A session without a device, started on the loaded page and running in trial 1. -/
def offlineSessionEvents : List Event :=
  [Event.setMode Mode.visualized, Event.clickStart 100 sixChecks,
    Event.wake Cont.announce Outcome.ok, Event.wake Cont.rest Outcome.ok]

/-- The second controller differs from the first in nothing the direction invariant looks
at, apart from suspended activations that were removed. -/
def DirFrame (sys sys2 : Sys) : Prop :=
  sys2.state.lastDirection = sys.state.lastDirection ∧
    sys2.state.currentDirection = sys.state.currentDirection ∧
    sys2.state.isConnectedToCrown = sys.state.isConnectedToCrown ∧
    trialStartDirections sys2.calls = trialStartDirections sys.calls ∧
    concentrationEntered sys2.timeline = concentrationEntered sys.timeline ∧
    (Cont.trialStartFetch ∈ sys2.pending → Cont.trialStartFetch ∈ sys.pending)

/-- The events that start a session of a freshly loaded page and end the rest interval of
its first trial. -/
def firstTrialStart : List Event :=
  [Event.clickStart 0 [], Event.wake Cont.sessionStartFetch Outcome.ok,
    Event.wake Cont.announce Outcome.ok, Event.wake Cont.rest Outcome.ok]

/-- The events that can occur between a click on Start and the response to its
session-start request, a click on Pause or a second click on Start apart. -/
def Event.awaitsResponse : Event → Bool
  | Event.clickPause => false
  | Event.clickStart _ _ => false
  | Event.wake Cont.sessionStartFetch _ => false
  | _ => true

/-- A run paused during its last trial: trial 3 of 3 at the action interval, the activation
of the trial having ended at a phase boundary. -/
def pausedLastTrial : Sys :=
  { state := { config.state with currentMode := some Mode.innerSpeech, isRunning := true,
                                 isPaused := true, currentTrial := 3, totalTrials := 3,
                                 currentDirection := some Direction.up,
                                 lastDirection := some Direction.up,
                                 sessionStartTime := some 100,
                                 isConnectedToCrown := false, attentionChecks := [] },
    pending := [], attentionCheckResolve := false, random := fun _ => Draw.zero,
    draws := 6, calls := [],
    timeline := [(3, Phase.rest, 1500), (3, Phase.concentration, 500), (3, Phase.cue, 500),
                 (3, Phase.action, 2500)],
    feedback := [],
    startDisabled := true, modeDisabled := true, connectForm := ConnectForm.enabled }

/-- The timers and the request completion of one trial, from the end of its rest interval
to the end of its relax interval; the trial-start request exists only with a connected
device. -/
def trialPhaseEvents (connected : Bool) (startOutcome : Outcome) : List Event :=
  Event.wake Cont.rest Outcome.ok ::
    ((if connected then [Event.wake Cont.trialStartFetch startOutcome] else []) ++
      [Event.wake Cont.concentration Outcome.ok, Event.wake Cont.cue Outcome.ok,
        Event.wake Cont.action Outcome.ok, Event.wake Cont.relax Outcome.ok])

/-- A run in progress without a device: trial 1 of 3 has ended, pronounced mode. -/
def offlineRunning : Sys :=
  { state := { config.state with currentMode := some Mode.pronounced, isRunning := true,
                                 isPaused := false, currentTrial := 1, totalTrials := 3,
                                 sessionStartTime := some 100,
                                 isConnectedToCrown := false, attentionChecks := [] },
    pending := [], attentionCheckResolve := false, random := fun _ => Draw.half,
    draws := 2, calls := [], timeline := [], feedback := [],
    startDisabled := true, modeDisabled := true, connectForm := ConnectForm.enabled }

/-- The suspension points of `runNextTrial` that are followed by the check
`if (!config.state.isRunning || config.state.isPaused) return;` (422, 464, 471, 486, 493):
the ends of the rest, concentration, cue, action and relax intervals. -/
def Cont.isPhaseBoundary : Cont → Bool
  | Cont.rest => true
  | Cont.concentration => true
  | Cont.cue => true
  | Cont.action => true
  | Cont.relax => true
  | _ => false

/-- The suspension points of a trial that has been entered and not yet completed. -/
def Cont.inTrial : Cont → Bool
  | Cont.rest => true
  | Cont.trialStartFetch => true
  | Cont.concentration => true
  | Cont.cue => true
  | Cont.action => true
  | Cont.relax => true
  | _ => false

/-- The number of trials that reached their end (entries Complete of the phase log). -/
def completedTrials (timeline : List (Int × Phase × Int)) : Nat :=
  timeline.countP (fun entry => decide (entry.2.1 = Phase.complete))

/-- The number of trials that were entered (entries Rest of the phase log). -/
def enteredTrials (timeline : List (Int × Phase × Int)) : Nat :=
  timeline.countP (fun entry => decide (entry.2.1 = Phase.rest))

/-- The number of suspended activations that are inside a trial. -/
def inFlight (pending : List Cont) : Nat :=
  pending.countP Cont.inTrial

/-- Whether the event resumes an activation of `runNextTrial` at a phase boundary while
the run is paused, so that the activation returns there: a trial aborted by a pause. -/
def abortsAt (sys : Sys) : Event → Bool
  | Event.wake c _ => c.isPhaseBoundary && decide (c ∈ sys.pending) && sys.state.isPaused
  | _ => false

/-- The number of trials aborted by a pause in the course of a sequence of events. -/
def abortedByPause : Sys → List Event → Nat
  | _, [] => 0
  | sys, e :: events => (if abortsAt sys e then 1 else 0) + abortedByPause (step sys e) events

/-- The bookkeeping of the trials of one session: every entered trial is completed,
aborted or still in progress, and no more trials are entered than the counter and the
total allow; `aborted` is the number of trials aborted by a pause so far. -/
def Tally (sys : Sys) (aborted : Nat) : Prop :=
  completedTrials sys.timeline + aborted + inFlight sys.pending ≤ enteredTrials sys.timeline ∧
    (enteredTrials sys.timeline : Int) ≤ sys.state.currentTrial ∧
    (enteredTrials sys.timeline : Int) ≤ sys.state.totalTrials

/-- The second controller results from the first by a call that enters at most one trial
and completes none. -/
def Opens (sys sys2 : Sys) : Prop :=
  completedTrials sys2.timeline = completedTrials sys.timeline ∧
    sys2.state.totalTrials = sys.state.totalTrials ∧
    ((enteredTrials sys2.timeline = enteredTrials sys.timeline ∧
        inFlight sys2.pending = inFlight sys.pending ∧
        sys.state.currentTrial ≤ sys2.state.currentTrial) ∨
      (enteredTrials sys2.timeline = enteredTrials sys.timeline + 1 ∧
        inFlight sys2.pending = inFlight sys.pending + 1 ∧
        sys2.state.currentTrial = sys.state.currentTrial + 1 ∧
        sys2.state.currentTrial ≤ sys2.state.totalTrials))

/-- A session of three trials without a device in which the participant pauses during the
action interval of trial 1 and resumes after the interval has ended; all other timers
elapse in order. -/
def pausedSessionEvents : List Event :=
  [Event.wake Cont.announce Outcome.ok, Event.wake Cont.rest Outcome.ok,
    Event.wake Cont.concentration Outcome.ok, Event.wake Cont.cue Outcome.ok,
    Event.clickPause, Event.wake Cont.action Outcome.ok, Event.clickPause,
    Event.wake Cont.rest Outcome.ok, Event.wake Cont.concentration Outcome.ok,
    Event.wake Cont.cue Outcome.ok, Event.wake Cont.action Outcome.ok,
    Event.wake Cont.relax Outcome.ok,
    Event.wake Cont.rest Outcome.ok, Event.wake Cont.concentration Outcome.ok,
    Event.wake Cont.cue Outcome.ok, Event.wake Cont.action Outcome.ok,
    Event.wake Cont.relax Outcome.ok]

/-- A freshly loaded page with the inner-speech mode selected, no device and three trials
per session. -/
def offlineThreeTrials : State :=
  { config.state with currentMode := some Mode.innerSpeech, totalTrials := 3 }

end Experiment

namespace UpDown

/-- Object `config.settings` of up-down.js (lines 23-28). -/
structure Settings where
  upTrials : Nat
  downTrials : Nat
  randomizeOrder : Bool
  totalTrials : Nat

/-- The shipped `config.settings`. -/
def config.settings : Settings :=
  { upTrials := 10, downTrials := 10, randomizeOrder := true, totalTrials := 20 }

/-- Object `config.state` of up-down.js (lines 31-38). -/
structure State where
  isConnected : Bool
  isRunning : Bool
  currentTrial : Nat
  currentDirection : Option Direction
  sessionStartTime : Option Int
  trialSequence : List Direction

/-- The initial `config.state`. -/
def config.state : State :=
  { isConnected := false, isRunning := false, currentTrial := 0, currentDirection := none,
    sessionStartTime := none, trialSequence := [] }

/-- The destructuring swap `[trials[i], trials[j]] = [trials[j], trials[i]]`
(up-down.js 386): both old values are read, then position `i` receives the old
`trials[j]` and position `j` the old `trials[i]`.  The loop only calls it with
`j ≤ i < trials.length`; for an index outside the array the list is returned
unchanged. -/
def swap {α : Type} (trials : List α) (i j : Nat) : List α :=
  match trials[i]?, trials[j]? with
  | some a, some b => (trials.set i b).set j a
  | _, _ => trials

/-- The Fisher-Yates loop `for (let i = trials.length - 1; i > 0; i--)`
(up-down.js 384-387), entered at loop index `i`; `k` is the index of the next
`Math.random()` call and `j = Math.floor(Math.random() * (i + 1))`. -/
def shuffleLoop {α : Type} (random : Nat → Draw) : Nat → Nat → List α → List α
  | 0, _, trials => trials
  | i + 1, k, trials =>
    let j : Nat := ⌊(random k).val * (((i + 1 : Nat) : ℚ) + 1)⌋.toNat
    shuffleLoop random i (k + 1) (swap trials (i + 1) j)

/-- Function `generateTrialSequence()` (up-down.js 374-391): builds the block
`up ... up down ... down`, shuffles it when `randomizeOrder` is set and stores
it in `config.state.trialSequence`. -/
def generateTrialSequence (settings : Settings) (random : Nat → Draw) (state : State) : State :=
  let trials : List Direction :=
    List.replicate settings.upTrials Direction.up ++
      List.replicate settings.downTrials Direction.down
  let trials : List Direction :=
    if settings.randomizeOrder then shuffleLoop random (trials.length - 1) 0 trials else trials
  { state with trialSequence := trials }

/-- The same loop as `shuffleLoop`, driven by the chosen indices instead of the
draws: `js` lists the value of `j` of each iteration, in execution order (for
`i`, then `i - 1`, ..., down to `1`). -/
def shuffleWith {α : Type} : Nat → List Nat → List α → List α
  | i + 1, j :: js, trials => shuffleWith i js (swap trials (i + 1) j)
  | _, _, trials => trials

/-- The indices `j` that `shuffleLoop random i k` computes from the draws. -/
def choicesOf (random : Nat → Draw) : Nat → Nat → List Nat
  | 0, _ => []
  | i + 1, k => ⌊(random k).val * (((i + 1 : Nat) : ℚ) + 1)⌋.toNat :: choicesOf random i (k + 1)

/-- A choice vector for the loop entered at index `i`: one index `j ≤ i'` for
each loop index `i' = i, ..., 1`. -/
def ValidChoices : Nat → List Nat → Prop
  | 0, js => js = []
  | _ + 1, [] => False
  | i + 1, j :: js => j ≤ i + 1 ∧ ValidChoices i js

/-- All choice vectors for the loop entered at index `i`. -/
def allChoices : Nat → List (List Nat)
  | 0 => [[]]
  | i + 1 => (List.range (i + 2)).flatMap (fun j => (allChoices i).map (fun js => j :: js))

/-- The calls the page sends to the recording device (the `/api/...` routes). -/
inductive DeviceCall
  | startSession (totalTrials : Nat)
  | startTrial (trialNumber : Nat) (direction : Direction)
  | endTrial
  | endSession
  deriving DecidableEq, Repr

/-- The page state together with the log of device calls issued so far. -/
structure Sys where
  state : State
  calls : List DeviceCall

/-- Function `stopExperiment()` of up-down.js (lines 552-582) up to its `fetch`: clears
`isRunning` and, if connected, issues the end-session call.  What follows the
`await` only shows a status message. -/
def stopExperiment (sys : Sys) : Sys :=
  let state : State := { sys.state with isRunning := false }
  if state.isConnected then
    { state := state, calls := sys.calls ++ [DeviceCall.endSession] }
  else
    { state := state, calls := sys.calls }

/-- The page with a connected device and no experiment running, no call issued yet. -/
def connectedIdle : Sys :=
  { state := { config.state with isConnected := true, isRunning := false }, calls := [] }

/-- The page with a connected device and an experiment running, no call logged yet. -/
def connectedRunning : Sys :=
  { state := { config.state with isConnected := true, isRunning := true }, calls := [] }

end UpDown


namespace UpDown

/-- Function `startExperiment()` of up-down.js (lines 396-443) up to its first `await`:
the connection check, the reset of the run state and the session-start request.  The
argument `now` is the value of `Date.now()`. -/
def startExperiment (settings : Settings) (now : Int) (sys : Sys) : Sys :=
  if !sys.state.isConnected then sys
  else
    { state := { sys.state with isRunning := true, currentTrial := 0,
                                sessionStartTime := some now },
      calls := sys.calls ++ [DeviceCall.startSession settings.totalTrials] }

/-- The freshly loaded page of the up/down variant: no device connected, no call issued. -/
def loadedPage : Sys :=
  { state := config.state, calls := [] }

end UpDown

/-! ## The recording interface (neurosity-integration.js) -/

namespace Crown

/-- The object passed to `startTrial` (the body of `/api/trial/start`, experiment.js
436-441). -/
structure TrialInfo where
  trialNumber : Int
  direction : Option Direction
  condition : Option Experiment.Mode
  timestamp : Int
  deriving DecidableEq, Repr

/-- One entry of a trial's `data` (neurosity-integration.js 66-69): the value of
`Date.now()` and the raw epoch delivered by the device, kept as an uninterpreted
payload. -/
structure Sample where
  timestamp : Int
  brainwaves : List (List Int)
  deriving DecidableEq, Repr

/-- The object `this.currentTrial` (86-90), with `endTime` once `endTrial` has set it. -/
structure Trial where
  info : TrialInfo
  startTime : Int
  data : List Sample
  endTime : Option Int
  deriving DecidableEq, Repr

/-- The object passed to `startSession` (index.js 93-96). -/
structure SessionInfo where
  id : Nat
  mode : Option Experiment.Mode
  totalTrials : Int
  deriving DecidableEq, Repr

/-- The object `this.sessionData` once a session has been started (55-59). -/
structure SessionData where
  info : SessionInfo
  startTime : Int
  trials : List Trial
  endTime : Option Int
  deriving DecidableEq, Repr

/-- The fields of a `CrownInterface` that the session and trial methods read or write.
`neurosity` tells whether `this.neurosity` holds a device object (it is `null` after the
constructor and after `disconnect`); `statusSubscribed` tells whether the status callback
of line 37 has been registered (that subscription is not kept in `this.listeners` and is
never cancelled); `listeners` is the number of subscriptions to the raw stream held in
`this.listeners`; `sessionData = none` is the initial `{}`. -/
structure CrownInterface where
  isConnected : Bool
  neurosity : Bool
  statusSubscribed : Bool
  listeners : Nat
  recording : Bool
  currentTrial : Option Trial
  sessionData : Option SessionData
  deriving DecidableEq, Repr

/-- The interface built by the constructor (7-17). -/
def CrownInterface.new : CrownInterface :=
  { isConnected := false, neurosity := false, statusSubscribed := false, listeners := 0,
    recording := false, currentTrial := none, sessionData := none }

/-- Method `initialize(deviceId, email, password)` (19-47), taken as one step: the device
object is created (22); when the login and the user request succeed (`loggedIn`), the
interface is connected (34) and the status callback is registered (37); otherwise the
method returns false with the device object in place. -/
def initializeCrown (loggedIn : Bool) (crown : CrownInterface) : Bool × CrownInterface :=
  let crown : CrownInterface := { crown with neurosity := true }
  if loggedIn then (true, { crown with isConnected := true, statusSubscribed := true })
  else (false, crown)

/-- How a call of `startSession` ends: with a returned value, or with the `TypeError` of
`this.neurosity.brainwaves` when the device object is `null`. -/
inductive StartSessionResult
  | returned (value : Bool)
  | threw
  deriving DecidableEq, Repr

/-- Method `startSession(sessionInfo)` (49-76); `now` is the time read at line 57.  The
session record is replaced (55-59) before the raw stream is subscribed (62-63); without a
device object the subscription throws and no listener is added. -/
def startSession (sessionInfo : SessionInfo) (now : Int) (crown : CrownInterface) :
    StartSessionResult × CrownInterface :=
  if !crown.isConnected then (StartSessionResult.returned false, crown)
  else
    let crown : CrownInterface := { crown with
      sessionData := some { info := sessionInfo, startTime := now, trials := [],
                            endTime := none } }
    if crown.neurosity then
      (StartSessionResult.returned true, { crown with listeners := crown.listeners + 1 })
    else (StartSessionResult.threw, crown)

/-- Method `startTrial(trialInfo)` (78-93); `now` is the time read at line 87. -/
def startTrial (trialInfo : TrialInfo) (now : Int) (crown : CrownInterface) :
    Bool × CrownInterface :=
  if !crown.isConnected then (false, crown)
  else
    (true, { crown with
      recording := true,
      currentTrial := some { info := trialInfo, startTime := now, data := [],
                             endTime := none } })

/-- How a call of `endTrial` ends: with a returned value, or with the `TypeError` of
`this.sessionData.trials.push` when no session has been started. -/
inductive EndTrialResult
  | returned (value : Bool)
  | threw
  deriving DecidableEq, Repr

/-- Method `endTrial()` (95-109); `now` is the time read at line 101. -/
def endTrial (now : Int) (crown : CrownInterface) : EndTrialResult × CrownInterface :=
  if !crown.recording then (EndTrialResult.returned false, crown)
  else
    match crown.currentTrial with
    | none => (EndTrialResult.returned false, crown)
    | some trial =>
      let ended : Trial := { trial with endTime := some now }
      match crown.sessionData with
      | none => (EndTrialResult.threw, { crown with currentTrial := some ended })
      | some session =>
        (EndTrialResult.returned true,
          { crown with
            sessionData := some { session with trials := session.trials ++ [ended] },
            recording := false,
            currentTrial := none })

/-- Method `endSession()` (111-125): `none` is the returned `false`, otherwise the session
record is returned; `now` is the time read at line 117. -/
def endSession (now : Int) (crown : CrownInterface) : Option SessionData × CrownInterface :=
  match crown.sessionData with
  | none => (none, crown)
  | some session =>
    let ended : SessionData := { session with endTime := some now }
    (some ended, { crown with sessionData := some ended, listeners := 0 })

/-- The raw stream delivers an epoch (62-72): the callback of every subscription in
`this.listeners` runs and appends the sample to the current trial while recording. -/
def onBrainwaves (sample : Sample) (crown : CrownInterface) : CrownInterface :=
  if crown.recording then
    match crown.currentTrial with
    | none => crown
    | some trial =>
      { crown with
        currentTrial := some { trial with
          data := trial.data ++ List.replicate crown.listeners sample } }
  else crown

/-- The device reports its status: the callback registered by `initialize` (37-40) runs,
if it has been registered. -/
def onStatus (online : Bool) (crown : CrownInterface) : CrownInterface :=
  if crown.statusSubscribed then { crown with isConnected := online } else crown

/-- Method `disconnect()` (169-180): the raw-stream subscriptions are cancelled, the
interface is marked as not connected and the device object is dropped (177). -/
def disconnect (crown : CrownInterface) : CrownInterface :=
  { crown with listeners := 0, isConnected := false, neurosity := false }

/-- The calls and callbacks that reach an interface. -/
inductive Event
  | initializeCrown (loggedIn : Bool)
  | status (online : Bool)
  | startSession (sessionInfo : SessionInfo) (now : Int)
  | startTrial (trialInfo : TrialInfo) (now : Int)
  | sample (sample : Sample)
  | endTrial (now : Int)
  | endSession (now : Int)
  | disconnect
  deriving DecidableEq, Repr

/-- The state after one call or callback. -/
def step (crown : CrownInterface) : Event → CrownInterface
  | Event.initializeCrown loggedIn => (initializeCrown loggedIn crown).2
  | Event.status online => onStatus online crown
  | Event.startSession sessionInfo now => (startSession sessionInfo now crown).2
  | Event.startTrial trialInfo now => (startTrial trialInfo now crown).2
  | Event.sample sample => onBrainwaves sample crown
  | Event.endTrial now => (endTrial now crown).2
  | Event.endSession now => (endSession now crown).2
  | Event.disconnect => disconnect crown

/-- The state after a sequence of calls and callbacks, in order. -/
def run (crown : CrownInterface) (events : List Event) : CrownInterface :=
  events.foldl step crown

/-- The trials recorded in the session record (`this.sessionData.trials`). -/
def trialsOf (crown : CrownInterface) : List Trial :=
  match crown.sessionData with
  | none => []
  | some session => session.trials

/-- Whether the event is an incoming sample. -/
def Event.isSample : Event → Bool
  | Event.sample _ => true
  | _ => false

/-- Whether the event is one of the trial-level events: a call of `startTrial`, an
incoming sample or a call of `endTrial`. -/
def Event.isTrialLevel : Event → Bool
  | Event.startTrial _ _ => true
  | Event.sample _ => true
  | Event.endTrial _ => true
  | _ => false

/-- Whether the event is a call of `endTrial`. -/
def Event.isEndTrial : Event → Bool
  | Event.endTrial _ => true
  | _ => false

/-- The samples delivered by a sequence of events, in order. -/
def samplesOf : List Event → List Sample
  | [] => []
  | Event.sample sample :: events => sample :: samplesOf events
  | _ :: events => samplesOf events

/-- The trial infos passed to the calls of `startTrial` in a sequence of events. -/
def startedInfos : List Event → List TrialInfo
  | [] => []
  | Event.startTrial trialInfo _ :: events => trialInfo :: startedInfos events
  | _ :: events => startedInfos events

/-- What a trial stores of the samples that arrive during it: one copy per subscription,
in order of arrival. -/
def storedCopies (listeners : Nat) (samples : List Sample) : List Sample :=
  samples.flatMap (fun sample => List.replicate listeners sample)

/-- The recorded trial at position `k` after the trials that were already in the record
is attributed to a call of `startTrial` in the sequence: the trial carries the info and
start time of that call, its data are exactly the samples that arrived between that call
and the call of `endTrial` that ended it (one copy per subscription), no other
trial-level call lies in between, and the record held exactly `k` newer trials when it
was ended. -/
def Attributed (crown : CrownInterface) (events : List Event) (k : Nat) (trial : Trial) :
    Prop :=
  ∃ (before arrived after : List Event) (trialInfo : TrialInfo) (start stop : Int),
    events = (before ++ Event.startTrial trialInfo start :: arrived)
      ++ Event.endTrial stop :: after ∧
    (∀ e ∈ arrived, e.isSample = true) ∧
    trial = { info := trialInfo, startTime := start,
              data := storedCopies crown.listeners (samplesOf arrived),
              endTime := some stop } ∧
    (trialsOf (run crown (before ++ Event.startTrial trialInfo start :: arrived))).length
      = (trialsOf crown).length + k

/-- The current trial is attributed to the latest call of `startTrial`: it carries the
info and start time of that call and its data are exactly the samples that arrived since
(one copy per subscription). -/
def CurrentAttributed (listeners : Nat) (events : List Event) (trial : Trial) : Prop :=
  ∃ (before arrived : List Event) (trialInfo : TrialInfo) (start : Int),
    events = before ++ Event.startTrial trialInfo start :: arrived ∧
    (∀ e ∈ arrived, e.isSample = true) ∧
    trial = { info := trialInfo, startTime := start,
              data := storedCopies listeners (samplesOf arrived), endTime := none }

/-- What holds after every sequence of trial-level events in a started session on a
connected interface: the subscriptions are unchanged, the trials already recorded stay at
the head of the record, every newer recorded trial and the current trial are attributed
to their call of `startTrial`. -/
def TrialInv (crown : CrownInterface) (events : List Event) (reached : CrownInterface) :
    Prop :=
  reached.isConnected = true ∧ reached.listeners = crown.listeners ∧
    (∃ session, reached.sessionData = some session) ∧
    trialsOf crown <+: trialsOf reached ∧
    (∀ k trial, (trialsOf reached)[(trialsOf crown).length + k]? = some trial →
      Attributed crown events k trial) ∧
    (∀ trial, reached.currentTrial = some trial →
      reached.recording = true ∧ CurrentAttributed crown.listeners events trial)

/-- The trial info does not occur in the interface: neither in a recorded trial nor in
the current trial. -/
def InfoFree (trialInfo : TrialInfo) (crown : CrownInterface) : Prop :=
  (∀ trial ∈ trialsOf crown, trial.info ≠ trialInfo) ∧
    ∀ trial, crown.currentTrial = some trial → trial.info ≠ trialInfo

/-- The sample does not occur in the interface: neither in a recorded trial nor in the
current trial. -/
def SampleFree (sample : Sample) (crown : CrownInterface) : Prop :=
  (∀ trial ∈ trialsOf crown, sample ∉ trial.data) ∧
    ∀ trial, crown.currentTrial = some trial → sample ∉ trial.data

/-- A connected interface on which no session has been started: a new interface after a
successful `initialize`. -/
def connectedNoSession : CrownInterface :=
  (initializeCrown true CrownInterface.new).2

/-- A session started on a connected interface: one subscription, no trial yet. -/
def sessionStarted : CrownInterface :=
  (startSession { id := 1, mode := some Experiment.Mode.innerSpeech, totalTrials := 3 } 0
    connectedNoSession).2

/-- Trial info of trial 1, direction up. -/
def trialOne : TrialInfo :=
  { trialNumber := 1, direction := some Direction.up,
    condition := some Experiment.Mode.innerSpeech, timestamp := 10 }

/-- Trial info of trial 2, direction left. -/
def trialTwo : TrialInfo :=
  { trialNumber := 2, direction := some Direction.left,
    condition := some Experiment.Mode.innerSpeech, timestamp := 20 }

/-- An example sample. -/
def sampleA : Sample := { timestamp := 11, brainwaves := [[1, 2], [3, 4]] }

/-- A second example sample. -/
def sampleB : Sample := { timestamp := 21, brainwaves := [[5, 6], [7, 8]] }

/-- Two trials with samples before, inside and between them. -/
def twoTrialEvents : List Event :=
  [Event.sample sampleB, Event.startTrial trialOne 10, Event.sample sampleA,
    Event.endTrial 15, Event.sample sampleB, Event.endTrial 16,
    Event.startTrial trialTwo 20, Event.sample sampleB, Event.sample sampleA,
    Event.endTrial 25]

/-- The interface is disconnected during trial 1, the call for trial 2 is refused, and
trial 1 is then ended. -/
def disconnectedSecondStart : List Event :=
  [Event.startTrial trialOne 10, Event.sample sampleA, Event.disconnect,
    Event.startTrial trialTwo 20, Event.endTrial 25]

end Crown

/-! ## The analysis script (analyze-data.js) -/

namespace Analysis

/-- The five frequency bands (analyze-data.js 40-46, 111). -/
inductive Band
  | delta
  | theta
  | alpha
  | beta
  | gamma
  deriving DecidableEq, Repr

/-- One entry of `sample.data.data`: the power of each band for one channel; `none` is a
missing value, which `channel.band || 0` reads as 0. -/
structure Channel where
  power : Band → Option ℚ

/-- One entry of `trial.brainwaves`; `channels = none` stands for a sample without
`sample.data` or without `sample.data.data`. -/
structure Sample where
  channels : Option (List Channel)

/-- One entry of `sessionData.trials` as the script reads it: the direction (an object
key) and `trial.brainwaves`, `none` when the field is missing. -/
structure Trial where
  direction : String
  brainwaves : Option (List Sample)

/-- The object `sessionData` as the script reads it. -/
structure Session where
  mode : Option String
  timestamp : Option String
  trials : Option (List Trial)

/-- The object built for one direction by `extractFeatures` (39-49). -/
structure DirectionData where
  averagePowerByBand : Band → List ℚ
  trialCount : Nat

/-- The object returned by `extractFeatures` (22-26); `directionFeatures` lists the
properties of the object in the order in which `Object.entries` lists them. -/
structure Features where
  mode : Option String
  timestamp : Option String
  directionFeatures : Option (List (String × DirectionData))

/-- The value `channel.band || 0` (66-70). -/
def Channel.read (channel : Channel) (band : Band) : ℚ :=
  (channel.power band).getD 0

/-- The loop over `trial.brainwaves` (60-74) for one band: the running sum
`trialAverages[band]`. -/
def bandSum (band : Band) (samples : List Sample) : ℚ :=
  samples.foldl
    (fun total sample =>
      match sample.channels with
      | none => total
      | some channels => channels.foldl (fun sum channel => sum + channel.read band) total)
    0

/-- The loop over `trial.brainwaves` (59-74): the counter `sampleCount`. -/
def sampleCount (samples : List Sample) : Nat :=
  samples.foldl
    (fun count sample =>
      match sample.channels with
      | none => count
      | some _ => count + 1)
    0

/-- The value `trial.brainwaves[0]?.data?.data?.length || 1` (77). -/
def channelCount (samples : List Sample) : Nat :=
  match samples with
  | [] => 1
  | first :: _ =>
    match first.channels with
    | none => 1
    | some channels => if channels.length = 0 then 1 else channels.length

/-- The body of the loop over the trials of one direction (51-86) for one band: the value
pushed to `averagePowerByBand[band]`, or `none` when nothing is pushed. -/
def trialValue (band : Band) (trial : Trial) : Option ℚ :=
  match trial.brainwaves with
  | none => none
  | some samples =>
    if samples.length = 0 then none
    else if sampleCount samples > 0 then
      some (bandSum band samples / ((sampleCount samples * channelCount samples : Nat) : ℚ))
    else none

/-- One step of the grouping loop (30-35). -/
def addTrial (groups : List (String × List Trial)) (trial : Trial) :
    List (String × List Trial) :=
  if groups.any (fun group => group.1 == trial.direction) then
    groups.map (fun group =>
      if group.1 == trial.direction then (group.1, group.2 ++ [trial]) else group)
  else groups ++ [(trial.direction, [trial])]

/-- The object `trialsByDirection` (29-35), keys in insertion order. -/
def groupByDirection (trials : List Trial) : List (String × List Trial) :=
  trials.foldl addTrial []

/-- The value of a key that is an array index: a decimal numeral without a leading zero
and below 2^32 - 1. -/
def arrayIndex (key : String) : Option Nat :=
  match key.data with
  | [] => none
  | first :: digits =>
    if (first :: digits).all Char.isDigit && (first != '0' || digits.isEmpty) then
      let value : Nat := (first :: digits).foldl (fun n c => 10 * n + (c.toNat - 48)) 0
      if value < 4294967295 then some value else none
    else none

/-- The order in which `Object.entries` (38, 104) lists the properties of an object whose
keys were inserted in the given order: the keys that are array indices in ascending
numeric order, then the other keys in insertion order. -/
def entries {α : Type} (object : List (String × α)) : List (String × α) :=
  ((object.filter (fun entry => (arrayIndex entry.1).isSome)).insertionSort
      (fun a b => (arrayIndex a.1).getD 0 ≤ (arrayIndex b.1).getD 0)) ++
    object.filter (fun entry => (arrayIndex entry.1).isNone)

/-- Function `extractFeatures(sessionData)` (16-92); `none` is the returned `null`. -/
def extractFeatures (sessionData : Option Session) : Option Features :=
  match sessionData with
  | none => none
  | some session =>
    match session.trials with
    | none => none
    | some trials =>
      if trials.length = 0 then none
      else
        some
          { mode := session.mode, timestamp := session.timestamp,
            directionFeatures := some ((entries (groupByDirection trials)).map (fun group =>
              (group.1,
                { averagePowerByBand := fun band => group.2.filterMap (trialValue band),
                  trialCount := group.2.length }))) }

/-- The object built for one direction by `calculateStatistics` (105-108). -/
structure DirectionStats where
  bandAverages : Band → ℚ
  bandStdDeviations : Band → ℚ

/-- The object returned by `calculateStatistics` (98-102). -/
structure Statistics where
  mode : Option String
  timestamp : Option String
  directionStats : List (String × DirectionStats)

/-- The value `average` (115-116). -/
def average (values : List ℚ) : ℚ :=
  if values.length ≠ 0 then values.foldl (fun sum val => sum + val) 0 / (values.length : ℚ)
  else 0

/-- The value `stdDev` (119-124); `sqrt` stands for `Math.sqrt`. -/
def stdDev (sqrt : ℚ → ℚ) (values : List ℚ) : ℚ :=
  if values.length > 0 then
    let squaredDiffs : List ℚ := values.map (fun val => (val - average values) ^ 2)
    let variance : ℚ := squaredDiffs.foldl (fun sum val => sum + val) 0 / (values.length : ℚ)
    sqrt variance
  else 0

/-- Function `calculateStatistics(features)` (95-132); `none` is the returned `null`,
`sqrt` stands for `Math.sqrt`. -/
def calculateStatistics (sqrt : ℚ → ℚ) (features : Option Features) : Option Statistics :=
  match features with
  | none => none
  | some features =>
    match features.directionFeatures with
    | none => none
    | some directionFeatures =>
      some
        { mode := features.mode, timestamp := features.timestamp,
          directionStats := directionFeatures.map (fun entry =>
            (entry.1,
              { bandAverages := fun band => average (entry.2.averagePowerByBand band),
                bandStdDeviations := fun band =>
                  stdDev sqrt (entry.2.averagePowerByBand band) })) }

/-- The arithmetic mean of a list of values, 0 for the empty list. -/
def arithmeticMean (values : List ℚ) : ℚ :=
  if values = [] then 0 else values.sum / (values.length : ℚ)

/-- The population standard deviation of a list of values: the square root of the mean
squared deviation from the arithmetic mean, dividing by the count; 0 for the empty
list. -/
def populationStdDev (sqrt : ℚ → ℚ) (values : List ℚ) : ℚ :=
  if values = [] then 0
  else sqrt ((values.map (fun val => (val - arithmeticMean values) ^ 2)).sum
    / (values.length : ℚ))

/-- The channel readings of the samples that have channel data. -/
def channelReadings (samples : List Sample) : List Channel :=
  samples.flatMap (fun sample => sample.channels.getD [])

/-- The average across all channels and samples: the sum of the band over every channel
reading divided by the number of channel readings. -/
def averageOverReadings (band : Band) (samples : List Sample) : ℚ :=
  ((channelReadings samples).map (fun channel => channel.read band)).sum
    / ((channelReadings samples).length : ℚ)

/-- A channel with the given delta power and no other value. -/
def deltaChannel (value : ℚ) : Channel :=
  { power := fun band => if band = Band.delta then some value else none }

/-- Two samples: the first has no channel data, the second has two channels with delta
powers 2 and 4. -/
def gappedSamples : List Sample :=
  [{ channels := none }, { channels := some [deltaChannel 2, deltaChannel 4] }]

/-- A trial with the samples `gappedSamples`. -/
def gappedTrial : Trial :=
  { direction := "up", brainwaves := some gappedSamples }

/-- Two samples with one and with two channels, all with delta power 3. -/
def unevenSamples : List Sample :=
  [{ channels := some [deltaChannel 3] },
    { channels := some [deltaChannel 3, deltaChannel 3] }]

/-- A trial with the samples `unevenSamples`. -/
def unevenTrial : Trial :=
  { direction := "up", brainwaves := some unevenSamples }

/-- Two samples of two channels each. -/
def evenSamples : List Sample :=
  [{ channels := some [deltaChannel 1, deltaChannel 2] },
    { channels := some [deltaChannel 3, deltaChannel 6] }]

/-- A trial with the samples `evenSamples`. -/
def evenTrial : Trial :=
  { direction := "up", brainwaves := some evenSamples }

/-- Features of one direction with the per-trial delta values 1, 2, 3 and no value for
the other bands. -/
def sampleFeatures : Features :=
  { mode := some "inner-speech", timestamp := none,
    directionFeatures := some [("up",
      { averagePowerByBand := fun band => if band = Band.delta then [1, 2, 3] else [],
        trialCount := 3 })] }

end Analysis
/-! ## Theorems -/

namespace Experiment

theorem drawn_trial_mem_range (totalTrials : Int) (h : 1 ≤ totalTrials) (r : Draw) :
    1 ≤ ⌊r.val * (totalTrials : ℚ)⌋ + 1 ∧ ⌊r.val * (totalTrials : ℚ)⌋ + 1 ≤ totalTrials := by
  have ht : (0 : ℚ) < (totalTrials : ℚ) := by exact_mod_cast (by omega : (0 : Int) < totalTrials)
  have h0 : (0 : ℚ) ≤ r.val * (totalTrials : ℚ) := mul_nonneg r.nonneg ht.le
  have h1 : r.val * (totalTrials : ℚ) < (totalTrials : ℚ) := by
    have := mul_lt_mul_of_pos_right r.lt_one ht
    simpa using this
  have hf0 : 0 ≤ ⌊r.val * (totalTrials : ℚ)⌋ := Int.floor_nonneg.mpr h0
  have hf1 : ⌊r.val * (totalTrials : ℚ)⌋ < totalTrials := Int.floor_lt.mpr h1
  omega

/-- What the sampling loop returns: a duplicate-free list of exactly
`max 0 numChecks` numbers, each already collected or drawn from the source. -/
theorem sampleLoop_spec (totalTrials numChecks : Int) (random : Nat → Draw) :
    ∀ (fuel k : Nat) (checks l : List Int), checks.Nodup →
      (checks.length : Int) ≤ max 0 numChecks →
      sampleLoop totalTrials numChecks random fuel k checks = some l →
      l.Nodup ∧ (l.length : Int) = max 0 numChecks ∧
        ∀ x ∈ l, x ∈ checks ∨ ∃ n, x = ⌊(random n).val * (totalTrials : ℚ)⌋ + 1 := by
  intro fuel
  induction fuel with
  | zero =>
    intro k checks l hnd hlen hres
    simp only [sampleLoop] at hres
    split at hres
    · exact absurd hres (by simp)
    · rename_i hge
      injection hres with hres
      subst hres
      refine ⟨hnd, ?_, fun x hx => Or.inl hx⟩
      omega
  | succ fuel ih =>
    intro k checks l hnd hlen hres
    simp only [sampleLoop] at hres
    split at hres
    · rename_i hlt
      split at hres
      · obtain ⟨h1, h2, h3⟩ := ih (k + 1) checks l hnd hlen hres
        exact ⟨h1, h2, h3⟩
      · rename_i hmem
        have hnd2 : (checks ++ [⌊(random k).val * (totalTrials : ℚ)⌋ + 1]).Nodup := by
          rw [List.nodup_append]
          refine ⟨hnd, List.nodup_singleton _, ?_⟩
          intro a ha hb
          rw [List.mem_singleton] at hb
          subst hb
          exact hmem ha
        have hlen2 : ((checks ++ [⌊(random k).val * (totalTrials : ℚ)⌋ + 1]).length : Int)
            ≤ max 0 numChecks := by
          simp only [List.length_append, List.length_singleton, Nat.cast_add, Nat.cast_one]
          omega
        obtain ⟨h1, h2, h3⟩ := ih (k + 1) _ l hnd2 hlen2 hres
        refine ⟨h1, h2, fun x hx => ?_⟩
        rcases h3 x hx with h | h
        · rw [List.mem_append, List.mem_singleton] at h
          rcases h with h | h
          · exact Or.inl h
          · exact Or.inr ⟨k, h⟩
        · exact Or.inr h
    · rename_i hge
      injection hres with hres
      subst hres
      refine ⟨hnd, ?_, fun x hx => Or.inl hx⟩
      omega

/-- A duplicate-free list shorter than `totalTrials` misses some trial number
of `[1, totalTrials]`. -/
theorem exists_missing_trial (totalTrials : Int) (checks : List Int) (hnd : checks.Nodup)
    (hlen : (checks.length : Int) < totalTrials) :
    ∃ t : Int, 1 ≤ t ∧ t ≤ totalTrials ∧ t ∉ checks := by
  by_contra hcon
  push_neg at hcon
  have hsub : Finset.Icc (1 : Int) totalTrials ⊆ checks.toFinset := by
    intro t ht
    rw [Finset.mem_Icc] at ht
    exact List.mem_toFinset.mpr (hcon t ht.1 ht.2)
  have hcard := Finset.card_le_card hsub
  rw [Int.card_Icc, List.toFinset_card_of_nodup hnd] at hcard
  omega

theorem sampleLoop_succ (totalTrials numChecks : Int) (random : Nat → Draw)
    (fuel k : Nat) (checks : List Int) :
    sampleLoop totalTrials numChecks random (fuel + 1) k checks =
      if (checks.length : Int) < numChecks then
        if ⌊(random k).val * (totalTrials : ℚ)⌋ + 1 ∈ checks then
          sampleLoop totalTrials numChecks random fuel (k + 1) checks
        else
          sampleLoop totalTrials numChecks random fuel (k + 1)
            (checks ++ [⌊(random k).val * (totalTrials : ℚ)⌋ + 1])
      else some checks := rfl

/-- While the target is not reached, a later draw of a number not yet
collected makes the loop push one new number after finitely many iterations. -/
theorem sampleLoop_progress (totalTrials numChecks : Int) (random : Nat → Draw) :
    ∀ (d k : Nat) (checks : List Int), (checks.length : Int) < numChecks →
      ⌊(random (k + d)).val * (totalTrials : ℚ)⌋ + 1 ∉ checks →
      ∃ (used k2 : Nat) (x : Int), x ∉ checks ∧
        ∀ fuel, sampleLoop totalTrials numChecks random (fuel + (used + 1)) k checks
          = sampleLoop totalTrials numChecks random fuel k2 (checks ++ [x]) := by
  intro d
  induction d with
  | zero =>
    intro k checks hlt hnot
    rw [Nat.add_zero] at hnot
    refine ⟨0, k + 1, _, hnot, fun fuel => ?_⟩
    show sampleLoop totalTrials numChecks random (fuel + 1) k checks = _
    rw [sampleLoop_succ, if_pos hlt, if_neg hnot]
  | succ d ih =>
    intro k checks hlt hnot
    by_cases hk : ⌊(random k).val * (totalTrials : ℚ)⌋ + 1 ∈ checks
    · have hnot2 : ⌊(random (k + 1 + d)).val * (totalTrials : ℚ)⌋ + 1 ∉ checks := by
        have : k + 1 + d = k + (d + 1) := by omega
        rw [this]
        exact hnot
      obtain ⟨used, k2, x, hx, hrun⟩ := ih (k + 1) checks hlt hnot2
      refine ⟨used + 1, k2, x, hx, fun fuel => ?_⟩
      show sampleLoop totalTrials numChecks random ((fuel + (used + 1)) + 1) k checks = _
      rw [sampleLoop_succ, if_pos hlt, if_pos hk]
      exact hrun fuel
    · refine ⟨0, k + 1, _, hk, fun fuel => ?_⟩
      show sampleLoop totalTrials numChecks random (fuel + 1) k checks = _
      rw [sampleLoop_succ, if_pos hlt, if_neg hk]

/-- With a fair source and a target of at most `max totalTrials 0` numbers the
sampling loop exits for some amount of fuel. -/
theorem sampleLoop_terminates (totalTrials numChecks : Int) (random : Nat → Draw)
    (hfair : FairSource totalTrials random) (hnum : numChecks ≤ max totalTrials 0) :
    ∀ (m k : Nat) (checks : List Int), checks.Nodup →
      (numChecks - (checks.length : Int)).toNat ≤ m →
      ∃ fuel l, sampleLoop totalTrials numChecks random fuel k checks = some l := by
  intro m
  induction m with
  | zero =>
    intro k checks _ hm
    refine ⟨0, checks, ?_⟩
    simp only [sampleLoop]
    rw [if_neg (by omega)]
  | succ m ih =>
    intro k checks hnd hm
    by_cases hlt : (checks.length : Int) < numChecks
    · have hlen : (checks.length : Int) < totalTrials := by
        have h0 : (0 : Int) ≤ (checks.length : Int) := Int.natCast_nonneg _
        omega
      obtain ⟨t, ht1, ht2, htnot⟩ := exists_missing_trial totalTrials checks hnd hlen
      obtain ⟨n, hn, hdraw⟩ := hfair t ht1 ht2 k
      have hnot : ⌊(random (k + (n - k))).val * (totalTrials : ℚ)⌋ + 1 ∉ checks := by
        have : k + (n - k) = n := by omega
        rw [this, hdraw]
        exact htnot
      obtain ⟨used, k2, x, hx, hrun⟩ :=
        sampleLoop_progress totalTrials numChecks random (n - k) k checks hlt hnot
      have hnd2 : (checks ++ [x]).Nodup := by
        rw [List.nodup_append]
        refine ⟨hnd, List.nodup_singleton _, ?_⟩
        intro a ha hb
        rw [List.mem_singleton] at hb
        subst hb
        exact hx ha
      have hm2 : (numChecks - ((checks ++ [x]).length : Int)).toNat ≤ m := by
        simp only [List.length_append, List.length_singleton, Nat.cast_add, Nat.cast_one]
        omega
      obtain ⟨fuel, l, hl⟩ := ih k2 (checks ++ [x]) hnd2 hm2
      exact ⟨fuel + (used + 1), l, by rw [hrun fuel, hl]⟩
    · refine ⟨0, checks, ?_⟩
      simp only [sampleLoop]
      rw [if_neg hlt]

/-- With one trial and a target of two checks the loop never exits: every draw
yields trial number 1. -/
theorem sampleLoop_one_two_none (random : Nat → Draw) :
    ∀ (fuel k : Nat), sampleLoop 1 2 random fuel k [] = none ∧
      sampleLoop 1 2 random fuel k [1] = none := by
  have hdraw : ∀ k, ⌊(random k).val * ((1 : Int) : ℚ)⌋ + 1 = 1 := by
    intro k
    have h := drawn_trial_mem_range 1 (le_refl 1) (random k)
    omega
  intro fuel
  induction fuel with
  | zero =>
    intro k
    simp [sampleLoop]
  | succ fuel ih =>
    intro k
    constructor
    · simp only [sampleLoop, hdraw]
      simp [(ih (k + 1)).2]
    · simp only [sampleLoop, hdraw]
      simp [(ih (k + 1)).2]

theorem fortieth_trial (n : Nat) :
    ⌊(Draw.fortieth n).val * ((40 : Int) : ℚ)⌋ + 1 = ((n % 40 : Nat) : Int) + 1 := by
  have h : (Draw.fortieth n).val * ((40 : Int) : ℚ) = (((n % 40 : Nat) : Int) : ℚ) := by
    simp only [Draw.fortieth, Int.cast_natCast, Int.cast_ofNat]
    exact div_mul_cancel₀ _ (by norm_num)
  rw [h, Int.floor_intCast]

theorem generateAttentionChecks_shipped_run :
    generateAttentionChecks 40 (3 / 20) Draw.fortieth 6 = some [1, 2, 3, 4, 5, 6] := by
  have hq : ⌊((40 : Int) : ℚ) * (3 / 20)⌋ = 6 := by norm_num
  simp only [generateAttentionChecks, hq, sampleLoop, fortieth_trial]
  decide

theorem fairSource_one_zero : FairSource 1 (fun _ => Draw.zero) := by
  intro t ht1 ht2 N
  refine ⟨N, le_refl N, ?_⟩
  show ⌊Draw.zero.val * ((1 : Int) : ℚ)⌋ + 1 = t
  have h := drawn_trial_mem_range 1 (le_refl 1) Draw.zero
  omega

/-! ### C1 -/

/-- C1 as stated is refuted: with totalTrials = 40 and questionProbability = -3/20
the loop body never runs and generateAttentionChecks returns the empty list, whose
length 0 differs from floor(40 * (-3/20)) = -6. -/
theorem generateAttentionChecks_length_negative_probability :
    (0 : Int) ≤ 40 ∧
      generateAttentionChecks 40 (-3 / 20) (fun _ => Draw.zero) 0 = some [] ∧
      ((([] : List Int).length : Int) ≠ ⌊((40 : Int) : ℚ) * (-3 / 20)⌋) := by
  have hq : ⌊((40 : Int) : ℚ) * (-3 / 20)⌋ = -6 := by norm_num
  refine ⟨by decide, ?_, ?_⟩
  · simp only [generateAttentionChecks, hq, sampleLoop]
    decide
  · rw [hq]
    decide

/-- C1 (amended): whenever generateAttentionChecks returns, for every sequence of
random draws, the returned list has exactly max(0, floor(totalTrials * questionProbability))
elements; that is floor(totalTrials * questionProbability) when totalTrials >= 0 and
questionProbability >= 0, and exactly 6 for totalTrials = 40, questionProbability = 0.15. -/
theorem generateAttentionChecks_length (totalTrials : Int) (questionProbability : ℚ)
    (random : Nat → Draw) (fuel : Nat) (l : List Int)
    (h : generateAttentionChecks totalTrials questionProbability random fuel = some l) :
    (l.length : Int) = max 0 ⌊(totalTrials : ℚ) * questionProbability⌋ ∧
      (0 ≤ totalTrials → 0 ≤ questionProbability →
        (l.length : Int) = ⌊(totalTrials : ℚ) * questionProbability⌋) ∧
      (totalTrials = 40 → questionProbability = 3 / 20 → l.length = 6) := by
  simp only [generateAttentionChecks, Option.map_eq_some'] at h
  obtain ⟨checks, hloop, hsort⟩ := h
  have hspec := sampleLoop_spec totalTrials _ random fuel 0 [] checks List.nodup_nil
    (by simp) hloop
  have hlen : (l.length : Int) = max 0 ⌊(totalTrials : ℚ) * questionProbability⌋ := by
    rw [← hsort, List.length_insertionSort]
    exact hspec.2.1
  refine ⟨hlen, ?_, ?_⟩
  · intro ht hq
    have hprod : (0 : ℚ) ≤ (totalTrials : ℚ) * questionProbability :=
      mul_nonneg (by exact_mod_cast ht) hq
    have hfl : 0 ≤ ⌊(totalTrials : ℚ) * questionProbability⌋ := Int.floor_nonneg.mpr hprod
    omega
  · intro ht hq
    subst ht
    subst hq
    have hfl : ⌊((40 : Int) : ℚ) * (3 / 20)⌋ = 6 := by norm_num
    rw [hfl] at hlen
    omega

/-- C1 witness: the shipped configuration (40 trials, probability 3/20) with the draws
0, 1/40, ..., 5/40 returns [1, ..., 6], a list of 6 elements. -/
theorem generateAttentionChecks_length_witness :
    generateAttentionChecks 40 (3 / 20) Draw.fortieth 6 = some [1, 2, 3, 4, 5, 6] ∧
      ([1, 2, 3, 4, 5, 6] : List Int).length = 6 :=
  ⟨generateAttentionChecks_shipped_run,
    (generateAttentionChecks_length 40 (3 / 20) Draw.fortieth 6 [1, 2, 3, 4, 5, 6]
      generateAttentionChecks_shipped_run).2.2 rfl rfl⟩

/-! ### C2 -/

/-- C2: whenever generateAttentionChecks returns, for every totalTrials,
questionProbability and sequence of random draws, the returned list is strictly
increasing: sorted in ascending order and without a repeated trial number. -/
theorem generateAttentionChecks_strictly_increasing (totalTrials : Int)
    (questionProbability : ℚ) (random : Nat → Draw) (fuel : Nat) (l : List Int)
    (h : generateAttentionChecks totalTrials questionProbability random fuel = some l) :
    l.Sorted (· < ·) ∧ l.Sorted (· ≤ ·) ∧ l.Nodup := by
  simp only [generateAttentionChecks, Option.map_eq_some'] at h
  obtain ⟨checks, hloop, hsort⟩ := h
  have hspec := sampleLoop_spec totalTrials _ random fuel 0 [] checks List.nodup_nil
    (by simp) hloop
  have hnd : l.Nodup := by
    rw [← hsort]
    exact (List.perm_insertionSort (· ≤ ·) checks).nodup_iff.mpr hspec.1
  have hsorted : l.Sorted (· ≤ ·) := by
    rw [← hsort]
    exact List.sorted_insertionSort (· ≤ ·) checks
  exact ⟨hsorted.lt_of_le hnd, hsorted, hnd⟩

/-- C2 witness: the run of the shipped configuration returns the strictly increasing
list [1, ..., 6]. -/
theorem generateAttentionChecks_strictly_increasing_witness :
    generateAttentionChecks 40 (3 / 20) Draw.fortieth 6 = some [1, 2, 3, 4, 5, 6] ∧
      ([1, 2, 3, 4, 5, 6] : List Int).Sorted (· < ·) :=
  ⟨generateAttentionChecks_shipped_run,
    (generateAttentionChecks_strictly_increasing 40 (3 / 20) Draw.fortieth 6
      [1, 2, 3, 4, 5, 6] generateAttentionChecks_shipped_run).1⟩

/-! ### C3 -/

/-- C3: for totalTrials >= 1 and random draws r with 0 <= r < 1, every element k of the
list returned by generateAttentionChecks satisfies 1 <= k <= totalTrials; in particular
0 and numbers above totalTrials are never produced. -/
theorem generateAttentionChecks_range (totalTrials : Int) (questionProbability : ℚ)
    (random : Nat → Draw) (fuel : Nat) (l : List Int) (ht : 1 ≤ totalTrials)
    (h : generateAttentionChecks totalTrials questionProbability random fuel = some l) :
    (∀ k ∈ l, 1 ≤ k ∧ k ≤ totalTrials) ∧ (0 : Int) ∉ l ∧
      ∀ k : Int, totalTrials < k → k ∉ l := by
  simp only [generateAttentionChecks, Option.map_eq_some'] at h
  obtain ⟨checks, hloop, hsort⟩ := h
  have hspec := sampleLoop_spec totalTrials _ random fuel 0 [] checks List.nodup_nil
    (by simp) hloop
  have hrange : ∀ k ∈ l, 1 ≤ k ∧ k ≤ totalTrials := by
    intro k hk
    rw [← hsort] at hk
    have hk2 : k ∈ checks := (List.perm_insertionSort (· ≤ ·) checks).mem_iff.mp hk
    rcases hspec.2.2 k hk2 with hnil | ⟨n, hn⟩
    · exact absurd hnil (List.not_mem_nil k)
    · rw [hn]
      exact drawn_trial_mem_range totalTrials ht (random n)
  refine ⟨hrange, ?_, ?_⟩
  · intro h0
    have := hrange 0 h0
    omega
  · intro k hk hmem
    have := hrange k hmem
    omega

/-- C3 witness: the run of the shipped configuration returns numbers within [1, 40]. -/
theorem generateAttentionChecks_range_witness :
    (1 : Int) ≤ 40 ∧
      generateAttentionChecks 40 (3 / 20) Draw.fortieth 6 = some [1, 2, 3, 4, 5, 6] ∧
      ∀ k ∈ ([1, 2, 3, 4, 5, 6] : List Int), 1 ≤ k ∧ k ≤ 40 :=
  ⟨by decide, generateAttentionChecks_shipped_run,
    (generateAttentionChecks_range 40 (3 / 20) Draw.fortieth 6 [1, 2, 3, 4, 5, 6]
      (by decide) generateAttentionChecks_shipped_run).1⟩

/-! ### C4 -/

/-- C4 as stated is refuted: with totalTrials = 1 and questionProbability = 2 the target
is 2 distinct numbers but every draw yields trial number 1, so for every random source,
fair ones included, and every amount of fuel the loop has not exited. -/
theorem generateAttentionChecks_diverges_probability_two :
    FairSource 1 (fun _ => Draw.zero) ∧
      ∀ (random : Nat → Draw) (fuel : Nat), generateAttentionChecks 1 2 random fuel = none := by
  refine ⟨fairSource_one_zero, fun random fuel => ?_⟩
  have hq : ⌊((1 : Int) : ℚ) * 2⌋ = 2 := by norm_num
  simp only [generateAttentionChecks, hq, (sampleLoop_one_two_none random fuel 0).1,
    Option.map_none']

/-- C4 (amended): for all totalTrials and all questionProbability with
floor(totalTrials * questionProbability) <= max(totalTrials, 0), in particular for every
questionProbability in [0, 1], and every random source in which each trial number of
[1, totalTrials] keeps occurring, the sampling loop exits after finitely many
iterations and generateAttentionChecks returns a list. -/
theorem generateAttentionChecks_terminates (totalTrials : Int) (questionProbability : ℚ)
    (random : Nat → Draw) (hfair : FairSource totalTrials random) :
    (⌊(totalTrials : ℚ) * questionProbability⌋ ≤ max totalTrials 0 →
      ∃ fuel l, generateAttentionChecks totalTrials questionProbability random fuel = some l) ∧
    (0 ≤ questionProbability → questionProbability ≤ 1 →
      ∃ fuel l, generateAttentionChecks totalTrials questionProbability random fuel = some l) := by
  have main : ⌊(totalTrials : ℚ) * questionProbability⌋ ≤ max totalTrials 0 →
      ∃ fuel l, generateAttentionChecks totalTrials questionProbability random fuel
        = some l := by
    intro hnum
    obtain ⟨fuel, checks, hloop⟩ := sampleLoop_terminates totalTrials _ random hfair hnum
      (⌊(totalTrials : ℚ) * questionProbability⌋ - (([] : List Int).length : Int)).toNat 0 []
      List.nodup_nil (le_refl _)
    exact ⟨fuel, checks.insertionSort (· ≤ ·), by simp only [generateAttentionChecks, hloop,
      Option.map_some']⟩
  refine ⟨main, fun hq0 hq1 => main ?_⟩
  rcases le_or_lt 0 totalTrials with ht | ht
  · have htq : (0 : ℚ) ≤ (totalTrials : ℚ) := by exact_mod_cast ht
    have hprod : (totalTrials : ℚ) * questionProbability ≤ (totalTrials : ℚ) := by
      have := mul_le_mul_of_nonneg_left hq1 htq
      simpa using this
    have hfl : ⌊(totalTrials : ℚ) * questionProbability⌋ ≤ totalTrials :=
      Int.floor_le_iff.mpr (lt_of_le_of_lt hprod (by linarith))
    exact le_trans hfl (le_max_left _ _)
  · have htq : (totalTrials : ℚ) ≤ 0 := by exact_mod_cast ht.le
    have hprod : (totalTrials : ℚ) * questionProbability ≤ 0 :=
      mul_nonpos_of_nonpos_of_nonneg htq hq0
    have hfl : ⌊(totalTrials : ℚ) * questionProbability⌋ ≤ 0 :=
      Int.floor_le_iff.mpr (lt_of_le_of_lt hprod (by norm_num))
    exact le_trans hfl (le_max_right _ _)

/-- C4 witness: one trial, probability 1 and the constant source 0, which is fair for
[1, 1]: the function returns. -/
theorem generateAttentionChecks_terminates_witness :
    FairSource 1 (fun _ => Draw.zero) ∧ ⌊((1 : Int) : ℚ) * 1⌋ ≤ max (1 : Int) 0 ∧
      ∃ fuel l, generateAttentionChecks 1 1 (fun _ => Draw.zero) fuel = some l :=
  ⟨fairSource_one_zero, by norm_num,
    (generateAttentionChecks_terminates 1 1 (fun _ => Draw.zero) fairSource_one_zero).1
      (by norm_num)⟩

end Experiment

namespace UpDown

theorem swap_of_lt {α : Type} (trials : List α) (i j : Nat) (hi : i < trials.length)
    (hj : j < trials.length) :
    swap trials i j = (trials.set i (trials.get ⟨j, hj⟩)).set j (trials.get ⟨i, hi⟩) := by
  simp only [swap, List.getElem?_eq_getElem hi, List.getElem?_eq_getElem hj, List.get_eq_getElem]

theorem swap_of_ge {α : Type} (trials : List α) (i j : Nat)
    (h : trials.length ≤ i ∨ trials.length ≤ j) : swap trials i j = trials := by
  rcases h with h | h
  · simp only [swap, List.getElem?_eq_none h]
  · simp only [swap, List.getElem?_eq_none h]
    split <;> first | rfl | simp_all

theorem length_swap {α : Type} (trials : List α) (i j : Nat) :
    (swap trials i j).length = trials.length := by
  unfold swap
  split <;> simp

/-- Reading the swapped array: positions `i` and `j` are exchanged, all others kept. -/
theorem getElem?_swap {α : Type} (trials : List α) (i j p : Nat) (hi : i < trials.length)
    (hj : j < trials.length) :
    (swap trials i j)[p]? =
      if p = j then trials[i]? else if p = i then trials[j]? else trials[p]? := by
  rw [swap_of_lt trials i j hi hj]
  simp only [List.getElem?_set, List.length_set, List.get_eq_getElem]
  by_cases hpj : p = j
  · subst hpj
    simp [hj, List.getElem?_eq_getElem hi]
  · by_cases hpi : p = i
    · subst hpi
      simp [hi, hpj, Ne.symm hpj, List.getElem?_eq_getElem hj]
    · simp [hpj, hpi, Ne.symm hpj, Ne.symm hpi]

theorem count_swap {α : Type} [DecidableEq α] (trials : List α) (i j : Nat) (x : α) :
    (swap trials i j).count x = trials.count x := by
  by_cases hi : i < trials.length
  · by_cases hj : j < trials.length
    · rw [swap_of_lt trials i j hi hj]
      have hj2 : j < (trials.set i (trials.get ⟨j, hj⟩)).length := by simpa using hj
      rw [List.count_set _ _ _ _ hj2, List.count_set _ _ _ _ hi]
      have hread : (trials.set i (trials.get ⟨j, hj⟩))[j] = trials[j] := by
        rw [List.getElem_set]
        split
        · rename_i h
          subst h
          rfl
        · rfl
      rw [hread]
      have hci : (if trials[i] == x then 1 else 0) ≤ trials.count x := by
        split
        · rename_i h
          have := List.getElem_mem hi
          rw [beq_iff_eq] at h
          rw [h] at this
          exact List.count_pos_iff.mpr this
        · exact Nat.zero_le _
      simp only [List.get_eq_getElem]
      omega
    · exact congrArg _ (swap_of_ge trials i j (Or.inr (by omega)))
  · exact congrArg _ (swap_of_ge trials i j (Or.inl (by omega)))

theorem swap_perm {α : Type} [DecidableEq α] (trials : List α) (i j : Nat) :
    (swap trials i j).Perm trials :=
  List.perm_iff_count.mpr (fun x => count_swap trials i j x)

theorem getElem?_swap_of_gt {α : Type} (trials : List α) (i j p : Nat) (hji : j ≤ i)
    (hp : i < p) : (swap trials i j)[p]? = trials[p]? := by
  by_cases hi : i < trials.length
  · rw [getElem?_swap trials i j p hi (by omega), if_neg (by omega), if_neg (by omega)]
  · rw [swap_of_ge trials i j (Or.inl (by omega))]

theorem nodup_getElem?_inj {α : Type} {l : List α} (hnd : l.Nodup) {i j : Nat} {x : α}
    (hi : l[i]? = some x) (hj : l[j]? = some x) : i = j := by
  obtain ⟨hi1, hi2⟩ := List.getElem?_eq_some.mp hi
  obtain ⟨hj1, hj2⟩ := List.getElem?_eq_some.mp hj
  exact (hnd.getElem_inj_iff).mp (hi2.trans hj2.symm)

/-- The index computed from a draw in iteration `i + 1` is at most `i + 1`. -/
theorem choice_le (r : Draw) (i : Nat) :
    ⌊r.val * (((i + 1 : Nat) : ℚ) + 1)⌋.toNat ≤ i + 1 := by
  have hpos : (0 : ℚ) < ((i + 1 : Nat) : ℚ) + 1 := by positivity
  have h1 : r.val * (((i + 1 : Nat) : ℚ) + 1) < (((i + 1 + 1 : Nat) : Int) : ℚ) := by
    have := mul_lt_mul_of_pos_right r.lt_one hpos
    push_cast at this ⊢
    linarith
  have hf1 : ⌊r.val * (((i + 1 : Nat) : ℚ) + 1)⌋ < ((i + 1 + 1 : Nat) : Int) :=
    Int.floor_lt.mpr h1
  omega

theorem validChoices_choicesOf (random : Nat → Draw) :
    ∀ (i k : Nat), ValidChoices i (choicesOf random i k) := by
  intro i
  induction i with
  | zero => intro k; rfl
  | succ i ih => intro k; exact ⟨choice_le (random k) i, ih (k + 1)⟩

theorem shuffleLoop_eq_shuffleWith {α : Type} (random : Nat → Draw) :
    ∀ (i k : Nat) (trials : List α),
      shuffleLoop random i k trials = shuffleWith i (choicesOf random i k) trials := by
  intro i
  induction i with
  | zero => intro k trials; rfl
  | succ i ih =>
    intro k trials
    simp only [shuffleLoop, choicesOf, shuffleWith]
    exact ih (k + 1) _

theorem shuffleWith_perm {α : Type} [DecidableEq α] :
    ∀ (i : Nat) (js : List Nat) (trials : List α), (shuffleWith i js trials).Perm trials := by
  intro i
  induction i with
  | zero =>
    intro js trials
    cases js <;> exact List.Perm.refl _
  | succ i ih =>
    intro js trials
    cases js with
    | nil => exact List.Perm.refl _
    | cons j js => exact (ih js _).trans (swap_perm trials (i + 1) j)

/-- The loop entered at index `i` leaves every position above `i` as it was. -/
theorem shuffleWith_getElem?_of_gt {α : Type} :
    ∀ (i : Nat) (js : List Nat) (trials : List α), ValidChoices i js →
      ∀ p, i < p → (shuffleWith i js trials)[p]? = trials[p]? := by
  intro i
  induction i with
  | zero =>
    intro js trials _ p _
    cases js <;> rfl
  | succ i ih =>
    intro js trials hv p hp
    cases js with
    | nil => rfl
    | cons j js =>
      obtain ⟨hj, hv2⟩ := hv
      show (shuffleWith i js (swap trials (i + 1) j))[p]? = trials[p]?
      rw [ih js _ hv2 p (by omega), getElem?_swap_of_gt trials (i + 1) j p hj hp]

theorem eq_of_perm_of_tail_agree {α : Type} {l l2 : List α} (hnd : l.Nodup)
    (hperm : l2.Perm l) (hagree : ∀ p, 0 < p → l2[p]? = l[p]?) : l2 = l := by
  cases l with
  | nil => exact hperm.eq_nil
  | cons a t =>
    cases l2 with
    | nil => exact absurd hperm.length_eq (by simp)
    | cons a2 t2 =>
      have htail : t2 = t := by
        apply List.ext_getElem?
        intro p
        have := hagree (p + 1) (Nat.succ_pos p)
        simpa using this
      subst htail
      have hnd2 : (a2 :: t2).Nodup := hperm.nodup_iff.mpr hnd
      have hmem : a2 ∈ a :: t2 := hperm.mem_iff.mp (List.mem_cons_self a2 t2)
      rcases List.mem_cons.mp hmem with h | h
      · rw [h]
      · exact absurd h (List.nodup_cons.mp hnd2).1

/-- From an array of distinct elements, every arrangement that permutes the first
`i + 1` positions is produced by exactly one choice vector. -/
theorem shuffleWith_existsUnique {α : Type} [DecidableEq α] :
    ∀ (i : Nat) (trials arrangement : List α), trials.Nodup →
      (i < trials.length ∨ i = 0) → arrangement.Perm trials →
      (∀ p, i < p → arrangement[p]? = trials[p]?) →
      ∃! js, ValidChoices i js ∧ shuffleWith i js trials = arrangement := by
  intro i
  induction i with
  | zero =>
    intro trials arrangement hnd _ hperm hagree
    have heq : arrangement = trials := eq_of_perm_of_tail_agree hnd hperm hagree
    refine ⟨[], ⟨rfl, heq.symm⟩, ?_⟩
    intro js hjs
    exact hjs.1
  | succ i ih =>
    intro trials arrangement hnd hlen hperm hagree
    have hi : i + 1 < trials.length := by
      rcases hlen with h | h
      · exact h
      · omega
    have hlenA : arrangement.length = trials.length := hperm.length_eq
    have hndA : arrangement.Nodup := hperm.nodup_iff.mpr hnd
    have hiA : i + 1 < arrangement.length := by omega
    -- the element that ends at position `i + 1` and where it sits in `trials`
    have hxA : arrangement[i + 1]? = some (arrangement.get ⟨i + 1, hiA⟩) := by
      rw [List.getElem?_eq_getElem hiA, List.get_eq_getElem]
    have hxmem : arrangement.get ⟨i + 1, hiA⟩ ∈ trials :=
      hperm.mem_iff.mp (List.get_mem _ _ _)
    obtain ⟨j, hj⟩ := List.mem_iff_getElem?.mp hxmem
    have hjlen : j < trials.length := (List.getElem?_eq_some.mp hj).1
    have hjle : j ≤ i + 1 := by
      by_contra hcon
      have hgt : i + 1 < j := by omega
      have h1 : arrangement[j]? = some (arrangement.get ⟨i + 1, hiA⟩) := by
        rw [hagree j hgt, hj]
      have := nodup_getElem?_inj hndA h1 hxA
      omega
    have hswapperm : (swap trials (i + 1) j).Perm trials := swap_perm trials (i + 1) j
    have hnd1 : (swap trials (i + 1) j).Nodup := hswapperm.nodup_iff.mpr hnd
    have hagree1 : ∀ p, i < p → arrangement[p]? = (swap trials (i + 1) j)[p]? := by
      intro p hp
      rw [getElem?_swap trials (i + 1) j p hi hjlen]
      by_cases hpj : p = j
      · have hji : j = i + 1 := by omega
        rw [if_pos hpj, hpj, hji, hxA, ← hj, hji]
      · rw [if_neg hpj]
        by_cases hpi : p = i + 1
        · rw [if_pos hpi, hpi, hj, hxA]
        · rw [if_neg hpi]
          exact hagree p (by omega)
    obtain ⟨js, ⟨hv, hrun⟩, huniq⟩ := ih (swap trials (i + 1) j) arrangement hnd1
      (Or.inl (by rw [length_swap]; omega)) (hperm.trans hswapperm.symm) hagree1
    refine ⟨j :: js, ⟨⟨hjle, hv⟩, hrun⟩, ?_⟩
    intro js2 hjs2
    obtain ⟨hv2, hrun2⟩ := hjs2
    cases js2 with
    | nil => exact absurd hv2 (by simp [ValidChoices])
    | cons j2 js2 =>
      obtain ⟨hj2le, hv2⟩ := hv2
      have hrun3 : shuffleWith i js2 (swap trials (i + 1) j2) = arrangement := hrun2
      have hread : arrangement[i + 1]? = trials[j2]? := by
        rw [← hrun3, shuffleWith_getElem?_of_gt i js2 _ hv2 (i + 1) (Nat.lt_succ_self i),
          getElem?_swap trials (i + 1) j2 (i + 1) hi (by omega)]
        by_cases h : i + 1 = j2
        · rw [if_pos h, h]
        · rw [if_neg h, if_pos rfl]
      have hj2 : trials[j2]? = some (arrangement.get ⟨i + 1, hiA⟩) := by
        rw [← hread, hxA]
      have hjj : j2 = j := nodup_getElem?_inj hnd hj2 hj
      subst hjj
      rw [huniq js2 ⟨hv2, hrun3⟩]

theorem mem_allChoices : ∀ (i : Nat) (js : List Nat), js ∈ allChoices i ↔ ValidChoices i js := by
  intro i
  induction i with
  | zero =>
    intro js
    simp [allChoices, ValidChoices]
  | succ i ih =>
    intro js
    simp only [allChoices, List.mem_flatMap, List.mem_range, List.mem_map]
    constructor
    · rintro ⟨j, hj, js2, hjs2, rfl⟩
      exact ⟨by omega, (ih js2).mp hjs2⟩
    · intro hv
      cases js with
      | nil => exact absurd hv (by simp [ValidChoices])
      | cons j js2 => exact ⟨j, by have := hv.1; omega, js2, (ih js2).mpr hv.2, rfl⟩

theorem length_flatMap_range_const {β : Type} (f : Nat → List β) (m : Nat)
    (hf : ∀ j, (f j).length = m) : ∀ n, ((List.range n).flatMap f).length = n * m := by
  intro n
  induction n with
  | zero => simp
  | succ n ih =>
    rw [List.range_succ, List.flatMap_append, List.length_append, ih]
    simp only [List.flatMap_cons, List.flatMap_nil, List.append_nil, hf]
    ring

theorem length_allChoices : ∀ i : Nat, (allChoices i).length = (i + 1).factorial := by
  intro i
  induction i with
  | zero => rfl
  | succ i ih =>
    rw [allChoices, length_flatMap_range_const _ (allChoices i).length (fun j => by simp),
      ih, Nat.factorial_succ (i + 1)]

theorem nodup_allChoices : ∀ i : Nat, (allChoices i).Nodup := by
  intro i
  induction i with
  | zero => simp [allChoices]
  | succ i ih =>
    rw [allChoices, List.nodup_flatMap]
    refine ⟨fun j _ => ih.map (fun a b h => (List.cons.inj h).2), ?_⟩
    refine (List.nodup_range (i + 2)).imp ?_
    intro a b hab js ha hb
    rw [List.mem_map] at ha hb
    obtain ⟨x, _, rfl⟩ := ha
    obtain ⟨y, _, hy⟩ := hb
    exact hab (List.cons.inj hy).1.symm

/-! ### C5 -/

/-- C5: for all upTrials, downTrials >= 0, either value of randomizeOrder and every
sequence of random draws, the trialSequence stored by generateTrialSequence contains
exactly upTrials entries up, exactly downTrials entries down and nothing else; 10 and 10
for the shipped settings. -/
theorem generateTrialSequence_counts (settings : Settings) (random : Nat → Draw)
    (state : State) :
    ((generateTrialSequence settings random state).trialSequence.count Direction.up
        = settings.upTrials) ∧
      ((generateTrialSequence settings random state).trialSequence.count Direction.down
        = settings.downTrials) ∧
      (∀ d ∈ (generateTrialSequence settings random state).trialSequence,
        d = Direction.up ∨ d = Direction.down) ∧
      ((generateTrialSequence settings random state).trialSequence.length
        = settings.upTrials + settings.downTrials) ∧
      ((generateTrialSequence config.settings random state).trialSequence.count Direction.up
        = 10) ∧
      ((generateTrialSequence config.settings random state).trialSequence.count Direction.down
        = 10) := by
  have key : ∀ s : Settings, (generateTrialSequence s random state).trialSequence.Perm
      (List.replicate s.upTrials Direction.up ++ List.replicate s.downTrials Direction.down) := by
    intro s
    simp only [generateTrialSequence]
    split
    · rw [shuffleLoop_eq_shuffleWith]
      exact shuffleWith_perm _ _ _
    · exact List.Perm.refl _
  have hcount : ∀ (s : Settings),
      (generateTrialSequence s random state).trialSequence.count Direction.up = s.upTrials ∧
      (generateTrialSequence s random state).trialSequence.count Direction.down
        = s.downTrials := by
    intro s
    rw [(key s).count_eq, (key s).count_eq]
    simp [List.count_replicate]
  refine ⟨(hcount settings).1, (hcount settings).2, ?_, ?_, (hcount config.settings).1,
    (hcount config.settings).2⟩
  · intro d hd
    have hd2 := (key settings).mem_iff.mp hd
    rw [List.mem_append] at hd2
    rcases hd2 with h | h
    · exact Or.inl (List.eq_of_mem_replicate h)
    · exact Or.inr (List.eq_of_mem_replicate h)
  · rw [(key settings).length_eq]
    simp

/-! ### C6 -/

/-- C6: when randomizeOrder is false, generateTrialSequence keeps the block order: the
stored trialSequence is upTrials copies of up followed by downTrials copies of down. -/
theorem generateTrialSequence_block_order (settings : Settings) (random : Nat → Draw)
    (state : State) (h : settings.randomizeOrder = false) :
    (generateTrialSequence settings random state).trialSequence
      = List.replicate settings.upTrials Direction.up ++
        List.replicate settings.downTrials Direction.down := by
  simp [generateTrialSequence, h]

/-- C6 witness: two up and one down trial without randomisation give up, up, down. -/
theorem generateTrialSequence_block_order_witness :
    (generateTrialSequence
        { upTrials := 2, downTrials := 1, randomizeOrder := false, totalTrials := 3 }
        (fun _ => Draw.half) config.state).trialSequence
      = [Direction.up, Direction.up, Direction.down] :=
  generateTrialSequence_block_order
    { upTrials := 2, downTrials := 1, randomizeOrder := false, totalTrials := 3 }
    (fun _ => Draw.half) config.state rfl

/-! ### C7 -/

/-- C7: the shuffle loop is a Fisher-Yates permutation.  For an array of n pairwise
distinct elements: the loop run on draws is the loop run on the indices j it computes,
which form a valid choice vector (j_i in 0..i for i = n-1 down to 1); every valid choice
vector yields a permutation of the array; every permutation of the array arises from
exactly one valid choice vector; and there are exactly n! valid choice vectors. -/
theorem shuffle_choices_bijective {α : Type} [DecidableEq α] (trials : List α)
    (hnd : trials.Nodup) :
    (∀ (random : Nat → Draw) (k : Nat),
      ValidChoices (trials.length - 1) (choicesOf random (trials.length - 1) k) ∧
      shuffleLoop random (trials.length - 1) k trials
        = shuffleWith (trials.length - 1) (choicesOf random (trials.length - 1) k) trials) ∧
    (∀ js, ValidChoices (trials.length - 1) js →
      (shuffleWith (trials.length - 1) js trials).Perm trials) ∧
    (∀ arrangement : List α, arrangement.Perm trials →
      ∃! js, ValidChoices (trials.length - 1) js ∧
        shuffleWith (trials.length - 1) js trials = arrangement) ∧
    (allChoices (trials.length - 1)).Nodup ∧
    (∀ js, js ∈ allChoices (trials.length - 1) ↔ ValidChoices (trials.length - 1) js) ∧
    (allChoices (trials.length - 1)).length = trials.length.factorial := by
  refine ⟨fun random k => ⟨validChoices_choicesOf random _ k,
    shuffleLoop_eq_shuffleWith random _ k trials⟩, fun js _ => shuffleWith_perm _ js trials,
    ?_, nodup_allChoices _, mem_allChoices _, ?_⟩
  · intro arrangement hperm
    refine shuffleWith_existsUnique (trials.length - 1) trials arrangement hnd (by omega)
      hperm ?_
    intro p hp
    have h1 : trials.length ≤ p := by omega
    have h2 : arrangement.length ≤ p := by rw [hperm.length_eq]; exact h1
    rw [List.getElem?_eq_none h1, List.getElem?_eq_none h2]
  · rw [length_allChoices]
    cases hlen : trials.length with
    | zero => rfl
    | succ n => rfl

/-- C7 witness: the arrangement 3, 1, 2 of the array 1, 2, 3 arises from exactly one
choice vector. -/
theorem shuffle_choices_bijective_witness :
    ([1, 2, 3] : List Nat).Nodup ∧
      ∃! js, ValidChoices 2 js ∧ shuffleWith 2 js ([1, 2, 3] : List Nat) = [3, 1, 2] :=
  ⟨by decide,
    (shuffle_choices_bijective ([1, 2, 3] : List Nat) (by decide)).2.2.1 [3, 1, 2]
      (by decide)⟩

end UpDown

namespace Experiment

theorem driversOf_append (l : List Cont) (c : Cont) :
    driversOf (l ++ [c]) = driversOf l ++ (if c.isAux then [] else [c]) := by
  unfold driversOf
  rw [List.filter_append]
  cases c <;> rfl

theorem driversOf_erase (l : List Cont) (c : Cont) :
    driversOf (l.erase c) = (driversOf l).erase c := by
  unfold driversOf
  rw [List.erase_filter]

theorem driversOf_erase_aux (l : List Cont) (c : Cont) (hc : c.isAux = true) :
    driversOf (l.erase c) = driversOf l := by
  rw [driversOf_erase]
  apply List.erase_of_not_mem
  intro hmem
  unfold driversOf at hmem
  rw [List.mem_filter] at hmem
  simp [hc] at hmem

theorem mem_driversOf (l : List Cont) (c : Cont) (hmem : c ∈ l) (hc : c.isAux = false) :
    c ∈ driversOf l := by
  unfold driversOf
  rw [List.mem_filter]
  exact ⟨hmem, by simp [hc]⟩

theorem mem_of_driversOf_eq (l : List Cont) (c : Cont) (h : driversOf l = [c]) : c ∈ l := by
  have hc : c ∈ driversOf l := by rw [h]; exact List.mem_singleton_self c
  unfold driversOf at hc
  exact (List.mem_filter.mp hc).1

theorem StageHolds.drivers_eq {n : Nat} {checks : List Int} {sys : Sys} {running paused : Bool}
    {drivers : List Cont} {kinds : List CallKind}
    (h : StageHolds n checks sys running paused drivers kinds) :
    driversOf sys.pending = drivers :=
  h.2.2.2.2.2.2.1

/-- A stage only looks at `config.state`, the driving activations, the resolver flag
and the calls. -/
theorem AtStage.congr (n : Nat) (checks : List Int) (sys sys2 : Sys) (st : Stage)
    (hs : sys2.state = sys.state) (hd : driversOf sys2.pending = driversOf sys.pending)
    (hr : sys2.attentionCheckResolve = sys.attentionCheckResolve)
    (hcalls : sys2.calls = sys.calls) (h : AtStage n checks sys st) :
    AtStage n checks sys2 st := by
  cases st <;> simp only [AtStage, StageHolds] at h ⊢ <;> rw [hs, hd, hr, hcalls] <;> exact h

theorem AtStage.resolve_eq_paused {n : Nat} {checks : List Int} {sys : Sys} {st : Stage}
    (h : AtStage n checks sys st) : sys.attentionCheckResolve = sys.state.isPaused := by
  cases st <;> simp only [AtStage, StageHolds] at h <;> simp [h]

/-- The driving activation of each stage. -/
theorem AtStage.drivers {n : Nat} {checks : List Int} {sys : Sys} {st : Stage}
    (h : AtStage n checks sys st) :
    driversOf sys.pending = match st with
      | Stage.awaitingSession => [Cont.sessionStartFetch]
      | Stage.announcing => [Cont.announce]
      | Stage.resting _ => [Cont.rest]
      | Stage.inTrial _ c => [c]
      | Stage.ending _ => [Cont.trialEndFetch]
      | Stage.checking _ => [Cont.attentionCheck]
      | Stage.finished => [] := by
  cases st <;> simp only [AtStage, StageHolds] at h <;> simp [h]

/-- Between two trials (`j` trials completed, no activation driving): calling
`runNextTrial()` starts the rest interval of trial `j + 1`, or ends the session
when `j = n`. -/
theorem runNextTrial_between (n : Nat) (checks : List Int) (j : Nat) (sys : Sys) (hj : j ≤ n)
    (ht : sys.state.currentTrial = (j : Int))
    (h : StageHolds n checks sys true false [] (CallKind.startSession :: trialCalls j)) :
    AtStage n checks (runNextTrial sys) (Stage.next n j) := by
  obtain ⟨hconn, htot, hchk, hrun, hpau, hres, hdrv, hkinds⟩ := h
  by_cases hlast : j = n
  · subst hlast
    have hgt : sys.state.currentTrial + 1 > sys.state.totalTrials := by omega
    simp only [Stage.next, lt_irrefl, if_false, AtStage]
    simp only [runNextTrial, stopExperiment, hrun, hpau, hgt, hconn, StageHolds]
    simp [hres, hdrv, hkinds, htot, hchk, driversOf_append, Cont.isAux, sessionCalls,
      DeviceCall.kind]
  · have hle : ¬ (sys.state.currentTrial + 1 > sys.state.totalTrials) := by omega
    have hlt : j < n := by omega
    simp only [Stage.next, hlt, if_true, AtStage]
    simp only [runNextTrial, hrun, hpau, hle, StageHolds]
    simp [hres, hdrv, hkinds, htot, hchk, hconn, hrun, hpau, ht, driversOf_append, Cont.isAux]
    omega

/-- Resuming `startExperiment` after a successful session-start request. -/
theorem atStage_wake_sessionStartFetch (n : Nat) (checks : List Int) (sys : Sys)
    (h : AtStage n checks sys Stage.awaitingSession) :
    AtStage n checks (resume Cont.sessionStartFetch Outcome.ok
      { sys with pending := sys.pending.erase Cont.sessionStartFetch }) Stage.announcing := by
  simp only [AtStage] at h ⊢
  obtain ⟨ht, hconn, htot, hchk, hrun, hpau, hres, hdrv, hkinds⟩ := h
  simp [resume, hrun, hpau, hconn, ht, StageHolds, hres, htot, hchk, hkinds,
    driversOf_append, driversOf_erase, hdrv, Cont.isAux]

/-- Resuming `startExperiment` after the mode announcement: the first trial begins. -/
theorem atStage_wake_announce (n : Nat) (checks : List Int) (sys : Sys) (o : Outcome)
    (h : AtStage n checks sys Stage.announcing) :
    AtStage n checks (resume Cont.announce o
      { sys with pending := sys.pending.erase Cont.announce }) (Stage.next n 0) := by
  simp only [AtStage] at h
  obtain ⟨ht, hconn, htot, hchk, hrun, hpau, hres, hdrv, hkinds⟩ := h
  apply runNextTrial_between n checks 0 _ (Nat.zero_le n)
  · simp [ht]
  · simp [StageHolds, hrun, hpau, hconn, hres, htot, hchk, hkinds, driversOf_erase, hdrv,
      trialCalls]

/-- Resuming `runNextTrial` after the rest interval: the trial-start request is issued. -/
theorem atStage_wake_rest (n : Nat) (checks : List Int) (sys : Sys) (o : Outcome) (k : Nat)
    (h : AtStage n checks sys (Stage.resting k)) :
    AtStage n checks (resume Cont.rest o { sys with pending := sys.pending.erase Cont.rest })
      (Stage.inTrial k Cont.trialStartFetch) := by
  simp only [AtStage] at h ⊢
  obtain ⟨hk, ht, hconn, htot, hchk, hrun, hpau, hres, hdrv, hkinds⟩ := h
  simp [resume, hrun, hpau, hconn, ht, hk, StageHolds, hres, htot, hchk, hkinds,
    driversOf_append, driversOf_erase, hdrv, Cont.isAux, DeviceCall.kind]

/-- Resuming `runNextTrial` after the trial-start request, whatever its outcome. -/
theorem atStage_wake_trialStartFetch (n : Nat) (checks : List Int) (sys : Sys) (o : Outcome) (k : Nat)
    (h : AtStage n checks sys (Stage.inTrial k Cont.trialStartFetch)) :
    AtStage n checks (resume Cont.trialStartFetch o
      { sys with pending := sys.pending.erase Cont.trialStartFetch }) (Stage.inTrial k Cont.concentration) := by
  simp only [AtStage] at h ⊢
  obtain ⟨_, hk, ht, hconn, htot, hchk, hrun, hpau, hres, hdrv, hkinds⟩ := h
  simp [resume, enterConcentration, hrun, hpau, hconn, ht, hk, StageHolds, hres, htot, hchk, hkinds,
    driversOf_append, driversOf_erase, hdrv, Cont.isAux]

/-- Resuming `runNextTrial` after the concentration interval. -/
theorem atStage_wake_concentration (n : Nat) (checks : List Int) (sys : Sys) (o : Outcome) (k : Nat)
    (h : AtStage n checks sys (Stage.inTrial k Cont.concentration)) :
    AtStage n checks (resume Cont.concentration o
      { sys with pending := sys.pending.erase Cont.concentration }) (Stage.inTrial k Cont.cue) := by
  simp only [AtStage] at h ⊢
  obtain ⟨_, hk, ht, hconn, htot, hchk, hrun, hpau, hres, hdrv, hkinds⟩ := h
  simp [resume, hrun, hpau, hconn, ht, hk, StageHolds, hres, htot, hchk, hkinds,
    driversOf_append, driversOf_erase, hdrv, Cont.isAux]

/-- Resuming `runNextTrial` after the cue interval. -/
theorem atStage_wake_cue (n : Nat) (checks : List Int) (sys : Sys) (o : Outcome) (k : Nat)
    (h : AtStage n checks sys (Stage.inTrial k Cont.cue)) :
    AtStage n checks (resume Cont.cue o
      { sys with pending := sys.pending.erase Cont.cue }) (Stage.inTrial k Cont.action) := by
  simp only [AtStage] at h ⊢
  obtain ⟨_, hk, ht, hconn, htot, hchk, hrun, hpau, hres, hdrv, hkinds⟩ := h
  simp [resume, hrun, hpau, hconn, ht, hk, StageHolds, hres, htot, hchk, hkinds,
    driversOf_append, driversOf_erase, hdrv, Cont.isAux]

/-- Resuming `runNextTrial` after the action interval. -/
theorem atStage_wake_action (n : Nat) (checks : List Int) (sys : Sys) (o : Outcome) (k : Nat)
    (h : AtStage n checks sys (Stage.inTrial k Cont.action)) :
    AtStage n checks (resume Cont.action o
      { sys with pending := sys.pending.erase Cont.action }) (Stage.inTrial k Cont.relax) := by
  simp only [AtStage] at h ⊢
  obtain ⟨_, hk, ht, hconn, htot, hchk, hrun, hpau, hres, hdrv, hkinds⟩ := h
  simp [resume, hrun, hpau, hconn, ht, hk, StageHolds, hres, htot, hchk, hkinds,
    driversOf_append, driversOf_erase, hdrv, Cont.isAux]

/-- Resuming `runNextTrial` after the relax interval: the trial-end request is issued. -/
theorem atStage_wake_relax (n : Nat) (checks : List Int) (sys : Sys) (o : Outcome) (k : Nat)
    (h : AtStage n checks sys (Stage.inTrial k Cont.relax)) :
    AtStage n checks (resume Cont.relax o { sys with pending := sys.pending.erase Cont.relax })
      (Stage.ending k) := by
  simp only [AtStage] at h ⊢
  obtain ⟨_, hk, ht, hconn, htot, hchk, hrun, hpau, hres, hdrv, hkinds⟩ := h
  simp [resume, hrun, hpau, hconn, ht, hk, StageHolds, hres, htot, hchk, hkinds,
    driversOf_append, driversOf_erase, hdrv, Cont.isAux, DeviceCall.kind, trialCalls]

/-- Resuming `runNextTrial` after the trial-end request, whatever its outcome: the
attention check if one is scheduled for this trial, else the next trial. -/
theorem atStage_wake_trialEndFetch (n : Nat) (checks : List Int) (sys : Sys) (o : Outcome)
    (k : Nat) (h : AtStage n checks sys (Stage.ending k)) :
    AtStage n checks (resume Cont.trialEndFetch o
      { sys with pending := sys.pending.erase Cont.trialEndFetch })
      (if ((k : Int) + 1) ∈ checks then Stage.checking k else Stage.next n (k + 1)) := by
  simp only [AtStage] at h
  obtain ⟨hk, ht, hconn, htot, hchk, hrun, hpau, hres, hdrv, hkinds⟩ := h
  by_cases hcheck : ((k : Int) + 1) ∈ checks
  · have hcheck2 : sys.state.currentTrial ∈ sys.state.attentionChecks := by
      rw [ht, hchk]; exact hcheck
    have hgo : resume Cont.trialEndFetch o
        { sys with pending := sys.pending.erase Cont.trialEndFetch }
        = showAttentionCheck { sys with pending := sys.pending.erase Cont.trialEndFetch } := by
      simp [resume, finishTrial, hcheck2]
    rw [hgo, if_pos hcheck]
    simp [AtStage, showAttentionCheck, ht, hk, hrun, hconn, StageHolds, htot, hchk, hkinds,
      driversOf_append, driversOf_erase, hdrv, Cont.isAux]
  · have hcheck2 : sys.state.currentTrial ∉ sys.state.attentionChecks := by
      rw [ht, hchk]; exact hcheck
    have hgo : resume Cont.trialEndFetch o
        { sys with pending := sys.pending.erase Cont.trialEndFetch }
        = runNextTrial { sys with pending := sys.pending.erase Cont.trialEndFetch } := by
      simp [resume, finishTrial, hcheck2]
    rw [hgo, if_neg hcheck]
    apply runNextTrial_between n checks (k + 1) _ hk
    · simp [ht]
    · simp [StageHolds, hrun, hpau, hconn, hres, htot, hchk, hkinds, driversOf_erase, hdrv]

theorem State.clear_isPaused (s : State) (h : s.isPaused = false) :
    { s with isPaused := false } = s := by
  cases s
  simp only [State.mk.injEq, true_and, and_true] at h ⊢
  exact h.symm

/-- The last timer of `checkAttention` elapses while an attention check is pending: the
check is resolved and `runNextTrial()` is called. -/
theorem atStage_wake_fadeOut_checking (n : Nat) (checks : List Int) (sys : Sys) (o : Outcome)
    (k : Nat) (h : AtStage n checks sys (Stage.checking k)) :
    AtStage n checks (resume Cont.fadeOut o
      { sys with pending := sys.pending.erase Cont.fadeOut }) (Stage.next n (k + 1)) := by
  simp only [AtStage] at h
  obtain ⟨hk, ht, hconn, htot, hchk, hrun, hpau, hres, hdrv, hkinds⟩ := h
  have hgo : resume Cont.fadeOut o { sys with pending := sys.pending.erase Cont.fadeOut }
      = runNextTrial { sys with
          state := { sys.state with isPaused := false },
          attentionCheckResolve := false,
          pending := (sys.pending.erase Cont.fadeOut).erase Cont.attentionCheck } := by
    simp [resume, hres, resumeAttentionCheck]
  rw [hgo]
  apply runNextTrial_between n checks (k + 1) _ hk
  · simp [ht]
  · simp [StageHolds, hrun, hconn, htot, hchk, hkinds, driversOf_erase, hdrv]

/-- The last timer of `checkAttention` elapses while no check is pending: nothing the
stage depends on changes. -/
theorem atStage_wake_fadeOut_other (n : Nat) (checks : List Int) (sys : Sys) (o : Outcome)
    (st : Stage) (hr : sys.attentionCheckResolve = false) (h : AtStage n checks sys st) :
    AtStage n checks (resume Cont.fadeOut o
      { sys with pending := sys.pending.erase Cont.fadeOut }) st := by
  have hp : sys.state.isPaused = false := by rw [← h.resolve_eq_paused]; exact hr
  have hgo : resume Cont.fadeOut o { sys with pending := sys.pending.erase Cont.fadeOut }
      = { sys with pending := sys.pending.erase Cont.fadeOut } := by
    simp [resume, hr, State.clear_isPaused sys.state hp]
  rw [hgo]
  exact AtStage.congr n checks sys _ st rfl (driversOf_erase_aux _ Cont.fadeOut rfl) rfl rfl h

/-- The driving activation that is suspended is the one of the stage. -/
theorem AtStage.driver_eq {n : Nat} {checks : List Int} {sys : Sys} {st : Stage}
    (h : AtStage n checks sys st) (c : Cont) (hmem : c ∈ sys.pending)
    (haux : c.isAux = false) :
    match st with
      | Stage.awaitingSession => c = Cont.sessionStartFetch
      | Stage.announcing => c = Cont.announce
      | Stage.resting _ => c = Cont.rest
      | Stage.inTrial _ c2 => c = c2
      | Stage.ending _ => c = Cont.trialEndFetch
      | Stage.checking _ => c = Cont.attentionCheck
      | Stage.finished => False := by
  have hd := mem_driversOf _ _ hmem haux
  rw [h.drivers] at hd
  cases st <;> simp at hd ⊢ <;> exact hd

/-- Resuming the driving activation of a trial in progress. -/
theorem atStage_wake_inTrial (n : Nat) (checks : List Int) (sys : Sys) (o : Outcome) (k : Nat)
    (c : Cont) (h : AtStage n checks sys (Stage.inTrial k c)) :
    ∃ st, AtStage n checks (resume c o { sys with pending := sys.pending.erase c }) st := by
  have hc : c ∈ [Cont.trialStartFetch, Cont.concentration, Cont.cue, Cont.action, Cont.relax] :=
    h.1
  simp only [List.mem_cons, List.mem_singleton, List.not_mem_nil, or_false] at hc
  rcases hc with rfl | rfl | rfl | rfl | rfl
  · exact ⟨_, atStage_wake_trialStartFetch n checks sys o k h⟩
  · exact ⟨_, atStage_wake_concentration n checks sys o k h⟩
  · exact ⟨_, atStage_wake_cue n checks sys o k h⟩
  · exact ⟨_, atStage_wake_action n checks sys o k h⟩
  · exact ⟨_, atStage_wake_relax n checks sys o k h⟩

/-- One step of a session without pause or stop: every such event leaves the controller
at one of the stages. -/
theorem quiet_step (n : Nat) (checks : List Int) (sys : Sys) (e : Event)
    (hinv : ∃ st, AtStage n checks sys st) (hq : quietEvent e = true) :
    ∃ st, AtStage n checks (step sys e) st := by
  obtain ⟨st, h⟩ := hinv
  cases e with
  | setMode mode => simp [quietEvent] at hq
  | clickStart now checks => simp [quietEvent] at hq
  | clickPause => simp [quietEvent] at hq
  | clickStop => simp [quietEvent] at hq
  | clickConfirmConnect complete => simp [quietEvent] at hq
  | connectResponse o => simp [quietEvent] at hq
  | connectTimer => simp [quietEvent] at hq
  | answer selectedDirection =>
    exact ⟨st, AtStage.congr n checks sys _ st rfl
      (by simp [step, checkAttention, driversOf_append, Cont.isAux]) rfl rfl h⟩
  | wake c o =>
    by_cases hmem : c ∈ sys.pending ∧ c ≠ Cont.attentionCheck
    · have hstep : step sys (Event.wake c o)
          = resume c o { sys with pending := sys.pending.erase c } := by
        simp only [step, if_pos hmem]
      rw [hstep]
      by_cases haux : c.isAux = true
      · cases c with
        | feedbackDelay =>
          exact ⟨st, AtStage.congr n checks sys _ st rfl
            (by simp [resume, driversOf_append, Cont.isAux, driversOf_erase_aux]) rfl rfl h⟩
        | sessionEndFetch =>
          exact ⟨st, AtStage.congr n checks sys _ st rfl
            (by simp [resume, Cont.isAux, driversOf_erase_aux]) rfl rfl h⟩
        | fadeOut =>
          by_cases hr : sys.attentionCheckResolve = true
          · cases st with
            | checking k => exact ⟨_, atStage_wake_fadeOut_checking n checks sys o k h⟩
            | awaitingSession => simp [AtStage, StageHolds, hr] at h
            | announcing => simp [AtStage, StageHolds, hr] at h
            | resting k => simp [AtStage, StageHolds, hr] at h
            | inTrial k c => simp [AtStage, StageHolds, hr] at h
            | ending k => simp [AtStage, StageHolds, hr] at h
            | finished => simp [AtStage, StageHolds, hr] at h
          · exact ⟨st, atStage_wake_fadeOut_other n checks sys o st (by simpa using hr) h⟩
        | sessionStartFetch => simp [Cont.isAux] at haux
        | announce => simp [Cont.isAux] at haux
        | rest => simp [Cont.isAux] at haux
        | trialStartFetch => simp [Cont.isAux] at haux
        | concentration => simp [Cont.isAux] at haux
        | cue => simp [Cont.isAux] at haux
        | action => simp [Cont.isAux] at haux
        | relax => simp [Cont.isAux] at haux
        | trialEndFetch => simp [Cont.isAux] at haux
        | attentionCheck => simp [Cont.isAux] at haux
      · have hdrv := h.driver_eq c hmem.1 (by simpa using haux)
        cases st with
        | awaitingSession =>
          simp only at hdrv
          subst hdrv
          have ho : o = Outcome.ok := by simpa [quietEvent] using hq
          subst ho
          exact ⟨_, atStage_wake_sessionStartFetch n checks sys h⟩
        | announcing =>
          simp only at hdrv
          subst hdrv
          exact ⟨_, atStage_wake_announce n checks sys o h⟩
        | resting k =>
          simp only at hdrv
          subst hdrv
          exact ⟨_, atStage_wake_rest n checks sys o k h⟩
        | inTrial k c2 =>
          simp only at hdrv
          subst hdrv
          exact atStage_wake_inTrial n checks sys o k c h
        | ending k =>
          simp only at hdrv
          subst hdrv
          exact ⟨_, atStage_wake_trialEndFetch n checks sys o k h⟩
        | checking k =>
          simp only at hdrv
          exact absurd hdrv hmem.2
        | finished => exact absurd hdrv (by simp)
    · have hstep : step sys (Event.wake c o) = sys := by
        simp only [step, if_neg hmem]
      rw [hstep]
      exact ⟨st, h⟩

theorem quiet_run (n : Nat) (checks : List Int) :
    ∀ (events : List Event) (sys : Sys), (∃ st, AtStage n checks sys st) →
      (∀ e ∈ events, quietEvent e = true) → ∃ st, AtStage n checks (run sys events) st := by
  intro events
  induction events with
  | nil => intro sys hinv _; exact hinv
  | cons e events ih =>
    intro sys hinv hq
    have h1 := quiet_step n checks sys e hinv (hq e (List.mem_cons_self e events))
    exact ih (step sys e) h1 (fun e2 he2 => hq e2 (List.mem_cons_of_mem e he2))

theorem trialCalls_extend (k : Nat) :
    ∀ d : Nat, ∃ rest, trialCalls k ++ rest = trialCalls (k + d) := by
  intro d
  induction d with
  | zero => exact ⟨[], by simp⟩
  | succ d ih =>
    obtain ⟨rest, hrest⟩ := ih
    refine ⟨rest ++ [CallKind.startTrial (((k + d : Nat) : Int) + 1), CallKind.endTrial], ?_⟩
    rw [← List.append_assoc, hrest]
    rfl

/-- At every stage the calls issued so far are an initial segment of the session's
call sequence, and once the run has stopped they are the whole sequence. -/
theorem AtStage.calls_spec {n : Nat} {checks : List Int} {sys : Sys} {st : Stage}
    (h : AtStage n checks sys st) :
    (∃ rest, sys.calls.map DeviceCall.kind ++ rest = sessionCalls n) ∧
      (sys.state.isRunning = false → sys.calls.map DeviceCall.kind = sessionCalls n) := by
  have hseg : ∀ k : Nat, k ≤ n → ∀ l : List CallKind,
      (∃ rest2, l ++ rest2 = trialCalls k) →
      ∃ rest, (CallKind.startSession :: l) ++ rest = sessionCalls n := by
    intro k hk l hl
    obtain ⟨rest2, h2⟩ := hl
    obtain ⟨rest3, h3⟩ := trialCalls_extend k (n - k)
    have hkn : k + (n - k) = n := by omega
    rw [hkn] at h3
    refine ⟨rest2 ++ rest3 ++ [CallKind.endSession], ?_⟩
    simp only [sessionCalls, ← h3, ← h2, List.cons_append, List.append_assoc]
  cases st with
  | awaitingSession =>
    obtain ⟨_, _, _, _, hrun, _, _, _, hkinds⟩ := h
    rw [hkinds, hrun]
    exact ⟨hseg 0 (Nat.zero_le n) [] ⟨[], rfl⟩, by simp⟩
  | announcing =>
    obtain ⟨_, _, _, _, hrun, _, _, _, hkinds⟩ := h
    rw [hkinds, hrun]
    exact ⟨hseg 0 (Nat.zero_le n) [] ⟨[], rfl⟩, by simp⟩
  | resting k =>
    obtain ⟨hk, _, _, _, _, hrun, _, _, _, hkinds⟩ := h
    rw [hkinds, hrun]
    exact ⟨hseg k (by omega) _ ⟨[], by simp⟩, by simp⟩
  | inTrial k c =>
    obtain ⟨_, hk, _, _, _, _, hrun, _, _, _, hkinds⟩ := h
    rw [hkinds, hrun]
    exact ⟨hseg (k + 1) hk _ ⟨[CallKind.endTrial], by simp [trialCalls]⟩, by simp⟩
  | ending k =>
    obtain ⟨hk, _, _, _, _, hrun, _, _, _, hkinds⟩ := h
    rw [hkinds, hrun]
    exact ⟨hseg (k + 1) hk _ ⟨[], by simp⟩, by simp⟩
  | checking k =>
    obtain ⟨hk, _, _, _, _, hrun, _, _, _, hkinds⟩ := h
    rw [hkinds, hrun]
    exact ⟨hseg (k + 1) hk _ ⟨[], by simp⟩, by simp⟩
  | finished =>
    obtain ⟨_, _, _, _, _, _, _, hkinds⟩ := h
    rw [hkinds]
    exact ⟨⟨[], by simp⟩, fun _ => rfl⟩

theorem run_nil (sys : Sys) : run sys [] = sys := rfl

theorem run_cons (sys : Sys) (e : Event) (events : List Event) :
    run sys (e :: events) = run (step sys e) events := rfl

theorem run_append (sys : Sys) (events events2 : List Event) :
    run sys (events ++ events2) = run (run sys events) events2 := by
  unfold run
  rw [List.foldl_append]

theorem step_wake_of_mem (sys : Sys) (c : Cont) (o : Outcome) (hmem : c ∈ sys.pending)
    (hc : c ≠ Cont.attentionCheck) :
    step sys (Event.wake c o) = resume c o { sys with pending := sys.pending.erase c } := by
  simp only [step, if_pos (And.intro hmem hc)]

theorem atStage_step_rest (n : Nat) (checks : List Int) (sys : Sys) (o : Outcome) (k : Nat)
    (h : AtStage n checks sys (Stage.resting k)) :
    AtStage n checks (step sys (Event.wake Cont.rest o)) (Stage.inTrial k Cont.trialStartFetch) := by
  rw [step_wake_of_mem sys Cont.rest o (mem_of_driversOf_eq _ _ h.2.2.drivers_eq) (by simp)]
  exact atStage_wake_rest n checks sys o k h

theorem atStage_step_trialStartFetch (n : Nat) (checks : List Int) (sys : Sys) (o : Outcome)
    (k : Nat) (h : AtStage n checks sys (Stage.inTrial k Cont.trialStartFetch)) :
    AtStage n checks (step sys (Event.wake Cont.trialStartFetch o))
      (Stage.inTrial k Cont.concentration) := by
  rw [step_wake_of_mem sys Cont.trialStartFetch o
    (mem_of_driversOf_eq _ _ h.2.2.2.drivers_eq) (by simp)]
  exact atStage_wake_trialStartFetch n checks sys o k h

theorem atStage_step_concentration (n : Nat) (checks : List Int) (sys : Sys) (o : Outcome)
    (k : Nat) (h : AtStage n checks sys (Stage.inTrial k Cont.concentration)) :
    AtStage n checks (step sys (Event.wake Cont.concentration o)) (Stage.inTrial k Cont.cue) := by
  rw [step_wake_of_mem sys Cont.concentration o
    (mem_of_driversOf_eq _ _ h.2.2.2.drivers_eq) (by simp)]
  exact atStage_wake_concentration n checks sys o k h

theorem atStage_step_cue (n : Nat) (checks : List Int) (sys : Sys) (o : Outcome)
    (k : Nat) (h : AtStage n checks sys (Stage.inTrial k Cont.cue)) :
    AtStage n checks (step sys (Event.wake Cont.cue o)) (Stage.inTrial k Cont.action) := by
  rw [step_wake_of_mem sys Cont.cue o (mem_of_driversOf_eq _ _ h.2.2.2.drivers_eq) (by simp)]
  exact atStage_wake_cue n checks sys o k h

theorem atStage_step_action (n : Nat) (checks : List Int) (sys : Sys) (o : Outcome)
    (k : Nat) (h : AtStage n checks sys (Stage.inTrial k Cont.action)) :
    AtStage n checks (step sys (Event.wake Cont.action o)) (Stage.inTrial k Cont.relax) := by
  rw [step_wake_of_mem sys Cont.action o (mem_of_driversOf_eq _ _ h.2.2.2.drivers_eq) (by simp)]
  exact atStage_wake_action n checks sys o k h

theorem atStage_step_relax (n : Nat) (checks : List Int) (sys : Sys) (o : Outcome)
    (k : Nat) (h : AtStage n checks sys (Stage.inTrial k Cont.relax)) :
    AtStage n checks (step sys (Event.wake Cont.relax o)) (Stage.ending k) := by
  rw [step_wake_of_mem sys Cont.relax o (mem_of_driversOf_eq _ _ h.2.2.2.drivers_eq) (by simp)]
  exact atStage_wake_relax n checks sys o k h

theorem atStage_step_trialEndFetch (n : Nat) (checks : List Int) (sys : Sys) (o : Outcome)
    (k : Nat) (h : AtStage n checks sys (Stage.ending k)) :
    AtStage n checks (step sys (Event.wake Cont.trialEndFetch o))
      (if ((k : Int) + 1) ∈ checks then Stage.checking k else Stage.next n (k + 1)) := by
  rw [step_wake_of_mem sys Cont.trialEndFetch o
    (mem_of_driversOf_eq _ _ h.2.2.drivers_eq) (by simp)]
  exact atStage_wake_trialEndFetch n checks sys o k h

theorem atStage_step_answer (n : Nat) (checks : List Int) (sys : Sys) (d : Direction)
    (st : Stage) (h : AtStage n checks sys st) :
    AtStage n checks (step sys (Event.answer d)) st ∧
      Cont.feedbackDelay ∈ (step sys (Event.answer d)).pending :=
  ⟨AtStage.congr n checks sys _ st rfl
      (by simp [step, checkAttention, driversOf_append, Cont.isAux]) rfl rfl h,
    by simp [step, checkAttention]⟩

theorem atStage_step_feedbackDelay (n : Nat) (checks : List Int) (sys : Sys) (o : Outcome)
    (st : Stage) (h : AtStage n checks sys st) (hmem : Cont.feedbackDelay ∈ sys.pending) :
    AtStage n checks (step sys (Event.wake Cont.feedbackDelay o)) st ∧
      Cont.fadeOut ∈ (step sys (Event.wake Cont.feedbackDelay o)).pending := by
  rw [step_wake_of_mem sys Cont.feedbackDelay o hmem (by simp)]
  exact ⟨AtStage.congr n checks sys _ st rfl
      (by simp [resume, driversOf_append, Cont.isAux, driversOf_erase_aux]) rfl rfl h,
    by simp [resume]⟩

theorem atStage_step_fadeOut (n : Nat) (checks : List Int) (sys : Sys) (o : Outcome) (k : Nat)
    (h : AtStage n checks sys (Stage.checking k)) (hmem : Cont.fadeOut ∈ sys.pending) :
    AtStage n checks (step sys (Event.wake Cont.fadeOut o)) (Stage.next n (k + 1)) := by
  rw [step_wake_of_mem sys Cont.fadeOut o hmem (by simp)]
  exact atStage_wake_fadeOut_checking n checks sys o k h

/-- An answered attention check is resolved after the two timers of `checkAttention`. -/
theorem atStage_answer_check (n : Nat) (checks : List Int) (sys : Sys) (k : Nat)
    (d : Direction) (o1 o2 : Outcome) (h : AtStage n checks sys (Stage.checking k)) :
    AtStage n checks
      (step (step (step sys (Event.answer d)) (Event.wake Cont.feedbackDelay o1))
        (Event.wake Cont.fadeOut o2))
      (Stage.next n (k + 1)) := by
  have h1 := atStage_step_answer n checks sys d _ h
  have h2 := atStage_step_feedbackDelay n checks _ o1 _ h1.1 h1.2
  exact atStage_step_fadeOut n checks _ o2 k h2.1 h2.2

/-- The events of trial `k + 1` take the controller from the rest interval of that trial
to the next one, or to the end of the session after the last trial. -/
theorem atStage_trialEvents (n : Nat) (checks : List Int) (startOutcome endOutcome : Nat → Outcome)
    (answers : Nat → Direction) (sys : Sys) (k : Nat)
    (h : AtStage n checks sys (Stage.resting k)) :
    AtStage n checks (run sys (trialEvents checks startOutcome endOutcome answers k))
      (Stage.next n (k + 1)) := by
  have h1 := atStage_step_rest n checks sys Outcome.ok k h
  have h2 := atStage_step_trialStartFetch n checks _ (startOutcome k) k h1
  have h3 := atStage_step_concentration n checks _ Outcome.ok k h2
  have h4 := atStage_step_cue n checks _ Outcome.ok k h3
  have h5 := atStage_step_action n checks _ Outcome.ok k h4
  have h6 := atStage_step_relax n checks _ Outcome.ok k h5
  have h7 := atStage_step_trialEndFetch n checks _ (endOutcome k) k h6
  unfold trialEvents
  rw [run_append]
  by_cases hcheck : ((k : Int) + 1) ∈ checks
  · rw [if_pos hcheck] at h7 ⊢
    simp only [run_cons, run_nil]
    exact atStage_answer_check n checks _ k (answers k) Outcome.ok Outcome.ok h7
  · rw [if_neg hcheck] at h7 ⊢
    simp only [run_cons, run_nil]
    exact h7

theorem atStage_trialsFrom (n : Nat) (checks : List Int) (startOutcome endOutcome : Nat → Outcome)
    (answers : Nat → Direction) :
    ∀ (d j : Nat) (sys : Sys), j + d = n → AtStage n checks sys (Stage.next n j) →
      AtStage n checks (run sys (trialsFrom checks startOutcome endOutcome answers j d))
        Stage.finished := by
  intro d
  induction d with
  | zero =>
    intro j sys hj h
    have hjn : ¬ j < n := by omega
    simp only [Stage.next, if_neg hjn] at h
    exact h
  | succ d ih =>
    intro j sys hj h
    have hjn : j < n := by omega
    simp only [Stage.next, if_pos hjn] at h
    simp only [trialsFrom, run_append]
    exact ih (j + 1) _ (by omega)
      (atStage_trialEvents n checks startOutcome endOutcome answers sys j h)

theorem quiet_trialsFrom (checks : List Int) (startOutcome endOutcome : Nat → Outcome)
    (answers : Nat → Direction) :
    ∀ (d j : Nat), ∀ e ∈ trialsFrom checks startOutcome endOutcome answers j d,
      quietEvent e = true := by
  intro d
  induction d with
  | zero => intro j e he; simp [trialsFrom] at he
  | succ d ih =>
    intro j e he
    simp only [trialsFrom, List.mem_append] at he
    rcases he with he | he
    · simp only [trialEvents, List.mem_append] at he
      rcases he with he | he
      · simp only [List.mem_cons, List.mem_singleton, List.not_mem_nil, or_false] at he
        rcases he with rfl | rfl | rfl | rfl | rfl | rfl | rfl <;> rfl
      · split at he
        · simp only [List.mem_cons, List.mem_singleton, List.not_mem_nil, or_false] at he
          rcases he with rfl | rfl | rfl <;> rfl
        · simp at he
    · exact ih (j + 1) e he

theorem atStage_step_sessionStartFetch (n : Nat) (checks : List Int) (sys : Sys)
    (h : AtStage n checks sys Stage.awaitingSession) :
    AtStage n checks (step sys (Event.wake Cont.sessionStartFetch Outcome.ok))
      Stage.announcing := by
  rw [step_wake_of_mem sys Cont.sessionStartFetch Outcome.ok
    (mem_of_driversOf_eq _ _ h.2.drivers_eq) (by simp)]
  exact atStage_wake_sessionStartFetch n checks sys h

theorem atStage_step_announce (n : Nat) (checks : List Int) (sys : Sys) (o : Outcome)
    (h : AtStage n checks sys Stage.announcing) :
    AtStage n checks (step sys (Event.wake Cont.announce o)) (Stage.next n 0) := by
  rw [step_wake_of_mem sys Cont.announce o (mem_of_driversOf_eq _ _ h.2.drivers_eq) (by simp)]
  exact atStage_wake_announce n checks sys o h

/-- Clicking Start on a freshly loaded page with a mode selected and a connected device
issues the session-start request. -/
theorem atStage_startExperiment (n : Nat) (state : State) (random : Nat → Draw) (now : Int)
    (checks : List Int) (hmode : state.currentMode ≠ none) (hpau : state.isPaused = false)
    (hconn : state.isConnectedToCrown = true) (htot : state.totalTrials = (n : Int)) :
    AtStage n checks (step (Sys.init state random) (Event.clickStart now checks))
      Stage.awaitingSession := by
  simp [step, startExperiment, Sys.init, hmode, hpau, hconn, htot, AtStage, StageHolds,
    driversOf, Cont.isAux, DeviceCall.kind]

/-! ### C8 -/

/-- C8: a session of n trials on a freshly loaded page with a mode selected and a
connected device whose session-start request succeeds, without pause or stop event.
For every attention-check schedule, every answer and every outcome of the trial-level
requests: (1) after any such events the device calls issued so far are an initial
segment of startSession, startTrial(1), endTrial, ..., startTrial(n), endTrial,
endSession, and once the run has stopped they are exactly that sequence; (2) the
events of the n trials, delivered in order, do let the run stop with exactly that
sequence. -/
theorem quiet_session_device_calls (n : Nat) (state : State) (random : Nat → Draw)
    (now : Int) (checks : List Int) (hmode : state.currentMode ≠ none)
    (hpau : state.isPaused = false) (hconn : state.isConnectedToCrown = true)
    (htot : state.totalTrials = (n : Int)) :
    (∀ events : List Event, (∀ e ∈ events, quietEvent e = true) →
      (∃ rest, (run (Sys.init state random) (Event.clickStart now checks :: events)).calls.map
          DeviceCall.kind ++ rest = sessionCalls n) ∧
      ((run (Sys.init state random) (Event.clickStart now checks :: events)).state.isRunning
          = false →
        (run (Sys.init state random) (Event.clickStart now checks :: events)).calls.map
          DeviceCall.kind = sessionCalls n)) ∧
    (∀ (startOutcome endOutcome : Nat → Outcome) (answers : Nat → Direction),
      (∀ e ∈ sessionEvents checks startOutcome endOutcome answers n, quietEvent e = true) ∧
      (run (Sys.init state random) (Event.clickStart now checks ::
          sessionEvents checks startOutcome endOutcome answers n)).state.isRunning = false ∧
      (run (Sys.init state random) (Event.clickStart now checks ::
          sessionEvents checks startOutcome endOutcome answers n)).calls.map DeviceCall.kind
        = sessionCalls n) := by
  have h0 := atStage_startExperiment n state random now checks hmode hpau hconn htot
  constructor
  · intro events hq
    rw [run_cons]
    obtain ⟨st, hst⟩ := quiet_run n checks events _ ⟨_, h0⟩ hq
    exact hst.calls_spec
  · intro startOutcome endOutcome answers
    have hquiet : ∀ e ∈ sessionEvents checks startOutcome endOutcome answers n,
        quietEvent e = true := by
      intro e he
      simp only [sessionEvents, List.mem_append, List.mem_cons, List.mem_singleton,
        List.not_mem_nil, or_false] at he
      rcases he with (rfl | rfl) | he
      · rfl
      · rfl
      · exact quiet_trialsFrom checks startOutcome endOutcome answers n 0 e he
    have h1 := atStage_step_sessionStartFetch n checks _ h0
    have h2 := atStage_step_announce n checks _ Outcome.ok h1
    have h3 := atStage_trialsFrom n checks startOutcome endOutcome answers n 0 _ (by omega) h2
    have hfin : AtStage n checks (run (Sys.init state random) (Event.clickStart now checks ::
        sessionEvents checks startOutcome endOutcome answers n)) Stage.finished := by
      simp only [sessionEvents, List.cons_append, List.nil_append, run_cons]
      exact h3
    have hstop : (run (Sys.init state random) (Event.clickStart now checks ::
        sessionEvents checks startOutcome endOutcome answers n)).state.isRunning = false :=
      hfin.2.2.2.1
    exact ⟨hquiet, hstop, hfin.calls_spec.2 hstop⟩

/-- C8 witness: three trials with attention checks after trials 2 and 3, failing
trial-start requests, throwing trial-end requests and the answer up: the calls are
startSession, startTrial(1), endTrial, startTrial(2), endTrial, startTrial(3), endTrial,
endSession. -/
theorem quiet_session_device_calls_witness :
    threeTrialState.currentMode ≠ none ∧ threeTrialState.isPaused = false ∧
      threeTrialState.isConnectedToCrown = true ∧ threeTrialState.totalTrials = ((3 : Nat) : Int) ∧
      (run (Sys.init threeTrialState (fun _ => Draw.half)) (Event.clickStart 0 [2, 3] ::
          sessionEvents [2, 3] (fun _ => Outcome.failed) (fun _ => Outcome.threw)
            (fun _ => Direction.up) 3)).calls.map DeviceCall.kind
        = [CallKind.startSession, CallKind.startTrial 1, CallKind.endTrial,
            CallKind.startTrial 2, CallKind.endTrial, CallKind.startTrial 3,
            CallKind.endTrial, CallKind.endSession] :=
  ⟨by decide, rfl, rfl, rfl,
    ((quiet_session_device_calls 3 threeTrialState (fun _ => Draw.half) 0 [2, 3] (by decide)
      rfl rfl rfl).2 (fun _ => Outcome.failed) (fun _ => Outcome.threw)
      (fun _ => Direction.up)).2.2⟩

/-! ### C9 -/

/-- C9: in the 4-direction controller, stopExperiment called while isRunning is false
changes nothing: no field of config.state, no suspended activation and no device call.
Hence a stop right after a stop changes nothing more, and two consecutive stops issue at
most one endSession. -/
theorem stopExperiment_not_running (sys : Sys) :
    (sys.state.isRunning = false →
      stopExperiment sys = sys ∧ step sys Event.clickStop = sys) ∧
    stopExperiment (stopExperiment sys) = stopExperiment sys ∧
    (∃ issued : List DeviceCall,
      (stopExperiment (stopExperiment sys)).calls = sys.calls ++ issued ∧
      issued.count DeviceCall.endSession ≤ 1) := by
  have hnoop : ∀ s : Sys, s.state.isRunning = false → stopExperiment s = s := by
    intro s hs
    simp [stopExperiment, hs]
  have hstopped : (stopExperiment sys).state.isRunning = false := by
    by_cases hr : sys.state.isRunning = true
    · by_cases hc : sys.state.isConnectedToCrown = true <;> simp [stopExperiment, hr, hc]
    · have hr2 : sys.state.isRunning = false := by simpa using hr
      rw [hnoop sys hr2]
      exact hr2
  refine ⟨fun h => ⟨hnoop sys h, hnoop sys h⟩, hnoop _ hstopped, ?_⟩
  rw [hnoop _ hstopped]
  by_cases hr : sys.state.isRunning = true
  · by_cases hc : sys.state.isConnectedToCrown = true
    · exact ⟨[DeviceCall.endSession], by simp [stopExperiment, hr, hc], by simp⟩
    · exact ⟨[], by simp [stopExperiment, hr, hc], by simp⟩
  · have hr2 : sys.state.isRunning = false := by simpa using hr
    exact ⟨[], by rw [hnoop sys hr2]; simp, by simp⟩

/-- C9 witness: on a stopped controller with a connected device, stopExperiment returns
the controller unchanged, its two logged calls included. -/
theorem stopExperiment_not_running_witness :
    stoppedSys.state.isRunning = false ∧ stoppedSys.state.isConnectedToCrown = true ∧
      stopExperiment stoppedSys = stoppedSys ∧
      (stopExperiment stoppedSys).calls
        = [DeviceCall.startSession (some Mode.visualized) 40, DeviceCall.endSession] :=
  ⟨rfl, rfl, ((stopExperiment_not_running stoppedSys).1 rfl).1,
    by rw [((stopExperiment_not_running stoppedSys).1 rfl).1]; rfl⟩

end Experiment

namespace UpDown

/-! ### C10 -/

/-- C10 (code evaluated at the failing input): with the device connected and isRunning
already false, stopExperiment of the up/down variant leaves the state as it is but
issues an endSession call; a second stop right after a first one issues a second
endSession. -/
theorem stopExperiment_not_running_issues_endSession :
    connectedIdle.state.isConnected = true ∧ connectedIdle.state.isRunning = false ∧
      (stopExperiment connectedIdle).state = connectedIdle.state ∧
      (stopExperiment connectedIdle).calls = [DeviceCall.endSession] ∧
      (stopExperiment (stopExperiment connectedRunning)).calls
        = [DeviceCall.endSession, DeviceCall.endSession] := by
  refine ⟨rfl, rfl, rfl, rfl, rfl⟩

end UpDown


namespace Experiment

/-! ### C11 -/

theorem startLocked_of_same (sys sys2 : Sys) (h : StartLocked sys)
    (hr : sys2.state.isRunning = sys.state.isRunning)
    (hs : sys2.startDisabled = sys.startDisabled)
    (hm : sys2.modeDisabled = sys.modeDisabled) : StartLocked sys2 := by
  intro hrun
  rw [hs, hm]
  exact h (hr.symm.trans hrun)

theorem startLocked_stopExperiment (sys : Sys) : StartLocked (stopExperiment sys) := by
  unfold stopExperiment
  split
  · rename_i hr
    intro hrun
    simp [hrun] at hr
  · dsimp only
    split <;> intro hrun <;> simp at hrun

theorem startLocked_runNextTrial (sys : Sys) (h : StartLocked sys) :
    StartLocked (runNextTrial sys) := by
  unfold runNextTrial
  split
  · exact h
  · dsimp only
    split
    · exact startLocked_stopExperiment _
    · exact startLocked_of_same sys _ h rfl rfl rfl

theorem startLocked_finishTrial (sys : Sys) (h : StartLocked sys) :
    StartLocked (finishTrial sys) := by
  unfold finishTrial
  split
  · exact startLocked_of_same sys _ h rfl rfl rfl
  · exact startLocked_runNextTrial sys h

theorem startLocked_startExperiment (now : Int) (checks : List Int) (sys : Sys)
    (h : StartLocked sys) : StartLocked (startExperiment now checks sys) := by
  unfold startExperiment
  split
  · exact h
  · split
    · exact h
    · dsimp only
      split <;> intro _ <;> exact ⟨rfl, rfl⟩

theorem startLocked_pauseExperiment (sys : Sys) (h : StartLocked sys) :
    StartLocked (pauseExperiment sys) := by
  unfold pauseExperiment
  split
  · exact h
  · dsimp only
    split
    · exact startLocked_of_same sys _ h rfl rfl rfl
    · exact startLocked_runNextTrial _ (startLocked_of_same sys _ h rfl rfl rfl)

theorem startLocked_resume (c : Cont) (o : Outcome) (sys : Sys) (h : StartLocked sys) :
    StartLocked (resume c o sys) := by
  cases c with
  | sessionStartFetch =>
    simp only [resume]
    split
    · exact startLocked_of_same sys _ h rfl rfl rfl
    · exact startLocked_stopExperiment sys
  | announce => exact startLocked_runNextTrial sys h
  | rest =>
    simp only [resume]
    split
    · exact h
    · split
      · exact startLocked_of_same sys _ h rfl rfl rfl
      · exact startLocked_of_same sys _ h rfl rfl rfl
  | trialStartFetch => exact startLocked_of_same sys _ h rfl rfl rfl
  | concentration =>
    simp only [resume]
    split
    · exact h
    · exact startLocked_of_same sys _ h rfl rfl rfl
  | cue =>
    simp only [resume]
    split
    · exact h
    · exact startLocked_of_same sys _ h rfl rfl rfl
  | action =>
    simp only [resume]
    split
    · exact h
    · exact startLocked_of_same sys _ h rfl rfl rfl
  | relax =>
    simp only [resume]
    split
    · exact h
    · split
      · exact startLocked_of_same sys _ h rfl rfl rfl
      · exact startLocked_finishTrial _ (startLocked_of_same sys _ h rfl rfl rfl)
  | trialEndFetch => exact startLocked_finishTrial sys h
  | attentionCheck => exact startLocked_runNextTrial sys h
  | feedbackDelay => exact startLocked_of_same sys _ h rfl rfl rfl
  | fadeOut =>
    simp only [resume]
    split
    · exact startLocked_runNextTrial _ (startLocked_of_same sys _ h rfl rfl rfl)
    · exact startLocked_of_same sys _ h rfl rfl rfl
  | sessionEndFetch => exact h

/-- Every event keeps the Start button and the mode buttons disabled while a run is in
progress. -/
theorem startLocked_step (sys : Sys) (e : Event) (h : StartLocked sys) :
    StartLocked (step sys e) := by
  cases e with
  | setMode mode =>
    simp only [step]
    split
    · exact h
    · rename_i hmode
      unfold setMode
      split
      · exact h
      · intro hrun
        exact absurd (h hrun).2 hmode
  | clickStart now checks =>
    simp only [step]
    split
    · exact h
    · exact startLocked_startExperiment now checks sys h
  | clickPause => exact startLocked_pauseExperiment sys h
  | clickStop => exact startLocked_stopExperiment sys
  | answer selectedDirection => exact startLocked_of_same sys _ h rfl rfl rfl
  | wake c o =>
    simp only [step]
    split
    · exact startLocked_resume c o _ (startLocked_of_same sys _ h rfl rfl rfl)
    · exact h
  | clickConfirmConnect complete =>
    simp only [step, connectToCrown]
    split
    · split
      · exact startLocked_of_same sys _ h rfl rfl rfl
      · split
        · exact h
        · exact startLocked_of_same sys _ h rfl rfl rfl
    · exact h
  | connectResponse o =>
    simp only [step, connectToCrownResponse]
    split
    · split
      · exact startLocked_of_same sys _ h rfl rfl rfl
      · exact startLocked_of_same sys _ h rfl rfl rfl
    · exact h
  | connectTimer =>
    simp only [step]
    split
    · exact startLocked_of_same sys _ h rfl rfl rfl
    · exact h

theorem startLocked_run (events : List Event) (sys : Sys) (h : StartLocked sys) :
    StartLocked (run sys events) := by
  induction events generalizing sys with
  | nil => exact h
  | cons e rest ih =>
    rw [run_cons]
    exact ih _ (startLocked_step sys e h)

/-- C11: startExperiment runs only as the handler of a click on Start (104), and the
controller keeps that button disabled for as long as a run is in progress (300, 617; the
mode buttons, whose handler enables Start, are disabled with it, 303-305).  In every state
reached from a freshly loaded page in which a run is Running (isRunning true, isPaused
false included), the Start button is disabled and a click on it changes nothing:
currentTrial, attentionChecks and sessionStartTime are unchanged, no startSession call is
issued, no activation is suspended (so no second trial loop starts), and whatever happens
later happens as if the click had not occurred. -/
theorem start_while_running_rejected (state : State) (random : Nat → Draw)
    (events : List Event) (now : Int) (checks : List Int)
    (hidle : state.isRunning = false)
    (hrun : (run (Sys.init state random) events).state.isRunning = true) :
    (run (Sys.init state random) events).startDisabled = true ∧
      step (run (Sys.init state random) events) (Event.clickStart now checks)
        = run (Sys.init state random) events ∧
      (run (Sys.init state random) (events ++ [Event.clickStart now checks])).state.currentTrial
        = (run (Sys.init state random) events).state.currentTrial ∧
      (run (Sys.init state random)
          (events ++ [Event.clickStart now checks])).state.attentionChecks
        = (run (Sys.init state random) events).state.attentionChecks ∧
      (run (Sys.init state random)
          (events ++ [Event.clickStart now checks])).state.sessionStartTime
        = (run (Sys.init state random) events).state.sessionStartTime ∧
      (run (Sys.init state random) (events ++ [Event.clickStart now checks])).calls
        = (run (Sys.init state random) events).calls ∧
      (run (Sys.init state random) (events ++ [Event.clickStart now checks])).pending
        = (run (Sys.init state random) events).pending ∧
      (∀ later : List Event,
        run (Sys.init state random) (events ++ Event.clickStart now checks :: later)
          = run (Sys.init state random) (events ++ later)) := by
  have hinit : StartLocked (Sys.init state random) := by
    intro h
    rw [show (Sys.init state random).state.isRunning = state.isRunning from rfl, hidle] at h
    exact absurd h (by simp)
  have hlock := startLocked_run events _ hinit hrun
  have hstep : step (run (Sys.init state random) events) (Event.clickStart now checks)
      = run (Sys.init state random) events := by
    simp only [step, hlock.1, if_true]
  have hsnoc : run (Sys.init state random) (events ++ [Event.clickStart now checks])
      = run (Sys.init state random) events := by
    rw [run_append, run_cons, run_nil, hstep]
  refine ⟨hlock.1, hstep, ?_, ?_, ?_, ?_, ?_, ?_⟩
  · rw [hsnoc]
  · rw [hsnoc]
  · rw [hsnoc]
  · rw [hsnoc]
  · rw [hsnoc]
  · intro later
    rw [run_append, run_cons, hstep, run_append]

/-- C11 witness: the page is loaded, the device is connected, a mode is selected and a
session is started; with the run in the rest interval of trial 1 a second click on Start
changes nothing: the only call is still the one startSession and the one activation of
the trial loop is the only one suspended. -/
theorem start_while_running_rejected_witness :
    config.state.isRunning = false ∧
      (run (Sys.init config.state (fun _ => Draw.zero))
        (connectEvents ++ [Event.setMode Mode.innerSpeech, Event.clickStart 100 sixChecks,
          Event.wake Cont.sessionStartFetch Outcome.ok,
          Event.wake Cont.announce Outcome.ok])).state.isRunning = true ∧
      (run (Sys.init config.state (fun _ => Draw.zero))
        ((connectEvents ++ [Event.setMode Mode.innerSpeech, Event.clickStart 100 sixChecks,
          Event.wake Cont.sessionStartFetch Outcome.ok,
          Event.wake Cont.announce Outcome.ok]) ++ [Event.clickStart 200 [1, 2]])).calls
        = (run (Sys.init config.state (fun _ => Draw.zero))
          (connectEvents ++ [Event.setMode Mode.innerSpeech, Event.clickStart 100 sixChecks,
            Event.wake Cont.sessionStartFetch Outcome.ok,
            Event.wake Cont.announce Outcome.ok])).calls ∧
      (run (Sys.init config.state (fun _ => Draw.zero))
        (connectEvents ++ [Event.setMode Mode.innerSpeech, Event.clickStart 100 sixChecks,
          Event.wake Cont.sessionStartFetch Outcome.ok,
          Event.wake Cont.announce Outcome.ok])).calls
        = [DeviceCall.startSession (some Mode.innerSpeech) 40] ∧
      (run (Sys.init config.state (fun _ => Draw.zero))
        (connectEvents ++ [Event.setMode Mode.innerSpeech, Event.clickStart 100 sixChecks,
          Event.wake Cont.sessionStartFetch Outcome.ok,
          Event.wake Cont.announce Outcome.ok])).pending = [Cont.rest] :=
  ⟨rfl, by decide,
    (start_while_running_rejected config.state (fun _ => Draw.zero)
      (connectEvents ++ [Event.setMode Mode.innerSpeech, Event.clickStart 100 sixChecks,
        Event.wake Cont.sessionStartFetch Outcome.ok, Event.wake Cont.announce Outcome.ok])
      200 [1, 2] rfl (by decide)).2.2.2.2.2.1,
    by decide, by decide⟩

/-! ### C12 -/

/-- C12: startExperiment called with no mode selected (currentMode null) changes nothing:
isRunning, isPaused, currentTrial, attentionChecks, sessionStartTime and every other field
are unchanged, no device call is issued and no activation is suspended. -/
theorem startExperiment_no_mode (now : Int) (checks : List Int) (sys : Sys)
    (hmode : sys.state.currentMode = none) :
    startExperiment now checks sys = sys ∧
      step sys (Event.clickStart now checks) = sys ∧
      (startExperiment now checks sys).state.isRunning = sys.state.isRunning ∧
      (startExperiment now checks sys).state.isPaused = sys.state.isPaused ∧
      (startExperiment now checks sys).state.currentTrial = sys.state.currentTrial ∧
      (startExperiment now checks sys).state.attentionChecks = sys.state.attentionChecks ∧
      (startExperiment now checks sys).state.sessionStartTime = sys.state.sessionStartTime ∧
      (startExperiment now checks sys).calls = sys.calls := by
  have h : startExperiment now checks sys = sys := by simp [startExperiment, hmode]
  have hclick : step sys (Event.clickStart now checks) = sys := by
    simp only [step, h, ite_self]
  refine ⟨h, hclick, ?_, ?_, ?_, ?_, ?_, ?_⟩ <;> rw [h]

/-- C12 witness: on the freshly loaded page, where no mode is selected, a click on Start
changes nothing. -/
theorem startExperiment_no_mode_witness :
    (Sys.init config.state (fun _ => Draw.zero)).state.currentMode = none ∧
      startExperiment 100 [1, 2] (Sys.init config.state (fun _ => Draw.zero))
        = Sys.init config.state (fun _ => Draw.zero) :=
  ⟨rfl, (startExperiment_no_mode 100 [1, 2] (Sys.init config.state (fun _ => Draw.zero))
    rfl).1⟩

/-! ### C13 -/

theorem runNextTrial_not_running (sys : Sys) (hr : sys.state.isRunning = false) :
    runNextTrial sys = sys := by
  simp [runNextTrial, hr]

theorem stopExperiment_of_not_running (sys : Sys) (hr : sys.state.isRunning = false) :
    stopExperiment sys = sys := by
  simp [stopExperiment, hr]

/-- While isRunning is false no event but a click on Start sets it or issues a device
call. -/
theorem step_not_running (sys : Sys) (e : Event) (hr : sys.state.isRunning = false)
    (he : e.notStart = true) :
    (step sys e).state.isRunning = false ∧ (step sys e).calls = sys.calls := by
  cases e with
  | setMode mode =>
    simp only [step]
    split
    · exact ⟨hr, rfl⟩
    · by_cases hp : sys.state.isPaused = true <;> simp [setMode, hr, hp]
  | clickStart now checks => simp [Event.notStart] at he
  | clickPause => simp [step, pauseExperiment, hr]
  | clickStop => simp [step, stopExperiment, hr]
  | answer selectedDirection => simp [step, checkAttention, hr]
  | clickConfirmConnect complete =>
    simp only [step, connectToCrown]
    split
    · split
      · exact ⟨hr, rfl⟩
      · split
        · exact ⟨hr, rfl⟩
        · exact ⟨hr, rfl⟩
    · exact ⟨hr, rfl⟩
  | connectResponse o =>
    simp only [step, connectToCrownResponse]
    split
    · split
      · exact ⟨hr, rfl⟩
      · exact ⟨hr, rfl⟩
    · exact ⟨hr, rfl⟩
  | connectTimer =>
    simp only [step]
    split
    · exact ⟨hr, rfl⟩
    · exact ⟨hr, rfl⟩
  | wake c o =>
    by_cases hmem : c ∈ sys.pending ∧ c ≠ Cont.attentionCheck
    · simp only [step, if_pos hmem]
      cases c with
      | sessionStartFetch =>
        by_cases ho : o = Outcome.ok <;> simp [resume, ho, stopExperiment, hr]
      | announce => simp [resume, runNextTrial, hr]
      | rest => simp [resume, hr]
      | trialStartFetch => simp [resume, enterConcentration, hr]
      | concentration => simp [resume, hr]
      | cue => simp [resume, hr]
      | action => simp [resume, hr]
      | relax => simp [resume, hr]
      | trialEndFetch =>
        by_cases hcheck : sys.state.currentTrial ∈ sys.state.attentionChecks <;>
          simp [resume, finishTrial, hcheck, showAttentionCheck, runNextTrial, hr]
      | attentionCheck => exact absurd rfl hmem.2
      | feedbackDelay => simp [resume, hr]
      | fadeOut =>
        by_cases hres : sys.attentionCheckResolve = true <;>
          simp [resume, hres, resumeAttentionCheck, runNextTrial, hr]
      | sessionEndFetch => simp [resume, hr]
    · have hstep : step sys (Event.wake c o) = sys := by simp only [step, if_neg hmem]
      rw [hstep]
      exact ⟨hr, rfl⟩

theorem run_not_running :
    ∀ (events : List Event) (sys : Sys), sys.state.isRunning = false →
      (∀ e ∈ events, e.notStart = true) →
      (run sys events).state.isRunning = false ∧ (run sys events).calls = sys.calls := by
  intro events
  induction events with
  | nil => intro sys hr _; exact ⟨hr, rfl⟩
  | cons e events ih =>
    intro sys hr he
    have h1 := step_not_running sys e hr (he e (List.mem_cons_self e events))
    have h2 := ih (step sys e) h1.1 (fun e2 he2 => he e2 (List.mem_cons_of_mem e he2))
    rw [run_cons]
    exact ⟨h2.1, h2.2.trans h1.2⟩

/-- While the session-start request is pending and the run is not paused, no event but a
click on Pause, a click on Start or the response itself starts a trial loop or issues a
startTrial. -/
theorem step_awaiting (sys : Sys) (e : Event) (hpau : sys.state.isPaused = false)
    (hdrv : driversOf sys.pending = [Cont.sessionStartFetch])
    (hres : sys.attentionCheckResolve = false) (he : e.awaitsResponse = true) :
    (step sys e).state.isPaused = false ∧
      driversOf (step sys e).pending = [Cont.sessionStartFetch] ∧
      (step sys e).attentionCheckResolve = false ∧
      (step sys e).calls.filter DeviceCall.isStartTrial
        = sys.calls.filter DeviceCall.isStartTrial := by
  cases e with
  | setMode mode =>
    simp only [step, setMode]
    split
    · exact ⟨hpau, hdrv, hres, rfl⟩
    · split
      · exact ⟨hpau, hdrv, hres, rfl⟩
      · exact ⟨hpau, hdrv, hres, rfl⟩
  | clickConfirmConnect complete =>
    simp only [step, connectToCrown]
    split
    · split
      · exact ⟨hpau, hdrv, hres, rfl⟩
      · split
        · exact ⟨hpau, hdrv, hres, rfl⟩
        · exact ⟨hpau, hdrv, hres, rfl⟩
    · exact ⟨hpau, hdrv, hres, rfl⟩
  | connectResponse o =>
    simp only [step, connectToCrownResponse]
    split
    · split
      · exact ⟨hpau, hdrv, hres, rfl⟩
      · exact ⟨hpau, hdrv, hres, rfl⟩
    · exact ⟨hpau, hdrv, hres, rfl⟩
  | connectTimer =>
    simp only [step]
    split
    · exact ⟨hpau, hdrv, hres, rfl⟩
    · exact ⟨hpau, hdrv, hres, rfl⟩
  | clickStart now checks => simp [Event.awaitsResponse] at he
  | clickPause => simp [Event.awaitsResponse] at he
  | clickStop =>
    simp only [step, stopExperiment]
    split
    · exact ⟨hpau, hdrv, hres, rfl⟩
    · split
      · refine ⟨rfl, ?_, hres, ?_⟩
        · rw [driversOf_append]
          simpa [Cont.isAux] using hdrv
        · simp [DeviceCall.isStartTrial]
      · exact ⟨rfl, hdrv, hres, rfl⟩
  | answer selectedDirection =>
    refine ⟨hpau, ?_, hres, rfl⟩
    simp only [step, checkAttention]
    rw [driversOf_append]
    simpa [Cont.isAux] using hdrv
  | wake c o =>
    by_cases hmem : c ∈ sys.pending ∧ c ≠ Cont.attentionCheck
    · rw [step_wake_of_mem sys c o hmem.1 hmem.2]
      have haux : c.isAux = true := by
        by_contra hna
        have hin : c ∈ driversOf sys.pending := by
          unfold driversOf
          rw [List.mem_filter]
          exact ⟨hmem.1, by simpa using hna⟩
        rw [hdrv] at hin
        have hc : c = Cont.sessionStartFetch := by simpa using hin
        subst hc
        simp [Event.awaitsResponse] at he
      have herase : driversOf (sys.pending.erase c) = [Cont.sessionStartFetch] := by
        rw [driversOf_erase_aux _ _ haux]
        exact hdrv
      cases c with
      | feedbackDelay =>
        refine ⟨hpau, ?_, hres, rfl⟩
        simp only [resume]
        rw [driversOf_append]
        simpa [Cont.isAux] using herase
      | fadeOut =>
        have hgo : resume Cont.fadeOut o { sys with pending := sys.pending.erase Cont.fadeOut }
            = { sys with pending := sys.pending.erase Cont.fadeOut,
                         state := { sys.state with isPaused := false } } := by
          simp [resume, hres]
        rw [hgo]
        exact ⟨rfl, herase, hres, rfl⟩
      | sessionEndFetch => exact ⟨hpau, herase, hres, rfl⟩
      | sessionStartFetch => simp [Cont.isAux] at haux
      | announce => simp [Cont.isAux] at haux
      | rest => simp [Cont.isAux] at haux
      | trialStartFetch => simp [Cont.isAux] at haux
      | concentration => simp [Cont.isAux] at haux
      | cue => simp [Cont.isAux] at haux
      | action => simp [Cont.isAux] at haux
      | relax => simp [Cont.isAux] at haux
      | trialEndFetch => simp [Cont.isAux] at haux
      | attentionCheck => simp [Cont.isAux] at haux
    · have hstep : step sys (Event.wake c o) = sys := by simp only [step, if_neg hmem]
      rw [hstep]
      exact ⟨hpau, hdrv, hres, rfl⟩

theorem run_awaiting :
    ∀ (events : List Event) (sys : Sys), sys.state.isPaused = false →
      driversOf sys.pending = [Cont.sessionStartFetch] → sys.attentionCheckResolve = false →
      (∀ e ∈ events, e.awaitsResponse = true) →
      (run sys events).state.isPaused = false ∧
        driversOf (run sys events).pending = [Cont.sessionStartFetch] ∧
        (run sys events).calls.filter DeviceCall.isStartTrial
          = sys.calls.filter DeviceCall.isStartTrial := by
  intro events
  induction events with
  | nil => intro sys hpau hdrv _ _; exact ⟨hpau, hdrv, rfl⟩
  | cons e events ih =>
    intro sys hpau hdrv hres he
    have h1 := step_awaiting sys e hpau hdrv hres (he e (List.mem_cons_self e events))
    have h2 := ih (step sys e) h1.1 h1.2.1 h1.2.2.1
      (fun e2 he2 => he e2 (List.mem_cons_of_mem e he2))
    rw [run_cons]
    exact ⟨h2.1, h2.2.1, h2.2.2.trans h1.2.2.2⟩

/-- A failed session-start response always leaves the run Idle and issues no startTrial. -/
theorem step_failed_response (sys : Sys) (o : Outcome) (ho : o ≠ Outcome.ok)
    (hpau : sys.state.isPaused = false) (hmem : Cont.sessionStartFetch ∈ sys.pending) :
    (step sys (Event.wake Cont.sessionStartFetch o)).state.isRunning = false ∧
      (step sys (Event.wake Cont.sessionStartFetch o)).state.isPaused = false ∧
      (step sys (Event.wake Cont.sessionStartFetch o)).calls.filter DeviceCall.isStartTrial
        = sys.calls.filter DeviceCall.isStartTrial := by
  rw [step_wake_of_mem sys _ o hmem (by simp)]
  simp only [resume, if_neg ho, stopExperiment]
  split
  · rename_i hr
    exact ⟨by simpa using hr, hpau, rfl⟩
  · split
    · exact ⟨rfl, rfl, by simp [DeviceCall.isStartTrial]⟩
    · exact ⟨rfl, rfl, rfl⟩

/-- The failure branches of startExperiment (331-341) when no click on Pause comes
between the click on Start and the response: with the Start button enabled, a mode
selected, isPaused false and the device connected, if the session-start request reports
failure or throws, then the run state is Idle (isRunning false, isPaused false), the only
calls issued are startSession and the endSession of the stop, and whatever happens
afterwards, short of a new click on Start, isRunning stays false and no further device
call, in particular no startTrial, is issued.  The same holds of the run state and of
startTrial when other events (mode clicks, Stop, answers, timers, the connection form; no
click on Pause or Start) occur between the click on Start and the response, on a page
with no other activation of the trial loop suspended. -/
theorem startSession_failure_idle (sys : Sys) (now : Int) (checks : List Int) (o : Outcome)
    (later : List Event) (hen : sys.startDisabled = false)
    (hmode : sys.state.currentMode ≠ none)
    (hpau : sys.state.isPaused = false) (hconn : sys.state.isConnectedToCrown = true)
    (ho : o ≠ Outcome.ok) (hlater : ∀ e ∈ later, e.notStart = true) :
    (run sys [Event.clickStart now checks,
        Event.wake Cont.sessionStartFetch o]).state.isRunning = false ∧
      (run sys [Event.clickStart now checks,
        Event.wake Cont.sessionStartFetch o]).state.isPaused = false ∧
      (run sys [Event.clickStart now checks, Event.wake Cont.sessionStartFetch o]).calls
        = sys.calls ++ [DeviceCall.startSession sys.state.currentMode sys.state.totalTrials,
            DeviceCall.endSession] ∧
      (run sys (Event.clickStart now checks :: Event.wake Cont.sessionStartFetch o ::
        later)).state.isRunning = false ∧
      (run sys (Event.clickStart now checks :: Event.wake Cont.sessionStartFetch o ::
        later)).calls
        = sys.calls ++ [DeviceCall.startSession sys.state.currentMode sys.state.totalTrials,
            DeviceCall.endSession] ∧
      (∀ (trialNumber : Int) (direction : Option Direction) (condition : Option Mode),
        DeviceCall.startTrial trialNumber direction condition ∈
          (run sys (Event.clickStart now checks :: Event.wake Cont.sessionStartFetch o ::
            later)).calls →
        DeviceCall.startTrial trialNumber direction condition ∈ sys.calls) ∧
      (∀ between : List Event, driversOf sys.pending = [] →
        sys.attentionCheckResolve = false →
        (∀ e ∈ between, e.awaitsResponse = true) →
        (run sys (Event.clickStart now checks :: between ++
          [Event.wake Cont.sessionStartFetch o])).state.isRunning = false ∧
        (run sys (Event.clickStart now checks :: between ++
          [Event.wake Cont.sessionStartFetch o])).state.isPaused = false ∧
        (run sys (Event.clickStart now checks :: between ++
          Event.wake Cont.sessionStartFetch o :: later)).state.isRunning = false ∧
        (run sys (Event.clickStart now checks :: between ++
          Event.wake Cont.sessionStartFetch o :: later)).calls.filter DeviceCall.isStartTrial
          = sys.calls.filter DeviceCall.isStartTrial) := by
  have hstart : (step sys (Event.clickStart now checks)).pending
      = sys.pending ++ [Cont.sessionStartFetch] := by
    simp [step, hen, startExperiment, hmode, hpau, hconn]
  have hmem : Cont.sessionStartFetch ∈ (step sys (Event.clickStart now checks)).pending := by
    rw [hstart]; simp
  have hfail : step (step sys (Event.clickStart now checks))
      (Event.wake Cont.sessionStartFetch o)
      = stopExperiment { step sys (Event.clickStart now checks) with
          pending := (step sys (Event.clickStart now checks)).pending.erase
            Cont.sessionStartFetch } := by
    rw [step_wake_of_mem _ _ _ hmem (by simp)]
    simp [resume, ho]
  have hrun : (step (step sys (Event.clickStart now checks))
      (Event.wake Cont.sessionStartFetch o)).state.isRunning = false := by
    rw [hfail]
    simp [stopExperiment, step, hen, startExperiment, hmode, hpau, hconn]
  have hpaused : (step (step sys (Event.clickStart now checks))
      (Event.wake Cont.sessionStartFetch o)).state.isPaused = false := by
    rw [hfail]
    simp [stopExperiment, step, hen, startExperiment, hmode, hpau, hconn]
  have hcalls : (step (step sys (Event.clickStart now checks))
      (Event.wake Cont.sessionStartFetch o)).calls
      = sys.calls ++ [DeviceCall.startSession sys.state.currentMode sys.state.totalTrials,
          DeviceCall.endSession] := by
    rw [hfail]
    simp [stopExperiment, step, hen, startExperiment, hmode, hpau, hconn]
  have hlate := run_not_running later _ hrun hlater
  have hbetween : ∀ between : List Event, driversOf sys.pending = [] →
      sys.attentionCheckResolve = false →
      (∀ e ∈ between, e.awaitsResponse = true) →
      (run sys (Event.clickStart now checks :: between ++
        [Event.wake Cont.sessionStartFetch o])).state.isRunning = false ∧
      (run sys (Event.clickStart now checks :: between ++
        [Event.wake Cont.sessionStartFetch o])).state.isPaused = false ∧
      (run sys (Event.clickStart now checks :: between ++
        Event.wake Cont.sessionStartFetch o :: later)).state.isRunning = false ∧
      (run sys (Event.clickStart now checks :: between ++
        Event.wake Cont.sessionStartFetch o :: later)).calls.filter DeviceCall.isStartTrial
        = sys.calls.filter DeviceCall.isStartTrial := by
    intro between hdrv hres hbet
    have h0pau : (step sys (Event.clickStart now checks)).state.isPaused = false := by
      simp [step, hen, startExperiment, hmode, hpau, hconn]
    have h0drv : driversOf (step sys (Event.clickStart now checks)).pending
        = [Cont.sessionStartFetch] := by
      rw [hstart, driversOf_append, hdrv]
      rfl
    have h0res : (step sys (Event.clickStart now checks)).attentionCheckResolve = false := by
      simpa [step, hen, startExperiment, hmode, hpau, hconn] using hres
    have h0calls : (step sys (Event.clickStart now checks)).calls.filter
        DeviceCall.isStartTrial = sys.calls.filter DeviceCall.isStartTrial := by
      simp [step, hen, startExperiment, hmode, hpau, hconn, DeviceCall.isStartTrial]
    have h1 := run_awaiting between _ h0pau h0drv h0res hbet
    have h2 := step_failed_response (run (step sys (Event.clickStart now checks)) between) o ho
      h1.1 (mem_of_driversOf_eq _ _ h1.2.1)
    have h3 := run_not_running later _ h2.1 hlater
    have e1 : run sys (Event.clickStart now checks :: between ++
        [Event.wake Cont.sessionStartFetch o])
        = step (run (step sys (Event.clickStart now checks)) between)
            (Event.wake Cont.sessionStartFetch o) := by
      rw [run_append, run_cons, run_cons, run_nil]
    have e2 : run sys (Event.clickStart now checks :: between ++
        Event.wake Cont.sessionStartFetch o :: later)
        = run (step (run (step sys (Event.clickStart now checks)) between)
            (Event.wake Cont.sessionStartFetch o)) later := by
      rw [run_append, run_cons, run_cons]
    rw [e1, e2]
    refine ⟨h2.1, h2.2.1, h3.1, ?_⟩
    rw [h3.2, h2.2.2, h1.2.2, h0calls]
  simp only [run_cons, run_nil]
  refine ⟨hrun, hpaused, hcalls, hlate.1, hlate.2.trans hcalls, ?_, ?_⟩
  · intro trialNumber direction condition hin
    rw [hlate.2, hcalls] at hin
    simpa using hin
  · intro between hdrv hres hbet
    have h := hbetween between hdrv hres hbet
    simpa only [run_cons, run_nil] using h

/-- Example: on a ready page with a connected device, a session-start request that
throws leaves the run Idle with the calls startSession, endSession, also after a later
Pause click and elapsed timers; with an answer click and a Stop click before the response,
no startTrial is issued either. -/
theorem startSession_failure_idle_witness :
    readySys.state.currentMode ≠ none ∧ readySys.state.isPaused = false ∧
      readySys.state.isConnectedToCrown = true ∧
      (run readySys [Event.clickStart 100 [2], Event.wake Cont.sessionStartFetch Outcome.threw,
        Event.clickPause, Event.wake Cont.announce Outcome.ok,
        Event.wake Cont.rest Outcome.ok]).calls
        = [DeviceCall.startSession (some Mode.pronounced) 40, DeviceCall.endSession] ∧
      (run readySys (Event.clickStart 100 [2] :: [Event.answer Direction.up, Event.clickStop] ++
        Event.wake Cont.sessionStartFetch Outcome.threw ::
          [Event.clickPause, Event.wake Cont.announce Outcome.ok,
            Event.wake Cont.rest Outcome.ok])).calls.filter DeviceCall.isStartTrial
        = readySys.calls.filter DeviceCall.isStartTrial :=
  ⟨by decide, rfl, rfl,
    (startSession_failure_idle readySys 100 [2] Outcome.threw
      [Event.clickPause, Event.wake Cont.announce Outcome.ok, Event.wake Cont.rest Outcome.ok]
      rfl (by decide) rfl rfl (by decide) (by decide)).2.2.2.2.1,
    ((startSession_failure_idle readySys 100 [2] Outcome.threw
      [Event.clickPause, Event.wake Cont.announce Outcome.ok, Event.wake Cont.rest Outcome.ok]
      rfl (by decide) rfl rfl (by decide) (by decide)).2.2.2.2.2.2
      [Event.answer Direction.up, Event.clickStop] rfl rfl (by decide)).2.2.2⟩

/-- C13 (code evaluated at the failing input): the page is loaded, the device is
connected and a mode is selected; after the click on Start, while the session-start
request is pending, the user clicks Pause and then Pause again (the Pause button is
enabled at 301, before the request is awaited at 316): the resume calls runNextTrial
(603), the rest interval of trial 1 elapses and startTrial(1) is issued.  The
session-start request then throws: the run is stopped, Idle, but a startTrial call has
been issued for that start. -/
theorem pause_resume_before_failed_session_start :
    (run (freshPage (fun _ => Draw.zero)) (racedStartEvents.take 5)).state.isConnectedToCrown
        = true ∧
      (run (freshPage (fun _ => Draw.zero)) (racedStartEvents.take 5)).pending
        = [Cont.sessionStartFetch] ∧
      (run (freshPage (fun _ => Draw.zero)) (racedStartEvents.take 7)).pending
        = [Cont.sessionStartFetch, Cont.rest] ∧
      (run (freshPage (fun _ => Draw.zero)) racedStartEvents).calls.map DeviceCall.kind
        = [CallKind.startSession, CallKind.startTrial 1, CallKind.endSession] ∧
      ((run (freshPage (fun _ => Draw.zero)) racedStartEvents).calls.filter
          DeviceCall.isStartTrial).length = 1 ∧
      (run (freshPage (fun _ => Draw.zero)) racedStartEvents).state.isRunning = false ∧
      (run (freshPage (fun _ => Draw.zero)) racedStartEvents).state.isPaused = false := by
  refine ⟨by decide, by decide, by decide, by decide, by decide, by decide, by decide⟩

/-! ### C14 -/

/-- C14: at every phase boundary of a trial (the activation of runNextTrial resumed after
Rest, Concentration, Cue, Action or Relax), if the run is not Running (isRunning false or
isPaused true) the activation ends there: nothing of config.state changes, no phase is
entered (the phase log is unchanged), no device call and so no endTrial is issued, and
the activation is no longer suspended anywhere, so it enters no later phase either. -/
theorem runNextTrial_aborts_at_boundary (sys : Sys) (c : Cont) (o : Outcome)
    (hc : c ∈ [Cont.rest, Cont.concentration, Cont.cue, Cont.action, Cont.relax])
    (hmem : c ∈ sys.pending)
    (hnot : sys.state.isRunning = false ∨ sys.state.isPaused = true) :
    step sys (Event.wake c o) = { sys with pending := sys.pending.erase c } ∧
      (step sys (Event.wake c o)).state = sys.state ∧
      (step sys (Event.wake c o)).timeline = sys.timeline ∧
      (step sys (Event.wake c o)).calls = sys.calls ∧
      (step sys (Event.wake c o)).pending = sys.pending.erase c := by
  have hguard : (!sys.state.isRunning || sys.state.isPaused) = true := by
    rcases hnot with h | h <;> simp [h]
  have hne : c ≠ Cont.attentionCheck := by
    intro h
    subst h
    simp at hc
  have hstep : step sys (Event.wake c o) = { sys with pending := sys.pending.erase c } := by
    rw [step_wake_of_mem sys c o hmem hne]
    simp only [List.mem_cons, List.mem_singleton, List.not_mem_nil, or_false] at hc
    rcases hc with rfl | rfl | rfl | rfl | rfl <;> simp [resume, hguard]
  refine ⟨hstep, ?_, ?_, ?_, ?_⟩ <;> rw [hstep]

/-- C14 witness: a pause during the action interval of trial 5 that is still in force
when the interval ends: the phase log still ends with the action entry of trial 5 (no
relax entry), no endTrial is issued and no activation remains suspended. -/
theorem runNextTrial_aborts_at_boundary_witness :
    (step trialFiveAction Event.clickPause).state.isPaused = true ∧
      (run trialFiveAction [Event.clickPause, Event.wake Cont.action Outcome.ok]).timeline
        = [(5, Phase.rest, 1500), (5, Phase.concentration, 500), (5, Phase.cue, 500),
            (5, Phase.action, 2500)] ∧
      (run trialFiveAction [Event.clickPause, Event.wake Cont.action Outcome.ok]).calls
        = [DeviceCall.startTrial 5 (some Direction.up) (some Mode.innerSpeech)] ∧
      (run trialFiveAction [Event.clickPause, Event.wake Cont.action Outcome.ok]).pending
        = [] :=
  ⟨rfl,
    (runNextTrial_aborts_at_boundary (step trialFiveAction Event.clickPause) Cont.action
      Outcome.ok (by decide) (by decide) (Or.inr rfl)).2.2.1,
    (runNextTrial_aborts_at_boundary (step trialFiveAction Event.clickPause) Cont.action
      Outcome.ok (by decide) (by decide) (Or.inr rfl)).2.2.2.1,
    (runNextTrial_aborts_at_boundary (step trialFiveAction Event.clickPause) Cont.action
      Outcome.ok (by decide) (by decide) (Or.inr rfl)).2.2.2.2⟩

/-! ### C19 -/

/-- C19 as stated is refuted: on a run that is running and paused, setMode(visualized)
replaces the current mode inner-speech. -/
theorem setMode_while_paused_changes_mode :
    pausedSys.state.isRunning = true ∧ pausedSys.state.isPaused = true ∧
      pausedSys.state.currentMode = some Mode.innerSpeech ∧
      (setMode Mode.visualized pausedSys).state.currentMode = some Mode.visualized ∧
      (setMode Mode.visualized pausedSys).state.currentMode ≠ pausedSys.state.currentMode := by
  refine ⟨rfl, rfl, rfl, rfl, by decide⟩

/-- C19 (amended): the mode cannot change while the run is running and not paused: for
every state with isRunning true and isPaused false, setMode(m) changes nothing; in every
other state, a paused run included, it sets currentMode to m, enables the Start button
(273) and changes nothing else. -/
theorem setMode_effect (mode : Mode) (sys : Sys) :
    (sys.state.isRunning = true → sys.state.isPaused = false → setMode mode sys = sys) ∧
    ((sys.state.isRunning = false ∨ sys.state.isPaused = true) →
      setMode mode sys = { sys with state := { sys.state with currentMode := some mode },
                                    startDisabled := false }) := by
  constructor
  · intro hr hp
    simp [setMode, hr, hp]
  · rintro (h | h)
    · simp [setMode, h]
    · simp [setMode, h]

/-- C19 witness: on the running, unpaused run setMode(visualized) keeps the mode
inner-speech. -/
theorem setMode_effect_witness :
    runningSys.state.isRunning = true ∧ runningSys.state.isPaused = false ∧
      (setMode Mode.visualized runningSys).state.currentMode = some Mode.innerSpeech :=
  ⟨rfl, rfl, by rw [(setMode_effect Mode.visualized runningSys).1 rfl rfl]; rfl⟩

/-! ### C15 -/

/-- C15 (code evaluated at the failing input): a click on Pause followed by a click on
Pause (resume) before the rest interval of trial 1 has elapsed leaves two activations of
runNextTrial suspended at once.  Both then run: the trial counter has been advanced
twice, so the device receives startTrial(2) twice, endTrial twice and no call for trials
1 and 3, and the phases of the two loops alternate in the phase log. -/
theorem pause_resume_two_trial_loops :
    (run threeTrialSys pauseResumeEvents).pending = [Cont.rest, Cont.rest] ∧
      ((run threeTrialSys pauseResumeEvents).pending.filter Cont.isTrialLoop).length = 2 ∧
      (run threeTrialSys pauseResumeEvents).state.currentTrial = 2 ∧
      (run threeTrialSys (pauseResumeEvents ++ doubleLoopEvents)).calls.map DeviceCall.kind
        = [CallKind.startSession, CallKind.startTrial 2, CallKind.startTrial 2,
            CallKind.endTrial, CallKind.endTrial, CallKind.endSession] ∧
      (run threeTrialSys (pauseResumeEvents ++ doubleLoopEvents)).timeline.map
          (fun entry => (entry.1, entry.2.1))
        = [(1, Phase.rest), (2, Phase.rest), (2, Phase.concentration),
            (2, Phase.concentration), (2, Phase.cue), (2, Phase.cue), (2, Phase.action),
            (2, Phase.action), (2, Phase.relax), (2, Phase.relax), (2, Phase.complete),
            (2, Phase.complete), (3, Phase.rest)] := by
  refine ⟨by decide, by decide, by decide, by decide, by decide⟩

/-! ### C16 -/

/-- C16 as stated is refuted: while the attention check after trial 2 is outstanding (the
resolver is set and the activation still awaits it), a click on Pause clears isPaused and
calls runNextTrial: currentTrial becomes 3, and when the rest interval has elapsed
startTrial(3) is issued, the check still outstanding. -/
theorem pause_click_during_check_starts_trial :
    (showAttentionCheck trialTwoDone).state.isPaused = true ∧
      (showAttentionCheck trialTwoDone).state.currentTrial = 2 ∧
      (run (showAttentionCheck trialTwoDone) [Event.clickPause]).state.currentTrial = 3 ∧
      (run (showAttentionCheck trialTwoDone)
          [Event.clickPause, Event.wake Cont.rest Outcome.ok]).calls.map DeviceCall.kind
        = [CallKind.startTrial 2, CallKind.endTrial, CallKind.startTrial 3] ∧
      (run (showAttentionCheck trialTwoDone)
          [Event.clickPause, Event.wake Cont.rest Outcome.ok]).attentionCheckResolve = true ∧
      Cont.attentionCheck ∈ (run (showAttentionCheck trialTwoDone)
          [Event.clickPause, Event.wake Cont.rest Outcome.ok]).pending := by
  refine ⟨rfl, rfl, by decide, by decide, by decide, by decide⟩

/-- While the run is paused or not running, no event but a click on Pause, a click on
Start or the last timer of checkAttention advances the trial counter or issues a
startTrial, and the run stays paused or not running. -/
theorem step_blocked (sys : Sys) (e : Event)
    (hb : sys.state.isPaused = true ∨ sys.state.isRunning = false)
    (he : e.keepsCheck = true) :
    ((step sys e).state.isPaused = true ∨ (step sys e).state.isRunning = false) ∧
      (step sys e).state.currentTrial = sys.state.currentTrial ∧
      (step sys e).calls.filter DeviceCall.isStartTrial
        = sys.calls.filter DeviceCall.isStartTrial := by
  have hguard : (!sys.state.isRunning || sys.state.isPaused) = true := by
    rcases hb with h | h <;> simp [h]
  have hnext : runNextTrial sys = sys := by simp [runNextTrial, hguard]
  have hstop : ((stopExperiment sys).state.isPaused = true ∨
      (stopExperiment sys).state.isRunning = false) ∧
      (stopExperiment sys).state.currentTrial = sys.state.currentTrial ∧
      (stopExperiment sys).calls.filter DeviceCall.isStartTrial
        = sys.calls.filter DeviceCall.isStartTrial := by
    by_cases hr : sys.state.isRunning = true
    · by_cases hc : sys.state.isConnectedToCrown = true <;>
        simp [stopExperiment, hr, hc, DeviceCall.isStartTrial]
    · have hr2 : sys.state.isRunning = false := by simpa using hr
      rw [stopExperiment_of_not_running sys hr2]
      exact ⟨hb, rfl, rfl⟩
  cases e with
  | setMode mode =>
    simp only [step, setMode]
    split
    · exact ⟨hb, rfl, rfl⟩
    · split
      · exact ⟨hb, rfl, rfl⟩
      · exact ⟨hb, rfl, rfl⟩
  | clickConfirmConnect complete =>
    simp only [step, connectToCrown]
    split
    · split
      · exact ⟨hb, rfl, rfl⟩
      · split
        · exact ⟨hb, rfl, rfl⟩
        · exact ⟨hb, rfl, rfl⟩
    · exact ⟨hb, rfl, rfl⟩
  | connectResponse o =>
    simp only [step, connectToCrownResponse]
    split
    · split
      · exact ⟨hb, rfl, rfl⟩
      · exact ⟨hb, rfl, rfl⟩
    · exact ⟨hb, rfl, rfl⟩
  | connectTimer =>
    simp only [step]
    split
    · exact ⟨hb, rfl, rfl⟩
    · exact ⟨hb, rfl, rfl⟩
  | clickStart now checks => simp [Event.keepsCheck] at he
  | clickPause => simp [Event.keepsCheck] at he
  | clickStop => exact hstop
  | answer selectedDirection => exact ⟨hb, rfl, rfl⟩
  | wake c o =>
    by_cases hmem : c ∈ sys.pending ∧ c ≠ Cont.attentionCheck
    · rw [step_wake_of_mem sys c o hmem.1 hmem.2]
      have hg2 : (!({ sys with pending := sys.pending.erase c } : Sys).state.isRunning ||
          ({ sys with pending := sys.pending.erase c } : Sys).state.isPaused) = true := hguard
      have hsame : ∀ s2 : Sys, s2 = { sys with pending := sys.pending.erase c } →
          (s2.state.isPaused = true ∨ s2.state.isRunning = false) ∧
            s2.state.currentTrial = sys.state.currentTrial ∧
            s2.calls.filter DeviceCall.isStartTrial
              = sys.calls.filter DeviceCall.isStartTrial := by
        intro s2 hs2
        rw [hs2]
        exact ⟨hb, rfl, rfl⟩
      cases c with
      | sessionStartFetch =>
        by_cases ho : o = Outcome.ok
        · have hgo : resume Cont.sessionStartFetch o
              { sys with pending := sys.pending.erase Cont.sessionStartFetch }
              = { sys with pending := sys.pending.erase Cont.sessionStartFetch
                    ++ [Cont.announce] } := by
            simp [resume, ho]
          rw [hgo]
          exact ⟨hb, rfl, rfl⟩
        · by_cases hr : sys.state.isRunning = true
          · by_cases hc : sys.state.isConnectedToCrown = true <;>
              simp [resume, ho, stopExperiment, hr, hc, DeviceCall.isStartTrial]
          · have hr2 : sys.state.isRunning = false := by simpa using hr
            exact hsame _ (by simp [resume, ho, stopExperiment, hr2])
      | announce => exact hsame _ (by simp [resume, runNextTrial, hg2])
      | rest => exact hsame _ (by simp [resume, hg2])
      | trialStartFetch => exact ⟨hb, rfl, rfl⟩
      | concentration => exact hsame _ (by simp [resume, hg2])
      | cue => exact hsame _ (by simp [resume, hg2])
      | action => exact hsame _ (by simp [resume, hg2])
      | relax => exact hsame _ (by simp [resume, hg2])
      | trialEndFetch =>
        by_cases hcheck : sys.state.currentTrial ∈ sys.state.attentionChecks
        · have hgo : resume Cont.trialEndFetch o
              { sys with pending := sys.pending.erase Cont.trialEndFetch }
              = showAttentionCheck
                  { sys with pending := sys.pending.erase Cont.trialEndFetch } := by
            simp [resume, finishTrial, hcheck]
          rw [hgo]
          exact ⟨Or.inl rfl, rfl, rfl⟩
        · exact hsame _ (by simp [resume, finishTrial, hcheck, runNextTrial, hg2])
      | attentionCheck => exact absurd rfl hmem.2
      | feedbackDelay => exact ⟨hb, rfl, rfl⟩
      | fadeOut => simp [Event.keepsCheck] at he
      | sessionEndFetch => exact ⟨hb, rfl, rfl⟩
    · have hstep : step sys (Event.wake c o) = sys := by simp only [step, if_neg hmem]
      rw [hstep]
      exact ⟨hb, rfl, rfl⟩

theorem run_blocked :
    ∀ (events : List Event) (sys : Sys),
      (sys.state.isPaused = true ∨ sys.state.isRunning = false) →
      (∀ e ∈ events, e.keepsCheck = true) →
      ((run sys events).state.isPaused = true ∨ (run sys events).state.isRunning = false) ∧
        (run sys events).state.currentTrial = sys.state.currentTrial ∧
        (run sys events).calls.filter DeviceCall.isStartTrial
          = sys.calls.filter DeviceCall.isStartTrial := by
  intro events
  induction events with
  | nil => intro sys hb _; exact ⟨hb, rfl, rfl⟩
  | cons e events ih =>
    intro sys hb he
    have h1 := step_blocked sys e hb (he e (List.mem_cons_self e events))
    have h2 := ih (step sys e) h1.1 (fun e2 he2 => he e2 (List.mem_cons_of_mem e he2))
    rw [run_cons]
    exact ⟨h2.1, h2.2.1.trans h1.2.1, h2.2.2.trans h1.2.2⟩

/-- C16 (amended): the attention check suspends the run with the same isPaused flag as a
click on Pause.  After showAttentionCheck, as long as no click on Pause or Start occurs
and the last timer of checkAttention has not elapsed (the answer is not yet processed),
whatever other events occur (answers, elapsed timers, completed requests, mode clicks, a
click on Stop), trial progression is blocked: currentTrial is not incremented and no
startTrial is issued. -/
theorem attention_check_blocks_progression (sys : Sys) (events : List Event)
    (hev : ∀ e ∈ events, e.keepsCheck = true) :
    (showAttentionCheck sys).state.isPaused = true ∧
      (run (showAttentionCheck sys) events).state.currentTrial = sys.state.currentTrial ∧
      (run (showAttentionCheck sys) events).calls.filter DeviceCall.isStartTrial
        = sys.calls.filter DeviceCall.isStartTrial := by
  have h := run_blocked events (showAttentionCheck sys) (Or.inl rfl) hev
  exact ⟨rfl, h.2.1, h.2.2⟩

/-- C16 witness: during the check after trial 2, an answer, its first timer, a mode click
and a click on Stop leave currentTrial at 2 and add no startTrial. -/
theorem attention_check_blocks_progression_witness :
    (run (showAttentionCheck trialTwoDone)
        [Event.answer Direction.up, Event.wake Cont.feedbackDelay Outcome.ok,
          Event.setMode Mode.visualized, Event.clickStop]).state.currentTrial = 2 ∧
      (run (showAttentionCheck trialTwoDone)
        [Event.answer Direction.up, Event.wake Cont.feedbackDelay Outcome.ok,
          Event.setMode Mode.visualized, Event.clickStop]).calls.filter
          DeviceCall.isStartTrial
        = [DeviceCall.startTrial 2 (some Direction.up) (some Mode.innerSpeech)] :=
  ⟨(attention_check_blocks_progression trialTwoDone
      [Event.answer Direction.up, Event.wake Cont.feedbackDelay Outcome.ok,
        Event.setMode Mode.visualized, Event.clickStop] (by decide)).2.1,
    (attention_check_blocks_progression trialTwoDone
      [Event.answer Direction.up, Event.wake Cont.feedbackDelay Outcome.ok,
        Event.setMode Mode.visualized, Event.clickStop] (by decide)).2.2⟩

/-! ### C20 -/

/-- The outcome of a trial-start or trial-end request has no influence on what the
resumed activation does. -/
theorem step_trial_outcome_irrelevant (sys : Sys) (c : Cont) (o o2 : Outcome)
    (hc : c = Cont.trialStartFetch ∨ c = Cont.trialEndFetch) :
    step sys (Event.wake c o) = step sys (Event.wake c o2) := by
  rcases hc with rfl | rfl <;> simp [step, resume]

theorem timeline_step_rest (n : Nat) (checks : List Int) (sys : Sys) (o : Outcome) (k : Nat)
    (h : AtStage n checks sys (Stage.resting k)) :
    (step sys (Event.wake Cont.rest o)).timeline = sys.timeline ∧
      (step sys (Event.wake Cont.rest o)).calls.map DeviceCall.kind
        = sys.calls.map DeviceCall.kind ++ [CallKind.startTrial ((k : Int) + 1)] := by
  rw [step_wake_of_mem sys Cont.rest o (mem_of_driversOf_eq _ _ h.2.2.drivers_eq) (by simp)]
  obtain ⟨hk, ht, hconn, htot, hchk, hrun, hpau, hres, hdrv, hkinds⟩ := h
  simp [resume, hrun, hpau, hconn, ht, DeviceCall.kind]

theorem timeline_step_trialStartFetch (n : Nat) (checks : List Int) (sys : Sys) (o : Outcome)
    (k : Nat) (h : AtStage n checks sys (Stage.inTrial k Cont.trialStartFetch)) :
    (step sys (Event.wake Cont.trialStartFetch o)).timeline
        = sys.timeline ++ [((k : Int) + 1, Phase.concentration, 500)] ∧
      (step sys (Event.wake Cont.trialStartFetch o)).calls = sys.calls := by
  rw [step_wake_of_mem sys Cont.trialStartFetch o
    (mem_of_driversOf_eq _ _ h.2.2.2.drivers_eq) (by simp)]
  obtain ⟨_, hk, ht, hconn, htot, hchk, hrun, hpau, hres, hdrv, hkinds⟩ := h
  simp [resume, enterConcentration, ht, config.timings]

theorem timeline_step_concentration (n : Nat) (checks : List Int) (sys : Sys) (o : Outcome)
    (k : Nat) (h : AtStage n checks sys (Stage.inTrial k Cont.concentration)) :
    (step sys (Event.wake Cont.concentration o)).timeline
        = sys.timeline ++ [((k : Int) + 1, Phase.cue, 500)] ∧
      (step sys (Event.wake Cont.concentration o)).calls = sys.calls := by
  rw [step_wake_of_mem sys Cont.concentration o
    (mem_of_driversOf_eq _ _ h.2.2.2.drivers_eq) (by simp)]
  obtain ⟨_, hk, ht, hconn, htot, hchk, hrun, hpau, hres, hdrv, hkinds⟩ := h
  simp [resume, hrun, hpau, ht, config.timings]

theorem timeline_step_cue (n : Nat) (checks : List Int) (sys : Sys) (o : Outcome)
    (k : Nat) (h : AtStage n checks sys (Stage.inTrial k Cont.cue)) :
    (step sys (Event.wake Cont.cue o)).timeline
        = sys.timeline ++ [((k : Int) + 1, Phase.action, 2500)] ∧
      (step sys (Event.wake Cont.cue o)).calls = sys.calls := by
  rw [step_wake_of_mem sys Cont.cue o (mem_of_driversOf_eq _ _ h.2.2.2.drivers_eq) (by simp)]
  obtain ⟨_, hk, ht, hconn, htot, hchk, hrun, hpau, hres, hdrv, hkinds⟩ := h
  simp [resume, hrun, hpau, ht, config.timings]

theorem timeline_step_action (n : Nat) (checks : List Int) (sys : Sys) (o : Outcome)
    (k : Nat) (h : AtStage n checks sys (Stage.inTrial k Cont.action)) :
    (step sys (Event.wake Cont.action o)).timeline
        = sys.timeline ++ [((k : Int) + 1, Phase.relax, 1000)] ∧
      (step sys (Event.wake Cont.action o)).calls = sys.calls := by
  rw [step_wake_of_mem sys Cont.action o (mem_of_driversOf_eq _ _ h.2.2.2.drivers_eq) (by simp)]
  obtain ⟨_, hk, ht, hconn, htot, hchk, hrun, hpau, hres, hdrv, hkinds⟩ := h
  simp [resume, hrun, hpau, ht, config.timings]

theorem timeline_step_relax (n : Nat) (checks : List Int) (sys : Sys) (o : Outcome)
    (k : Nat) (h : AtStage n checks sys (Stage.inTrial k Cont.relax)) :
    (step sys (Event.wake Cont.relax o)).timeline
        = sys.timeline ++ [((k : Int) + 1, Phase.complete, 0)] ∧
      (step sys (Event.wake Cont.relax o)).calls = sys.calls ++ [DeviceCall.endTrial] := by
  rw [step_wake_of_mem sys Cont.relax o (mem_of_driversOf_eq _ _ h.2.2.2.drivers_eq) (by simp)]
  obtain ⟨_, hk, ht, hconn, htot, hchk, hrun, hpau, hres, hdrv, hkinds⟩ := h
  simp [resume, hrun, hpau, hconn, ht]

/-- C20: in a session without pause or stop on a connected device, at the rest interval
of trial k+1, whatever the outcomes of the trial-start and trial-end requests (success,
unsuccessful response or thrown error): the trial passes through Concentration, Cue,
Action, Relax and completion in this order with isRunning true, startTrial(k+1) and
endTrial are issued, the loop then proceeds (to the rest interval of trial k+2 with
isRunning true if a trial remains, to the regular end of the session after the last
trial), and the controller ends in exactly the state it reaches when both requests
succeed. -/
theorem trial_survives_request_failures (n : Nat) (checks : List Int) (sys : Sys) (k : Nat)
    (startOutcome endOutcome : Nat → Outcome) (answers : Nat → Direction)
    (h : AtStage n checks sys (Stage.resting k)) :
    (run sys (phaseEvents (startOutcome k))).timeline
        = sys.timeline ++ [((k : Int) + 1, Phase.concentration, 500),
            ((k : Int) + 1, Phase.cue, 500), ((k : Int) + 1, Phase.action, 2500),
            ((k : Int) + 1, Phase.relax, 1000), ((k : Int) + 1, Phase.complete, 0)] ∧
      (run sys (phaseEvents (startOutcome k))).calls.map DeviceCall.kind
        = sys.calls.map DeviceCall.kind
            ++ [CallKind.startTrial ((k : Int) + 1), CallKind.endTrial] ∧
      (run sys (phaseEvents (startOutcome k))).state.isRunning = true ∧
      AtStage n checks (run sys (trialEvents checks startOutcome endOutcome answers k))
        (Stage.next n (k + 1)) ∧
      (k + 1 < n →
        (run sys (trialEvents checks startOutcome endOutcome answers k)).state.isRunning
          = true ∧
        (run sys (trialEvents checks startOutcome endOutcome answers k)).state.currentTrial
          = (k : Int) + 2 ∧
        Cont.rest ∈ (run sys (trialEvents checks startOutcome endOutcome answers k)).pending) ∧
      run sys (trialEvents checks startOutcome endOutcome answers k)
        = run sys (trialEvents checks (fun _ => Outcome.ok) (fun _ => Outcome.ok) answers k) := by
  have h1 := atStage_step_rest n checks sys Outcome.ok k h
  have t1 := timeline_step_rest n checks sys Outcome.ok k h
  have h2 := atStage_step_trialStartFetch n checks _ (startOutcome k) k h1
  have t2 := timeline_step_trialStartFetch n checks _ (startOutcome k) k h1
  have h3 := atStage_step_concentration n checks _ Outcome.ok k h2
  have t3 := timeline_step_concentration n checks _ Outcome.ok k h2
  have h4 := atStage_step_cue n checks _ Outcome.ok k h3
  have t4 := timeline_step_cue n checks _ Outcome.ok k h3
  have h5 := atStage_step_action n checks _ Outcome.ok k h4
  have t5 := timeline_step_action n checks _ Outcome.ok k h4
  have h6 := atStage_step_relax n checks _ Outcome.ok k h5
  have t6 := timeline_step_relax n checks _ Outcome.ok k h5
  have hfinal := atStage_trialEvents n checks startOutcome endOutcome answers sys k h
  refine ⟨?_, ?_, ?_, hfinal, ?_, ?_⟩
  · simp only [phaseEvents, run_cons, run_nil]
    rw [t6.1, t5.1, t4.1, t3.1, t2.1, t1.1]
    simp
  · simp only [phaseEvents, run_cons, run_nil]
    rw [t6.2, t5.2, t4.2, t3.2, t2.2, List.map_append, t1.2]
    simp [DeviceCall.kind]
  · simp only [phaseEvents, run_cons, run_nil]
    exact h6.2.2.2.2.2.1
  · intro hlt
    have hnext : AtStage n checks
        (run sys (trialEvents checks startOutcome endOutcome answers k))
        (Stage.resting (k + 1)) := by
      have := hfinal
      simp only [Stage.next, if_pos hlt] at this
      exact this
    refine ⟨hnext.2.2.2.2.2.1, ?_, mem_of_driversOf_eq _ _ hnext.2.2.drivers_eq⟩
    have ht := hnext.2.1
    push_cast at ht
    omega
  · simp only [trialEvents, run_append, run_cons, run_nil]
    rw [step_trial_outcome_irrelevant _ Cont.trialStartFetch (startOutcome k) Outcome.ok
      (Or.inl rfl)]
    rw [step_trial_outcome_irrelevant _ Cont.trialEndFetch (endOutcome k) Outcome.ok
      (Or.inr rfl)]

theorem restingSys_atStage : AtStage 3 [] restingSys (Stage.resting 0) := by
  have h0 := atStage_startExperiment 3 threeTrialState (fun _ => Draw.zero) 0 []
    (by decide) rfl rfl rfl
  have h1 := atStage_step_sessionStartFetch 3 [] _ h0
  exact atStage_step_announce 3 [] _ Outcome.ok h1

/-- C20 witness: trial 1 of a three-trial session whose trial-start request fails and
whose trial-end request throws: its five phase entries are logged in order, and the loop
reaches the rest interval of trial 2 with isRunning true. -/
theorem trial_survives_request_failures_witness :
    (run restingSys (phaseEvents Outcome.failed)).timeline
        = restingSys.timeline ++ [(1, Phase.concentration, 500), (1, Phase.cue, 500),
            (1, Phase.action, 2500), (1, Phase.relax, 1000), (1, Phase.complete, 0)] ∧
      (run restingSys (trialEvents [] (fun _ => Outcome.failed) (fun _ => Outcome.threw)
        (fun _ => Direction.up) 0)).state.isRunning = true ∧
      (run restingSys (trialEvents [] (fun _ => Outcome.failed) (fun _ => Outcome.threw)
        (fun _ => Direction.up) 0)).state.currentTrial = 2 :=
  ⟨(trial_survives_request_failures 3 [] restingSys 0 (fun _ => Outcome.failed)
      (fun _ => Outcome.threw) (fun _ => Direction.up) restingSys_atStage).1,
    ((trial_survives_request_failures 3 [] restingSys 0 (fun _ => Outcome.failed)
      (fun _ => Outcome.threw) (fun _ => Direction.up) restingSys_atStage).2.2.2.2.1
      (by decide)).1,
    ((trial_survives_request_failures 3 [] restingSys 0 (fun _ => Outcome.failed)
      (fun _ => Outcome.threw) (fun _ => Direction.up) restingSys_atStage).2.2.2.2.1
      (by decide)).2.1⟩

/-! ### C18 -/

theorem DirFrame.refl (sys : Sys) : DirFrame sys sys :=
  ⟨rfl, rfl, rfl, rfl, rfl, fun h => h⟩

theorem DirFrame.trans {sys sys2 sys3 : Sys} (h1 : DirFrame sys sys2) (h2 : DirFrame sys2 sys3) :
    DirFrame sys sys3 :=
  ⟨h2.1.trans h1.1, h2.2.1.trans h1.2.1, h2.2.2.1.trans h1.2.2.1,
    h2.2.2.2.1.trans h1.2.2.2.1, h2.2.2.2.2.1.trans h1.2.2.2.2.1,
    fun h => h1.2.2.2.2.2 (h2.2.2.2.2.2 h)⟩

theorem DirInv.of_frame {sys sys2 : Sys} (h : DirInv sys) (hf : DirFrame sys sys2) :
    DirInv sys2 := by
  obtain ⟨f1, f2, f3, f4, f5, f6⟩ := hf
  refine ⟨?_, ?_, ?_⟩
  · rw [f1, f2]; exact h.current
  · unfold trialStarted
    rw [f1, f4, f5]
    exact h.started
  · intro hmem
    rw [f4]
    exact h.awaiting (f6 hmem)

theorem dirInv_of_same (sys sys2 : Sys) (h : DirInv sys)
    (h1 : sys2.state.lastDirection = sys.state.lastDirection)
    (h2 : sys2.state.currentDirection = sys.state.currentDirection)
    (h4 : sys2.calls = sys.calls) (h5 : sys2.timeline = sys.timeline)
    (h6 : sys2.pending = sys.pending) : DirInv sys2 := by
  refine ⟨?_, ?_, ?_⟩
  · rw [h1, h2]; exact h.current
  · unfold trialStarted
    rw [h1, h4, h5]
    exact h.started
  · intro hmem
    rw [h4]
    rw [h6] at hmem
    exact h.awaiting hmem

theorem callInv_of_frame {sys sys2 : Sys} (h : CallInv sys) (hf : DirFrame sys sys2) :
    CallInv sys2 := by
  obtain ⟨f1, f2, f3, f4, f5, f6⟩ := hf
  refine ⟨?_, ?_⟩
  · intro d hd
    rw [f4] at hd
    rw [f1]
    exact h.latest d hd
  · intro hc
    rw [f3] at hc
    rw [f4]
    exact h.offline hc

theorem dirFrame_erase (sys : Sys) (c : Cont) :
    DirFrame sys { sys with pending := sys.pending.erase c } :=
  ⟨rfl, rfl, rfl, rfl, rfl, fun h => List.mem_of_mem_erase h⟩

theorem dirFrame_stopExperiment (sys : Sys) : DirFrame sys (stopExperiment sys) := by
  unfold stopExperiment
  split
  · exact DirFrame.refl sys
  · dsimp only
    split
    · refine ⟨rfl, rfl, rfl, ?_, rfl, ?_⟩
      · simp [trialStartDirections, DeviceCall.startedDirection]
      · intro h
        simpa using h
    · exact ⟨rfl, rfl, rfl, rfl, rfl, fun h => h⟩

theorem dirFrame_runNextTrial (sys : Sys) : DirFrame sys (runNextTrial sys) := by
  unfold runNextTrial
  split
  · exact DirFrame.refl sys
  · dsimp only
    split
    · exact DirFrame.trans ⟨rfl, rfl, rfl, rfl, rfl, fun h => h⟩ (dirFrame_stopExperiment _)
    · refine ⟨rfl, rfl, rfl, rfl, ?_, ?_⟩
      · simp [concentrationEntered]
      · intro h
        simpa using h

theorem dirFrame_showAttentionCheck (sys : Sys) : DirFrame sys (showAttentionCheck sys) := by
  refine ⟨rfl, rfl, rfl, rfl, rfl, ?_⟩
  intro h
  simpa [showAttentionCheck] using h

theorem dirFrame_finishTrial (sys : Sys) : DirFrame sys (finishTrial sys) := by
  unfold finishTrial
  split
  · exact dirFrame_showAttentionCheck sys
  · exact dirFrame_runNextTrial sys

theorem dirFrame_startExperiment (now : Int) (checks : List Int) (sys : Sys) :
    DirFrame sys (startExperiment now checks sys) := by
  unfold startExperiment
  split
  · exact DirFrame.refl sys
  · split
    · exact DirFrame.refl sys
    · dsimp only
      split
      · refine ⟨rfl, rfl, rfl, ?_, rfl, ?_⟩
        · simp [trialStartDirections, DeviceCall.startedDirection]
        · intro h
          simpa using h
      · refine ⟨rfl, rfl, rfl, rfl, rfl, ?_⟩
        intro h
        simpa using h

theorem dirFrame_pauseExperiment (sys : Sys) : DirFrame sys (pauseExperiment sys) := by
  unfold pauseExperiment
  split
  · exact DirFrame.refl sys
  · dsimp only
    split
    · exact ⟨rfl, rfl, rfl, rfl, rfl, fun h => h⟩
    · exact DirFrame.trans ⟨rfl, rfl, rfl, rfl, rfl, fun h => h⟩ (dirFrame_runNextTrial _)

theorem dirFrame_setMode (mode : Mode) (sys : Sys) : DirFrame sys (setMode mode sys) := by
  unfold setMode
  split
  · exact DirFrame.refl sys
  · exact ⟨rfl, rfl, rfl, rfl, rfl, fun h => h⟩

theorem dirFrame_checkAttention (d : Direction) (sys : Sys) :
    DirFrame sys (checkAttention d sys) := by
  refine ⟨rfl, rfl, rfl, rfl, rfl, ?_⟩
  intro h
  simpa [checkAttention] using h

theorem dirFrame_resumeAttentionCheck (sys : Sys) :
    DirFrame sys (resumeAttentionCheck sys) :=
  DirFrame.trans (dirFrame_erase sys Cont.attentionCheck) (dirFrame_runNextTrial _)

/-- Every resumed activation other than the one that draws the direction and the one that
enters the concentration interval leaves the direction observables alone. -/
theorem dirFrame_resume (c : Cont) (o : Outcome) (sys : Sys) (hrest : c ≠ Cont.rest)
    (hfetch : c ≠ Cont.trialStartFetch) : DirFrame sys (resume c o sys) := by
  cases c with
  | rest => exact absurd rfl hrest
  | trialStartFetch => exact absurd rfl hfetch
  | sessionStartFetch =>
    simp only [resume]
    split
    · refine ⟨rfl, rfl, rfl, rfl, rfl, ?_⟩
      intro h
      simpa using h
    · exact dirFrame_stopExperiment sys
  | announce => exact dirFrame_runNextTrial sys
  | concentration =>
    simp only [resume]
    split
    · exact DirFrame.refl sys
    · refine ⟨rfl, rfl, rfl, rfl, ?_, ?_⟩
      · simp [concentrationEntered]
      · intro h
        simpa using h
  | cue =>
    simp only [resume]
    split
    · exact DirFrame.refl sys
    · refine ⟨rfl, rfl, rfl, rfl, ?_, ?_⟩
      · simp [concentrationEntered]
      · intro h
        simpa using h
  | action =>
    simp only [resume]
    split
    · exact DirFrame.refl sys
    · refine ⟨rfl, rfl, rfl, rfl, ?_, ?_⟩
      · simp [concentrationEntered]
      · intro h
        simpa using h
  | relax =>
    simp only [resume]
    split
    · exact DirFrame.refl sys
    · have h1 : DirFrame sys
          { sys with timeline := sys.timeline ++ [(sys.state.currentTrial, Phase.complete, 0)] } := by
        refine ⟨rfl, rfl, rfl, rfl, ?_, fun h => h⟩
        simp [concentrationEntered]
      split
      · refine DirFrame.trans h1 ⟨rfl, rfl, rfl, ?_, rfl, ?_⟩
        · simp [trialStartDirections, DeviceCall.startedDirection]
        · intro h
          simpa using h
      · exact DirFrame.trans h1 (dirFrame_finishTrial _)
  | trialEndFetch => exact dirFrame_finishTrial sys
  | attentionCheck => exact dirFrame_runNextTrial sys
  | feedbackDelay =>
    refine ⟨rfl, rfl, rfl, rfl, rfl, ?_⟩
    intro h
    simpa [resume] using h
  | fadeOut =>
    simp only [resume]
    split
    · exact DirFrame.trans ⟨rfl, rfl, rfl, rfl, rfl, fun h => h⟩
        (dirFrame_resumeAttentionCheck _)
    · exact ⟨rfl, rfl, rfl, rfl, rfl, fun h => h⟩
  | sessionEndFetch => exact DirFrame.refl sys

/-- The direction index `Math.floor(Math.random() * 4)` always names an entry of
`config.directions`. -/
theorem direction_drawn (r : Draw) :
    ∃ d, config.directions[(⌊r.val * ((config.directions.length : Nat) : ℚ)⌋).toNat]? = some d := by
  have hlen : config.directions.length = 4 := rfl
  have h0 : (0 : ℚ) ≤ r.val * ((config.directions.length : Nat) : ℚ) := by
    rw [hlen]
    have := r.nonneg
    push_cast
    linarith
  have h4 : r.val * ((config.directions.length : Nat) : ℚ) < 4 := by
    rw [hlen]
    have := r.lt_one
    push_cast
    linarith
  have hf0 : 0 ≤ ⌊r.val * ((config.directions.length : Nat) : ℚ)⌋ := Int.floor_nonneg.mpr h0
  have hf4 : ⌊r.val * ((config.directions.length : Nat) : ℚ)⌋ < 4 := by
    apply Int.floor_lt.mpr
    exact_mod_cast h4
  have hlt : (⌊r.val * ((config.directions.length : Nat) : ℚ)⌋).toNat < config.directions.length := by
    show (⌊r.val * ((config.directions.length : Nat) : ℚ)⌋).toNat < 4
    omega
  exact ⟨config.directions[(⌊r.val * ((config.directions.length : Nat) : ℚ)⌋).toNat],
    List.getElem?_eq_getElem hlt⟩

/-- Entering the concentration interval keeps the direction invariant when a trial-start
call has been issued or the direction has been drawn. -/
theorem dirInv_enterConcentration (sys : Sys) (h : DirInv sys)
    (hdir : sys.state.lastDirection ≠ none) : DirInv (enterConcentration sys) := by
  refine ⟨h.current, ?_, ?_⟩
  · constructor
    · intro _
      right
      simp [enterConcentration, concentrationEntered]
    · intro _
      exact hdir
  · intro hmem
    apply h.awaiting
    simpa [enterConcentration] using hmem

/-- Every event other than one of the connection form, the end of a rest interval and the
completion of a trial-start request leaves the direction observables alone. -/
theorem dirFrame_step (sys : Sys) (e : Event) (hform : e.usesConnectForm = false)
    (hrest : ∀ o, e ≠ Event.wake Cont.rest o)
    (hfetch : ∀ o, e ≠ Event.wake Cont.trialStartFetch o) : DirFrame sys (step sys e) := by
  cases e with
  | setMode mode =>
    simp only [step]
    split
    · exact DirFrame.refl sys
    · exact dirFrame_setMode mode sys
  | clickStart now checks =>
    simp only [step]
    split
    · exact DirFrame.refl sys
    · exact dirFrame_startExperiment now checks sys
  | clickPause => exact dirFrame_pauseExperiment sys
  | clickStop => exact dirFrame_stopExperiment sys
  | answer d => exact dirFrame_checkAttention d sys
  | wake c o =>
    by_cases hg : c ∈ sys.pending ∧ c ≠ Cont.attentionCheck
    · rw [step_wake_of_mem sys c o hg.1 hg.2]
      exact DirFrame.trans (dirFrame_erase sys c)
        (dirFrame_resume c o _ (fun hc => hrest o (by rw [hc]))
          (fun hc => hfetch o (by rw [hc])))
    · have hstep : step sys (Event.wake c o) = sys := by simp only [step, if_neg hg]
      rw [hstep]
      exact DirFrame.refl sys
  | clickConfirmConnect complete => simp [Event.usesConnectForm] at hform
  | connectResponse o => simp [Event.usesConnectForm] at hform
  | connectTimer => simp [Event.usesConnectForm] at hform

/-- The direction invariant is kept by every event. -/
theorem dirInv_step (sys : Sys) (e : Event) (h : DirInv sys) : DirInv (step sys e) := by
  cases e with
  | setMode mode =>
    exact h.of_frame (dirFrame_step sys _ rfl (fun o => by simp) (fun o => by simp))
  | clickStart now checks =>
    exact h.of_frame (dirFrame_step sys _ rfl (fun o => by simp) (fun o => by simp))
  | clickPause =>
    exact h.of_frame (dirFrame_step sys _ rfl (fun o => by simp) (fun o => by simp))
  | clickStop =>
    exact h.of_frame (dirFrame_step sys _ rfl (fun o => by simp) (fun o => by simp))
  | answer d =>
    exact h.of_frame (dirFrame_step sys _ rfl (fun o => by simp) (fun o => by simp))
  | clickConfirmConnect complete =>
    simp only [step, connectToCrown]
    split
    · split
      · exact dirInv_of_same sys _ h rfl rfl rfl rfl rfl
      · split
        · exact h
        · exact dirInv_of_same sys _ h rfl rfl rfl rfl rfl
    · exact h
  | connectResponse o =>
    simp only [step, connectToCrownResponse]
    split
    · split
      · exact dirInv_of_same sys _ h rfl rfl rfl rfl rfl
      · exact dirInv_of_same sys _ h rfl rfl rfl rfl rfl
    · exact h
  | connectTimer =>
    simp only [step]
    split
    · exact dirInv_of_same sys _ h rfl rfl rfl rfl rfl
    · exact h
  | wake c o =>
    by_cases hg : c ∈ sys.pending ∧ c ≠ Cont.attentionCheck
    · have he : DirInv { sys with pending := sys.pending.erase c } :=
        h.of_frame (dirFrame_erase sys c)
      by_cases hrest : c = Cont.rest
      · subst hrest
        rw [step_wake_of_mem sys Cont.rest o hg.1 hg.2]
        simp only [resume]
        split
        · exact he
        · obtain ⟨d, hd⟩ := direction_drawn (sys.random sys.draws)
          rw [hd]
          split
          · refine ⟨rfl, ?_, ?_⟩
            · constructor
              · intro _
                left
                simp [trialStartDirections, List.filterMap_append,
                  DeviceCall.startedDirection]
              · intro _
                simp
            · intro _
              simp [trialStartDirections, List.filterMap_append,
                DeviceCall.startedDirection]
          · refine ⟨rfl, ?_, ?_⟩
            · constructor
              · intro _
                right
                simp [enterConcentration, concentrationEntered]
              · intro _
                simp [enterConcentration]
            · intro hmem
              have hm : Cont.trialStartFetch ∈ sys.pending := by
                simp [enterConcentration] at hmem
                exact hmem
              simpa [enterConcentration] using h.awaiting hm
      · by_cases hfetch : c = Cont.trialStartFetch
        · subst hfetch
          rw [step_wake_of_mem sys Cont.trialStartFetch o hg.1 hg.2]
          simp only [resume]
          apply dirInv_enterConcentration _ he
          exact h.started.mpr (Or.inl (h.awaiting hg.1))
        · exact h.of_frame (dirFrame_step sys _ rfl
            (fun o2 heq => hrest (by injection heq))
            (fun o2 heq => hfetch (by injection heq)))
    · have hstep : step sys (Event.wake c o) = sys := by simp only [step, if_neg hg]
      rw [hstep]
      exact h

/-- Without a device no trial-start call is issued, and the latest trial-start call
carries lastDirection: kept by every event other than those of the connection form. -/
theorem callInv_step (sys : Sys) (e : Event) (h : CallInv sys)
    (hform : e.usesConnectForm = false) : CallInv (step sys e) := by
  by_cases hrest : ∃ o, e = Event.wake Cont.rest o
  · obtain ⟨o, rfl⟩ := hrest
    by_cases hg : Cont.rest ∈ sys.pending ∧ Cont.rest ≠ Cont.attentionCheck
    · have he : CallInv { sys with pending := sys.pending.erase Cont.rest } :=
        callInv_of_frame h (dirFrame_erase sys Cont.rest)
      rw [step_wake_of_mem sys Cont.rest o hg.1 hg.2]
      simp only [resume]
      split
      · exact he
      · obtain ⟨d, hd⟩ := direction_drawn (sys.random sys.draws)
        rw [hd]
        split
        · rename_i hconn
          refine ⟨?_, ?_⟩
          · intro x hx
            simp [trialStartDirections, List.filterMap_append,
              DeviceCall.startedDirection] at hx
            simpa using hx
          · intro hoff
            exact absurd hoff (by simpa using hconn)
        · rename_i hconn
          have hoff : sys.state.isConnectedToCrown = false := by simpa using hconn
          have hnone : trialStartDirections sys.calls = [] := h.offline hoff
          refine ⟨?_, ?_⟩
          · intro x hx
            simp [enterConcentration, hnone] at hx
          · intro _
            simpa [enterConcentration] using hnone
    · have hstep : step sys (Event.wake Cont.rest o) = sys := by simp only [step, if_neg hg]
      rw [hstep]
      exact h
  · by_cases hfetch : ∃ o, e = Event.wake Cont.trialStartFetch o
    · obtain ⟨o, rfl⟩ := hfetch
      by_cases hg : Cont.trialStartFetch ∈ sys.pending ∧
          Cont.trialStartFetch ≠ Cont.attentionCheck
      · rw [step_wake_of_mem sys Cont.trialStartFetch o hg.1 hg.2]
        exact ⟨h.latest, h.offline⟩
      · have hstep : step sys (Event.wake Cont.trialStartFetch o) = sys := by
          simp only [step, if_neg hg]
        rw [hstep]
        exact h
    · push_neg at hrest hfetch
      exact callInv_of_frame h (dirFrame_step sys e hform hrest hfetch)

/-- The direction invariant holds on a freshly loaded page. -/
theorem dirInv_init (state : State) (random : Nat → Draw)
    (hlast : state.lastDirection = none) (hcur : state.currentDirection = none) :
    DirInv (Sys.init state random) := by
  refine ⟨?_, ?_, ?_⟩
  · simp [Sys.init, hlast, hcur]
  · simp [Sys.init, hlast, trialStarted, trialStartDirections, concentrationEntered]
  · intro hmem
    simp [Sys.init] at hmem

/-- On a freshly loaded page no trial-start call has been issued. -/
theorem callInv_init (state : State) (random : Nat → Draw) :
    CallInv (Sys.init state random) := by
  refine ⟨?_, ?_⟩
  · intro d hd
    simp [Sys.init, trialStartDirections] at hd
  · intro _
    simp [Sys.init, trialStartDirections]

/-- The direction invariant holds after every sequence of events. -/
theorem dirInv_run (events : List Event) (sys : Sys) (h : DirInv sys) :
    DirInv (run sys events) := by
  induction events generalizing sys with
  | nil => exact h
  | cons e rest ih =>
    rw [run_cons]
    exact ih _ (dirInv_step sys e h)

theorem callInv_run (events : List Event) (sys : Sys) (h : CallInv sys)
    (hform : ∀ e ∈ events, e.usesConnectForm = false) : CallInv (run sys events) := by
  induction events generalizing sys with
  | nil => exact h
  | cons e rest ih =>
    rw [run_cons]
    exact ih _ (callInv_step sys e h (hform e (List.mem_cons_self e rest)))
      (fun e2 he2 => hform e2 (List.mem_cons_of_mem e he2))

/-- No event other than the end of a rest interval changes the direction fields. -/
theorem step_keeps_direction (sys : Sys) (e : Event) (hne : ∀ o, e ≠ Event.wake Cont.rest o) :
    (step sys e).state.lastDirection = sys.state.lastDirection ∧
      (step sys e).state.currentDirection = sys.state.currentDirection := by
  by_cases hform : e.usesConnectForm = true
  · cases e with
    | clickConfirmConnect complete =>
      simp only [step, connectToCrown]
      split
      · split
        · exact ⟨rfl, rfl⟩
        · split
          · exact ⟨rfl, rfl⟩
          · exact ⟨rfl, rfl⟩
      · exact ⟨rfl, rfl⟩
    | connectResponse o =>
      simp only [step, connectToCrownResponse]
      split
      · split
        · exact ⟨rfl, rfl⟩
        · exact ⟨rfl, rfl⟩
      · exact ⟨rfl, rfl⟩
    | connectTimer =>
      simp only [step]
      split
      · exact ⟨rfl, rfl⟩
      · exact ⟨rfl, rfl⟩
    | setMode mode => simp [Event.usesConnectForm] at hform
    | clickStart now checks => simp [Event.usesConnectForm] at hform
    | clickPause => simp [Event.usesConnectForm] at hform
    | clickStop => simp [Event.usesConnectForm] at hform
    | answer d => simp [Event.usesConnectForm] at hform
    | wake c o => simp [Event.usesConnectForm] at hform
  · have hform2 : e.usesConnectForm = false := by simpa using hform
    by_cases hfetch : ∃ o, e = Event.wake Cont.trialStartFetch o
    · obtain ⟨o, rfl⟩ := hfetch
      by_cases hg : Cont.trialStartFetch ∈ sys.pending ∧
          Cont.trialStartFetch ≠ Cont.attentionCheck
      · rw [step_wake_of_mem sys Cont.trialStartFetch o hg.1 hg.2]
        exact ⟨rfl, rfl⟩
      · have hstep : step sys (Event.wake Cont.trialStartFetch o) = sys := by
          simp only [step, if_neg hg]
        rw [hstep]
        exact ⟨rfl, rfl⟩
    · push_neg at hfetch
      have hf := dirFrame_step sys e hform2 hne hfetch
      exact ⟨hf.1, hf.2.1⟩

/-- An event that changes lastDirection is the end of a rest interval at which a trial
starts: the new direction is one of the four, and it is sent in a trial-start call
(connected device) or the concentration interval is entered at once. -/
theorem step_changes_direction (sys : Sys) (e : Event)
    (hch : (step sys e).state.lastDirection ≠ sys.state.lastDirection) :
    (∃ o, e = Event.wake Cont.rest o) ∧
      (step sys e).state.lastDirection ≠ none ∧
      (step sys e).state.currentDirection = (step sys e).state.lastDirection ∧
      ((step sys e).calls = sys.calls ++
          [DeviceCall.startTrial sys.state.currentTrial (step sys e).state.lastDirection
            sys.state.currentMode] ∨
        (sys.state.isConnectedToCrown = false ∧
          (step sys e).timeline = sys.timeline ++
            [(sys.state.currentTrial, Phase.concentration,
              config.timings.concentrationInterval)])) := by
  by_cases hne : ∀ o, e ≠ Event.wake Cont.rest o
  · exact absurd (step_keeps_direction sys e hne).1 hch
  · push_neg at hne
    obtain ⟨o, rfl⟩ := hne
    refine ⟨⟨o, rfl⟩, ?_⟩
    by_cases hg : Cont.rest ∈ sys.pending ∧ Cont.rest ≠ Cont.attentionCheck
    · rw [step_wake_of_mem sys Cont.rest o hg.1 hg.2] at hch ⊢
      simp only [resume] at hch ⊢
      split at hch
      · exact absurd rfl hch
      · rename_i hrun
        rw [if_neg hrun]
        obtain ⟨d, hd⟩ := direction_drawn (sys.random sys.draws)
        rw [hd]
        by_cases hconn : sys.state.isConnectedToCrown = true
        · simp [hconn]
        · simp [hconn, enterConcentration]
    · have hstep : step sys (Event.wake Cont.rest o) = sys := by simp only [step, if_neg hg]
      rw [hstep] at hch
      exact absurd rfl hch

/-- What one event does to lastDirection: an event that starts a trial sets it to the
direction of that trial, every other event leaves it as it is. -/
theorem step_lastDirection (sys : Sys) (e : Event) :
    (step sys e).state.lastDirection = (trialStartAt sys e).getD sys.state.lastDirection := by
  by_cases hne : ∀ o, e ≠ Event.wake Cont.rest o
  · have hnone : trialStartAt sys e = none := by
      cases e with
      | wake c o =>
        cases c with
        | rest => exact absurd rfl (hne o)
        | _ => rfl
      | _ => rfl
    rw [hnone]
    exact (step_keeps_direction sys e hne).1
  · push_neg at hne
    obtain ⟨o, rfl⟩ := hne
    by_cases hmem : Cont.rest ∈ sys.pending
    · rw [step_wake_of_mem sys Cont.rest o hmem (by simp)]
      by_cases hrun : (!sys.state.isRunning || sys.state.isPaused) = true
      · have hnone : trialStartAt sys (Event.wake Cont.rest o) = none := by
          simp only [trialStartAt, hrun]
          simp
        rw [hnone]
        simp only [resume, hrun, if_true]
        rfl
      · have hrun2 : (!sys.state.isRunning || sys.state.isPaused) = false := by
          simpa using hrun
        have hsome : trialStartAt sys (Event.wake Cont.rest o)
            = some (config.directions[
                (⌊(sys.random sys.draws).val * ((config.directions.length : Nat) : ℚ)⌋).toNat]?) := by
          simp only [trialStartAt, hmem, hrun2, and_self, if_true]
        rw [hsome]
        simp only [resume]
        rw [if_neg hrun]
        split <;> rfl
    · have hstep : step sys (Event.wake Cont.rest o) = sys := by
        simp only [step, hmem, false_and, if_false]
      have hnone : trialStartAt sys (Event.wake Cont.rest o) = none := by
        simp only [trialStartAt, hmem, false_and, if_false]
      rw [hstep, hnone]
      rfl

/-- After every sequence of events lastDirection is the direction of the most recently
started trial, and its initial value when no trial was started. -/
theorem run_lastDirection (events : List Event) (sys : Sys) :
    (run sys events).state.lastDirection
      = (startedDirections sys events).getLast?.getD sys.state.lastDirection := by
  induction events generalizing sys with
  | nil => rfl
  | cons e rest ih =>
    rw [run_cons, ih (step sys e), step_lastDirection sys e]
    simp only [startedDirections]
    cases hstart : trialStartAt sys e with
    | none => rfl
    | some direction =>
      simp only [Option.getD_some, List.getLast?_cons]

/-- C18 as stated is refuted: a session is started on a connected page and trial 1 starts
with the direction up, sent in startTrial(1); the user then disconnects with the
connection form; trial 2 starts with the direction left, which is stored in lastDirection
and currentDirection, but no startTrial call is issued for it (430): the direction sent in
the latest startTrial call is up, lastDirection is left. -/
theorem disconnect_before_trial_start_no_call :
    (run (freshPage upThenLeft) (disconnectBetweenTrials.take 8)).state.isConnectedToCrown
        = true ∧
      (run (freshPage upThenLeft) (disconnectBetweenTrials.take 9)).state.isConnectedToCrown
        = false ∧
      (run (freshPage upThenLeft) disconnectBetweenTrials).calls
        = [DeviceCall.startSession (some Mode.innerSpeech) 40,
            DeviceCall.startTrial 1 (some Direction.up) (some Mode.innerSpeech)] ∧
      (trialStartDirections (run (freshPage upThenLeft) disconnectBetweenTrials).calls).getLast?
        = some (some Direction.up) ∧
      (run (freshPage upThenLeft) disconnectBetweenTrials).state.currentTrial = 2 ∧
      (run (freshPage upThenLeft) disconnectBetweenTrials).state.lastDirection
        = some Direction.left ∧
      (run (freshPage upThenLeft) disconnectBetweenTrials).state.currentDirection
        = some Direction.left := by
  have hup : config.directions[
      (⌊(upThenLeft 1).val * ((config.directions.length : Nat) : ℚ)⌋).toNat]?
      = some Direction.up := by
    have h : ⌊(upThenLeft 1).val * ((config.directions.length : Nat) : ℚ)⌋ = 0 := by
      rw [Int.floor_eq_iff]
      norm_num [upThenLeft, Draw.zero, config.directions]
    rw [h]
    rfl
  have hleft : config.directions[
      (⌊(upThenLeft 3).val * ((config.directions.length : Nat) : ℚ)⌋).toNat]?
      = some Direction.left := by
    have h : ⌊(upThenLeft 3).val * ((config.directions.length : Nat) : ℚ)⌋ = 2 := by
      rw [Int.floor_eq_iff]
      norm_num [upThenLeft, Draw.half, config.directions]
    rw [h]
    rfl
  have hcalls : (run (freshPage upThenLeft) disconnectBetweenTrials).calls
      = [DeviceCall.startSession (some Mode.innerSpeech) 40,
          DeviceCall.startTrial 1 (config.directions[
            (⌊(upThenLeft 1).val * ((config.directions.length : Nat) : ℚ)⌋).toNat]?)
            (some Mode.innerSpeech)] := rfl
  have hlast : (run (freshPage upThenLeft) disconnectBetweenTrials).state.lastDirection
      = config.directions[
          (⌊(upThenLeft 3).val * ((config.directions.length : Nat) : ℚ)⌋).toNat]? := rfl
  have hcurrent : (run (freshPage upThenLeft) disconnectBetweenTrials).state.currentDirection
      = config.directions[
          (⌊(upThenLeft 3).val * ((config.directions.length : Nat) : ℚ)⌋).toNat]? := rfl
  rw [hup] at hcalls
  rw [hleft] at hlast hcurrent
  refine ⟨by decide, by decide, hcalls, ?_, by decide, hlast, hcurrent⟩
  rw [hcalls]
  rfl

/-- C18 (amended): in every state reached from a freshly loaded page (lastDirection and
currentDirection null) by any sequence of events, the connection form included,
lastDirection equals currentDirection and is the direction of the most recently started
trial; it is null exactly when no trial has yet started; and an event that changes it is
the end of a rest interval at which a trial starts, the new value being sent in that
trial's start call (connected device) or that trial entering its concentration interval at
once (no device).  When no event of the connection form occurs, lastDirection is also the
direction sent in the latest trial-start call, which is never null. -/
theorem lastDirection_invariant (state : State) (random : Nat → Draw) (events : List Event)
    (hlast : state.lastDirection = none) (hcur : state.currentDirection = none) :
    (run (Sys.init state random) events).state.lastDirection =
        (run (Sys.init state random) events).state.currentDirection ∧
    (run (Sys.init state random) events).state.lastDirection =
        (startedDirections (Sys.init state random) events).getLast?.getD none ∧
    ((∀ e ∈ events, e.usesConnectForm = false) →
      ∀ d, (trialStartDirections (run (Sys.init state random) events).calls).getLast? = some d →
        (run (Sys.init state random) events).state.lastDirection = d ∧ d ≠ none) ∧
    ((run (Sys.init state random) events).state.lastDirection = none ↔
        ¬ trialStarted (run (Sys.init state random) events)) ∧
    (∀ e, (step (run (Sys.init state random) events) e).state.lastDirection ≠
          (run (Sys.init state random) events).state.lastDirection →
        (∃ o, e = Event.wake Cont.rest o) ∧
        (step (run (Sys.init state random) events) e).state.lastDirection ≠ none ∧
        ((step (run (Sys.init state random) events) e).calls =
            (run (Sys.init state random) events).calls ++
              [DeviceCall.startTrial (run (Sys.init state random) events).state.currentTrial
                (step (run (Sys.init state random) events) e).state.lastDirection
                (run (Sys.init state random) events).state.currentMode] ∨
          ((run (Sys.init state random) events).state.isConnectedToCrown = false ∧
            (step (run (Sys.init state random) events) e).timeline =
              (run (Sys.init state random) events).timeline ++
                [((run (Sys.init state random) events).state.currentTrial, Phase.concentration,
                  config.timings.concentrationInterval)]))) := by
  have hinv : DirInv (run (Sys.init state random) events) :=
    dirInv_run events _ (dirInv_init state random hlast hcur)
  refine ⟨hinv.current, ?_, ?_, ?_, ?_⟩
  · rw [run_lastDirection events (Sys.init state random)]
    rw [show (Sys.init state random).state.lastDirection = state.lastDirection from rfl, hlast]
  · intro hform d hd
    have hcall : CallInv (run (Sys.init state random) events) :=
      callInv_run events _ (callInv_init state random) hform
    have hd2 := hcall.latest d hd
    refine ⟨hd2, ?_⟩
    intro hnone
    have hne : trialStartDirections (run (Sys.init state random) events).calls ≠ [] := by
      intro hnil
      rw [hnil] at hd
      simp at hd
    exact hinv.started.mpr (Or.inl hne) (hd2.trans hnone)
  · constructor
    · intro hnone hst
      exact hinv.started.mpr hst hnone
    · intro hst
      by_contra hne
      exact hst (hinv.started.mp hne)
  · intro e hch
    have h := step_changes_direction (run (Sys.init state random) events) e hch
    exact ⟨h.1, h.2.1, h.2.2.2⟩

/-- C18 witness: a three-trial session on a connected device, up to the end of the first
rest interval: lastDirection is the direction of the one trial-start call, and it was still
null one event earlier, when no trial had started. -/
theorem lastDirection_invariant_witness :
    threeTrialState.lastDirection = none ∧ threeTrialState.currentDirection = none ∧
      (∀ e ∈ firstTrialStart, e.usesConnectForm = false) ∧
      (trialStartDirections (run (Sys.init threeTrialState (fun _ => Draw.zero))
        firstTrialStart).calls).length = 1 ∧
      (∀ d, (trialStartDirections (run (Sys.init threeTrialState (fun _ => Draw.zero))
          firstTrialStart).calls).getLast? = some d →
        (run (Sys.init threeTrialState (fun _ => Draw.zero)) firstTrialStart).state.lastDirection
          = d ∧ d ≠ none) ∧
      ((run (Sys.init threeTrialState (fun _ => Draw.zero))
          firstTrialStart.dropLast).state.lastDirection = none ↔
        ¬ trialStarted (run (Sys.init threeTrialState (fun _ => Draw.zero))
          firstTrialStart.dropLast)) :=
  ⟨rfl, rfl, by decide, by decide,
    (lastDirection_invariant threeTrialState (fun _ => Draw.zero) firstTrialStart rfl rfl).2.2.1
      (by decide),
    (lastDirection_invariant threeTrialState (fun _ => Draw.zero) firstTrialStart.dropLast
      rfl rfl).2.2.2.1⟩

/-! ### C17 -/

/-- C17: checkAttention(selected) scores the answer against lastDirection and changes
nothing of config.state: the feedback it shows is the correct one if and only if selected
equals lastDirection, and otherwise it is the incorrect one naming lastDirection, the
actual direction.  In every state reached from a freshly loaded page lastDirection is the
direction of the most recently started trial, so the answer is correct if and only if it
is the direction of that trial; when no event of the connection form has occurred, it is
also the direction sent in the latest trial-start call. -/
theorem checkAttention_scores (selectedDirection : Direction) (sys : Sys) :
    (checkAttention selectedDirection sys).state = sys.state ∧
    (∃ shown : Feedback,
      (checkAttention selectedDirection sys).feedback = sys.feedback ++ [shown] ∧
      (shown = Feedback.correct ↔ some selectedDirection = sys.state.lastDirection) ∧
      (some selectedDirection ≠ sys.state.lastDirection →
        shown = Feedback.incorrect sys.state.lastDirection) ∧
      (∀ (state : State) (random : Nat → Draw) (events : List Event),
        state.lastDirection = none → state.currentDirection = none →
        sys = run (Sys.init state random) events →
        ∀ d, (startedDirections (Sys.init state random) events).getLast? = some d →
          ((shown = Feedback.correct ↔ some selectedDirection = d) ∧
            (some selectedDirection ≠ d → shown = Feedback.incorrect d))) ∧
      (∀ (state : State) (random : Nat → Draw) (events : List Event),
        state.lastDirection = none → state.currentDirection = none →
        sys = run (Sys.init state random) events →
        (∀ e ∈ events, e.usesConnectForm = false) →
        ∀ d, (trialStartDirections sys.calls).getLast? = some d →
          ((shown = Feedback.correct ↔ some selectedDirection = d) ∧
            (some selectedDirection ≠ d → shown = Feedback.incorrect d)))) := by
  refine ⟨rfl, ?_⟩
  have hstarted : ∀ (state : State) (random : Nat → Draw) (events : List Event),
      state.lastDirection = none → state.currentDirection = none →
      sys = run (Sys.init state random) events →
      ∀ d, (startedDirections (Sys.init state random) events).getLast? = some d →
        sys.state.lastDirection = d := by
    intro state random events hlast hcur hsys d hd
    rw [hsys, run_lastDirection events (Sys.init state random), hd]
    rfl
  have hreach : ∀ (state : State) (random : Nat → Draw) (events : List Event),
      state.lastDirection = none → state.currentDirection = none →
      sys = run (Sys.init state random) events →
      (∀ e ∈ events, e.usesConnectForm = false) →
      ∀ d, (trialStartDirections sys.calls).getLast? = some d → sys.state.lastDirection = d := by
    intro state random events hlast hcur hsys hform d hd
    have hinv : CallInv sys := by
      rw [hsys]
      exact callInv_run events _ (callInv_init state random) hform
    exact hinv.latest d hd
  by_cases h : some selectedDirection = sys.state.lastDirection
  · refine ⟨Feedback.correct, by simp [checkAttention, h], by simp [h],
      fun hne => absurd h hne, ?_, ?_⟩
    · intro state random events hlast hcur hsys d hd
      have hd2 := hstarted state random events hlast hcur hsys d hd
      rw [← hd2]
      exact ⟨by simp [h], fun hne => absurd h hne⟩
    · intro state random events hlast hcur hsys hform d hd
      have hd2 := hreach state random events hlast hcur hsys hform d hd
      rw [← hd2]
      exact ⟨by simp [h], fun hne => absurd h hne⟩
  · refine ⟨Feedback.incorrect sys.state.lastDirection, by simp [checkAttention, h],
      by simp [h], fun _ => rfl, ?_, ?_⟩
    · intro state random events hlast hcur hsys d hd
      have hd2 := hstarted state random events hlast hcur hsys d hd
      rw [← hd2]
      exact ⟨by simp [h], fun _ => rfl⟩
    · intro state random events hlast hcur hsys hform d hd
      have hd2 := hreach state random events hlast hcur hsys hform d hd
      rw [← hd2]
      exact ⟨by simp [h], fun _ => rfl⟩

/-- C17 witness: the answer up after the first trial start of a three-trial session on a
connected device. -/
theorem checkAttention_scores_witness :
    (checkAttention Direction.up
        (run (Sys.init threeTrialState (fun _ => Draw.zero)) firstTrialStart)).state =
      (run (Sys.init threeTrialState (fun _ => Draw.zero)) firstTrialStart).state ∧
    (∃ shown : Feedback,
      (checkAttention Direction.up
          (run (Sys.init threeTrialState (fun _ => Draw.zero)) firstTrialStart)).feedback =
        (run (Sys.init threeTrialState (fun _ => Draw.zero)) firstTrialStart).feedback
          ++ [shown] ∧
      ∀ d, (trialStartDirections
          (run (Sys.init threeTrialState (fun _ => Draw.zero)) firstTrialStart).calls).getLast?
            = some d →
        ((shown = Feedback.correct ↔ some Direction.up = d) ∧
          (some Direction.up ≠ d → shown = Feedback.incorrect d))) :=
  ⟨(checkAttention_scores Direction.up
      (run (Sys.init threeTrialState (fun _ => Draw.zero)) firstTrialStart)).1,
    (checkAttention_scores Direction.up
      (run (Sys.init threeTrialState (fun _ => Draw.zero)) firstTrialStart)).2.imp
      (fun _ h => ⟨h.1, h.2.2.2.2 threeTrialState (fun _ => Draw.zero) firstTrialStart
        rfl rfl rfl (by decide)⟩)⟩

end Experiment

namespace Experiment

/-! ### C24 -/

/-- C24: for every random draw r with 0 <= r < 1 and every timing configuration with
restIntervalMin <= restIntervalMax, the rest duration floor(r * (restIntervalMax -
restIntervalMin) + restIntervalMin) is an integer within [restIntervalMin,
restIntervalMax]; in the shipped configuration it lies within [1500, 2000], and this is the
duration of the rest interval that runNextTrial starts. -/
theorem restDuration_range (timings : Timings) (r : Draw)
    (h : timings.restIntervalMin ≤ timings.restIntervalMax) :
    timings.restIntervalMin ≤ restDuration timings r ∧
      restDuration timings r ≤ timings.restIntervalMax ∧
      (1500 ≤ restDuration config.timings r ∧ restDuration config.timings r ≤ 2000) ∧
      (∀ sys : Sys, sys.state.isRunning = true → sys.state.isPaused = false →
        sys.state.currentTrial + 1 ≤ sys.state.totalTrials →
        (runNextTrial sys).timeline = sys.timeline ++
          [(sys.state.currentTrial + 1, Phase.rest,
            restDuration config.timings (sys.random sys.draws))]) := by
  have hrange : ∀ t : Timings, t.restIntervalMin ≤ t.restIntervalMax →
      t.restIntervalMin ≤ restDuration t r ∧ restDuration t r ≤ t.restIntervalMax := by
    intro t ht
    have hd : (0 : ℚ) ≤ (t.restIntervalMax : ℚ) - (t.restIntervalMin : ℚ) := by
      have : (t.restIntervalMin : ℚ) ≤ (t.restIntervalMax : ℚ) := by exact_mod_cast ht
      linarith
    have h0 := r.nonneg
    have h1 := r.lt_one
    constructor
    · apply Int.le_floor.mpr
      have := mul_nonneg h0 hd
      linarith
    · apply Int.floor_le_iff.mpr
      have hle : r.val * ((t.restIntervalMax : ℚ) - (t.restIntervalMin : ℚ))
          ≤ 1 * ((t.restIntervalMax : ℚ) - (t.restIntervalMin : ℚ)) :=
        mul_le_mul_of_nonneg_right (le_of_lt h1) hd
      linarith
  refine ⟨(hrange timings h).1, (hrange timings h).2, hrange config.timings (by decide), ?_⟩
  intro sys hrun hpau hmore
  have hnot : ¬ (sys.state.currentTrial + 1 > sys.state.totalTrials) := by omega
  simp [runNextTrial, hrun, hpau, hnot]

/-- C24 witness: the shipped configuration and the draw 1/2. -/
theorem restDuration_range_witness :
    config.timings.restIntervalMin ≤ config.timings.restIntervalMax ∧
      config.timings.restIntervalMin ≤ restDuration config.timings Draw.half ∧
      restDuration config.timings Draw.half ≤ config.timings.restIntervalMax :=
  ⟨by decide, (restDuration_range config.timings Draw.half (by decide)).1,
    (restDuration_range config.timings Draw.half (by decide)).2.1⟩

/-! ### C22 -/

/-- C22 as stated is refuted: on a run that is running and paused at its last trial
(trial 3 of 3), pauseExperiment resumes by calling runNextTrial, which finds the trials
exhausted and stops the run: isRunning changes from true to false, and a second call no
longer returns isPaused to its original value true. -/
theorem pauseExperiment_resume_last_trial_stops :
    pausedLastTrial.state.isRunning = true ∧ pausedLastTrial.state.isPaused = true ∧
      (pauseExperiment pausedLastTrial).state.isRunning = false ∧
      (pauseExperiment pausedLastTrial).state.isPaused = false ∧
      (pauseExperiment (pauseExperiment pausedLastTrial)).state.isPaused = false := by
  refine ⟨rfl, rfl, by decide, by decide, by decide⟩

/-- C22 (amended): pauseExperiment changes nothing when isRunning is false; it never
changes currentMode.  When isRunning is true and isPaused false it sets isPaused and
changes nothing else.  When isRunning is true and isPaused true it clears isPaused and
calls runNextTrial: with a trial left (currentTrial < totalTrials) isRunning stays true
and currentTrial is incremented, otherwise the run is stopped (isRunning false).  Calling
it twice on a running state returns isPaused to its original value when that value is
false or a trial is left. -/
theorem pauseExperiment_effect (sys : Sys) :
    (sys.state.isRunning = false → pauseExperiment sys = sys) ∧
    (pauseExperiment sys).state.currentMode = sys.state.currentMode ∧
    (sys.state.isRunning = true → sys.state.isPaused = false →
      pauseExperiment sys = { sys with state := { sys.state with isPaused := true } }) ∧
    (sys.state.isRunning = true → sys.state.isPaused = true →
      pauseExperiment sys
        = runNextTrial { sys with state := { sys.state with isPaused := false } } ∧
      (pauseExperiment sys).state.isPaused = false ∧
      (sys.state.currentTrial + 1 ≤ sys.state.totalTrials →
        (pauseExperiment sys).state.isRunning = true ∧
        (pauseExperiment sys).state.currentTrial = sys.state.currentTrial + 1) ∧
      (sys.state.totalTrials < sys.state.currentTrial + 1 →
        (pauseExperiment sys).state.isRunning = false)) ∧
    (sys.state.isRunning = true →
      (sys.state.isPaused = false ∨ sys.state.currentTrial + 1 ≤ sys.state.totalTrials) →
      (pauseExperiment (pauseExperiment sys)).state.isPaused = sys.state.isPaused) := by
  have hmode : ∀ s : Sys, (stopExperiment s).state.currentMode = s.state.currentMode := by
    intro s
    simp only [stopExperiment]
    split
    · rfl
    · split <;> rfl
  have hnext : ∀ s : Sys, (runNextTrial s).state.currentMode = s.state.currentMode := by
    intro s
    simp only [runNextTrial]
    split
    · rfl
    · split
      · rw [hmode]
      · rfl
  have hnextp : ∀ s : Sys, s.state.isPaused = false →
      (runNextTrial s).state.isPaused = false := by
    intro s hs
    simp only [runNextTrial]
    split
    · exact hs
    · split
      · simp only [stopExperiment]
        split
        · exact hs
        · split <;> rfl
      · exact hs
  have hpauseAll : ∀ s : Sys, s.state.isRunning = true → s.state.isPaused = false →
      pauseExperiment s = { s with state := { s.state with isPaused := true } } := by
    intro s hr hp
    simp [pauseExperiment, hr, hp]
  have hpause := hpauseAll sys
  have hresume : sys.state.isRunning = true → sys.state.isPaused = true →
      pauseExperiment sys
        = runNextTrial { sys with state := { sys.state with isPaused := false } } := by
    intro hr hp
    simp [pauseExperiment, hr, hp]
  have hleft : sys.state.isRunning = true → sys.state.isPaused = true →
      sys.state.currentTrial + 1 ≤ sys.state.totalTrials →
      (pauseExperiment sys).state.isRunning = true ∧
        (pauseExperiment sys).state.isPaused = false ∧
        (pauseExperiment sys).state.currentTrial = sys.state.currentTrial + 1 := by
    intro hr hp hmore
    have hnot : ¬ (sys.state.currentTrial + 1 > sys.state.totalTrials) := by omega
    rw [hresume hr hp]
    simp [runNextTrial, hr, hnot]
  refine ⟨?_, ?_, hpause, ?_, ?_⟩
  · intro hr
    simp [pauseExperiment, hr]
  · simp only [pauseExperiment]
    split
    · rfl
    · split
      · rfl
      · rw [hnext]
  · intro hr hp
    refine ⟨hresume hr hp, ?_, fun hmore => ⟨(hleft hr hp hmore).1, (hleft hr hp hmore).2.2⟩, ?_⟩
    · rw [hresume hr hp]
      exact hnextp _ rfl
    · intro hlast
      have hgt : sys.state.currentTrial + 1 > sys.state.totalTrials := by omega
      rw [hresume hr hp]
      by_cases hc : sys.state.isConnectedToCrown = true <;>
        simp [runNextTrial, hr, hgt, stopExperiment, hc]
  · intro hr hcase
    by_cases hp : sys.state.isPaused = true
    · have hmore : sys.state.currentTrial + 1 ≤ sys.state.totalTrials := by
        rcases hcase with h | h
        · rw [hp] at h
          exact absurd h (by decide)
        · exact h
      have h1 := hleft hr hp hmore
      rw [hpauseAll (pauseExperiment sys) h1.1 h1.2.1, hp]
    · have hp2 : sys.state.isPaused = false := by simpa using hp
      rw [hpause hr hp2, hp2]
      have h3 : pauseExperiment { sys with state := { sys.state with isPaused := true } }
          = runNextTrial { sys with state := { sys.state with isPaused := false } } := by
        simp [pauseExperiment, hr]
      rw [h3]
      exact hnextp _ rfl

/-- C22 witness: on the running, unpaused run at trial 7 of 40 one call sets isPaused and
nothing else, and two calls return isPaused to false. -/
theorem pauseExperiment_effect_witness :
    runningSys.state.isRunning = true ∧ runningSys.state.isPaused = false ∧
      pauseExperiment runningSys
        = { runningSys with state := { runningSys.state with isPaused := true } } ∧
      (pauseExperiment (pauseExperiment runningSys)).state.isPaused
        = runningSys.state.isPaused :=
  ⟨rfl, rfl, (pauseExperiment_effect runningSys).2.2.1 rfl rfl,
    (pauseExperiment_effect runningSys).2.2.2.2 rfl (Or.inl rfl)⟩

/-! ### C23 -/

/-- What finishTrial adds to the phase log belongs to the next trial: nothing, or the rest
entry of the next trial. -/
theorem finishTrial_timeline (sys : Sys) :
    ∃ more, (finishTrial sys).timeline = sys.timeline ++ more ∧
      ∀ entry ∈ more, entry.1 = sys.state.currentTrial + 1 ∧ entry.2.1 = Phase.rest := by
  simp only [finishTrial]
  split
  · exact ⟨[], by simp [showAttentionCheck], by simp⟩
  · simp only [runNextTrial]
    split
    · exact ⟨[], by simp, by simp⟩
    · split
      · refine ⟨[], ?_, by simp⟩
        simp only [stopExperiment]
        split
        · simp
        · split <;> simp
      · exact ⟨[(sys.state.currentTrial + 1, Phase.rest,
          restDuration config.timings (sys.random sys.draws))], by simp, by simp⟩

/-- C23: an uninterrupted trial of the 4-direction controller (runNextTrial entered on a
run that is running, not paused and has a trial left, then only the timers and the
trial-start response of this trial) logs its phases in the strict order Rest,
Concentration, Cue, Action, Relax, Complete with waits of exactly restDuration, 500, 500,
2500 and 1000 ms, whatever the mode, the drawn direction, the connection and the outcome
of the trial-start request; restDuration lies within [1500, 2000]; anything logged after
Complete is the rest entry of the next trial. -/
theorem uninterrupted_trial_phases (sys : Sys) (startOutcome : Outcome)
    (hrun : sys.state.isRunning = true) (hpau : sys.state.isPaused = false)
    (hmore : sys.state.currentTrial + 1 ≤ sys.state.totalTrials) :
    (∃ more,
      (run (runNextTrial sys)
        (trialPhaseEvents sys.state.isConnectedToCrown startOutcome)).timeline
        = sys.timeline ++
            [(sys.state.currentTrial + 1, Phase.rest,
                restDuration config.timings (sys.random sys.draws)),
              (sys.state.currentTrial + 1, Phase.concentration, 500),
              (sys.state.currentTrial + 1, Phase.cue, 500),
              (sys.state.currentTrial + 1, Phase.action, 2500),
              (sys.state.currentTrial + 1, Phase.relax, 1000),
              (sys.state.currentTrial + 1, Phase.complete, 0)] ++ more ∧
      ∀ entry ∈ more, entry.1 = sys.state.currentTrial + 2 ∧ entry.2.1 = Phase.rest) ∧
    1500 ≤ restDuration config.timings (sys.random sys.draws) ∧
    restDuration config.timings (sys.random sys.draws) ≤ 2000 := by
  have hnot : ¬ (sys.state.currentTrial + 1 > sys.state.totalTrials) := by omega
  have hrange : ∀ r : Draw, 1500 ≤ restDuration config.timings r ∧
      restDuration config.timings r ≤ 2000 := by
    intro r
    have h0 := r.nonneg
    have h1 := r.lt_one
    constructor
    · apply Int.le_floor.mpr
      simp only [config.timings]
      push_cast
      linarith
    · apply Int.floor_le_iff.mpr
      simp only [config.timings]
      push_cast
      linarith
  refine ⟨?_, hrange _⟩
  by_cases hconn : sys.state.isConnectedToCrown = true
  · refine ⟨[], ?_, by simp⟩
    simp [trialPhaseEvents, hconn, run, step, resume, runNextTrial, enterConcentration,
      hrun, hpau, hnot, config.timings]
  · have hoff : sys.state.isConnectedToCrown = false := by simpa using hconn
    have hev : trialPhaseEvents sys.state.isConnectedToCrown startOutcome
        = [Event.wake Cont.rest Outcome.ok, Event.wake Cont.concentration Outcome.ok,
            Event.wake Cont.cue Outcome.ok, Event.wake Cont.action Outcome.ok]
          ++ [Event.wake Cont.relax Outcome.ok] := by
      simp [trialPhaseEvents, hoff]
    rw [hev, run_append]
    have h4 : ∀ s4 : Sys, s4 = run (runNextTrial sys)
        [Event.wake Cont.rest Outcome.ok, Event.wake Cont.concentration Outcome.ok,
          Event.wake Cont.cue Outcome.ok, Event.wake Cont.action Outcome.ok] →
        s4.state.isRunning = true ∧ s4.state.isPaused = false ∧
          s4.state.isConnectedToCrown = false ∧
          s4.state.currentTrial = sys.state.currentTrial + 1 ∧ Cont.relax ∈ s4.pending ∧
          s4.timeline = sys.timeline ++
            [(sys.state.currentTrial + 1, Phase.rest,
                restDuration config.timings (sys.random sys.draws)),
              (sys.state.currentTrial + 1, Phase.concentration, 500),
              (sys.state.currentTrial + 1, Phase.cue, 500),
              (sys.state.currentTrial + 1, Phase.action, 2500),
              (sys.state.currentTrial + 1, Phase.relax, 1000)] := by
      intro s4 hs4
      rw [hs4]
      simp [run, step, resume, runNextTrial, enterConcentration, hrun, hpau, hnot, hoff,
        config.timings]
    generalize hs4 : run (runNextTrial sys)
        [Event.wake Cont.rest Outcome.ok, Event.wake Cont.concentration Outcome.ok,
          Event.wake Cont.cue Outcome.ok, Event.wake Cont.action Outcome.ok] = s4
    obtain ⟨r4, p4, c4, t4, m4, l4⟩ := h4 s4 hs4.symm
    simp only [run_cons, run_nil]
    rw [step_wake_of_mem _ Cont.relax Outcome.ok m4 (by simp)]
    simp only [resume, r4, p4, c4]
    simp only [Bool.not_true, Bool.or_self, Bool.false_eq_true, if_false]
    obtain ⟨more, hmore1, hmore2⟩ := finishTrial_timeline
      { s4 with pending := s4.pending.erase Cont.relax,
                timeline := s4.timeline ++ [(s4.state.currentTrial, Phase.complete, 0)] }
    refine ⟨more, ?_, ?_⟩
    · rw [hmore1]
      simp only [l4, t4]
      simp
    · intro entry hentry
      have h := hmore2 entry hentry
      simp only [t4] at h
      refine ⟨?_, h.2⟩
      rw [h.1]
      ring

/-- C23 witness: trial 2 of a run without a device in pronounced mode. -/
theorem uninterrupted_trial_phases_witness :
    offlineRunning.state.isRunning = true ∧ offlineRunning.state.isPaused = false ∧
      offlineRunning.state.currentTrial + 1 ≤ offlineRunning.state.totalTrials ∧
      1500 ≤ restDuration config.timings (offlineRunning.random offlineRunning.draws) ∧
      restDuration config.timings (offlineRunning.random offlineRunning.draws) ≤ 2000 ∧
      ∃ more,
        (run (runNextTrial offlineRunning)
          (trialPhaseEvents offlineRunning.state.isConnectedToCrown Outcome.ok)).timeline
          = offlineRunning.timeline ++
              [(offlineRunning.state.currentTrial + 1, Phase.rest,
                  restDuration config.timings (offlineRunning.random offlineRunning.draws)),
                (offlineRunning.state.currentTrial + 1, Phase.concentration, 500),
                (offlineRunning.state.currentTrial + 1, Phase.cue, 500),
                (offlineRunning.state.currentTrial + 1, Phase.action, 2500),
                (offlineRunning.state.currentTrial + 1, Phase.relax, 1000),
                (offlineRunning.state.currentTrial + 1, Phase.complete, 0)] ++ more ∧
        ∀ entry ∈ more,
          entry.1 = offlineRunning.state.currentTrial + 2 ∧ entry.2.1 = Phase.rest :=
  ⟨rfl, rfl, by decide,
    (uninterrupted_trial_phases offlineRunning Outcome.ok rfl rfl (by decide)).2.1,
    (uninterrupted_trial_phases offlineRunning Outcome.ok rfl rfl (by decide)).2.2,
    (uninterrupted_trial_phases offlineRunning Outcome.ok rfl rfl (by decide)).1⟩

/-! ### C29 -/

theorem inFlight_append (l : List Cont) (c : Cont) :
    inFlight (l ++ [c]) = inFlight l + (if c.inTrial then 1 else 0) := by
  unfold inFlight
  rw [List.countP_append]
  cases c <;> simp [Cont.inTrial]

theorem inFlight_erase (l : List Cont) (c : Cont) (hmem : c ∈ l) :
    inFlight (l.erase c) + (if c.inTrial then 1 else 0) = inFlight l := by
  unfold inFlight
  induction l with
  | nil => simp at hmem
  | cons a l ih =>
    by_cases hac : a = c
    · subst hac
      rw [List.erase_cons_head, List.countP_cons]
    · have hmem2 : c ∈ l := by
        rcases List.mem_cons.mp hmem with h | h
        · exact absurd h.symm hac
        · exact h
      have hbeq : ¬ (a == c) = true := by simpa using hac
      rw [List.erase_cons_tail hbeq, List.countP_cons, List.countP_cons]
      have := ih hmem2
      omega

theorem completedTrials_append (l : List (Int × Phase × Int)) (entry : Int × Phase × Int) :
    completedTrials (l ++ [entry])
      = completedTrials l + (if entry.2.1 = Phase.complete then 1 else 0) := by
  unfold completedTrials
  rw [List.countP_append]
  simp [List.countP_cons]

theorem enteredTrials_append (l : List (Int × Phase × Int)) (entry : Int × Phase × Int) :
    enteredTrials (l ++ [entry])
      = enteredTrials l + (if entry.2.1 = Phase.rest then 1 else 0) := by
  unfold enteredTrials
  rw [List.countP_append]
  simp [List.countP_cons]

theorem Opens.unchanged (sys : Sys) : Opens sys sys :=
  ⟨rfl, rfl, Or.inl ⟨rfl, rfl, le_refl _⟩⟩

/-- A change of fields that the bookkeeping does not look at. -/
theorem Opens.of_same {sys sys2 : Sys} (htl : sys2.timeline = sys.timeline)
    (hpend : inFlight sys2.pending = inFlight sys.pending)
    (htot : sys2.state.totalTrials = sys.state.totalTrials)
    (htrial : sys2.state.currentTrial = sys.state.currentTrial) : Opens sys sys2 :=
  ⟨by rw [htl], htot, Or.inl ⟨by rw [htl], hpend, by rw [htrial]⟩⟩

/-- A change that the bookkeeping does not look at, followed by a call that enters at
most one trial. -/
theorem Opens.after_same {sys sys2 sys3 : Sys} (htl : sys2.timeline = sys.timeline)
    (hpend : inFlight sys2.pending = inFlight sys.pending)
    (htot : sys2.state.totalTrials = sys.state.totalTrials)
    (htrial : sys2.state.currentTrial = sys.state.currentTrial) (h : Opens sys2 sys3) :
    Opens sys sys3 := by
  obtain ⟨h1, h2, h3⟩ := h
  refine ⟨by rw [h1, htl], by rw [h2, htot], ?_⟩
  rcases h3 with ⟨a, b, c⟩ | ⟨a, b, c, d⟩
  · exact Or.inl ⟨by rw [a, htl], by rw [b, hpend], by rw [← htrial]; exact c⟩
  · exact Or.inr ⟨by rw [a, htl], by rw [b, hpend], by rw [c, htrial], d⟩

theorem opens_stopExperiment (sys : Sys) : Opens sys (stopExperiment sys) := by
  simp only [stopExperiment]
  split
  · exact Opens.unchanged sys
  · split
    · exact Opens.of_same rfl (by simp [inFlight_append, Cont.inTrial]) rfl rfl
    · exact Opens.of_same rfl rfl rfl rfl

theorem opens_runNextTrial (sys : Sys) : Opens sys (runNextTrial sys) := by
  simp only [runNextTrial]
  split
  · exact Opens.unchanged sys
  · split
    · have h := opens_stopExperiment
        { sys with state := { sys.state with currentTrial := sys.state.currentTrial + 1 } }
      obtain ⟨h1, h2, h3⟩ := h
      refine ⟨h1, h2, Or.inl ?_⟩
      rcases h3 with ⟨a, b, c⟩ | ⟨a, b, c, d⟩
      · refine ⟨a, b, le_trans ?_ c⟩
        show sys.state.currentTrial ≤ sys.state.currentTrial + 1
        omega
      · exfalso
        simp only [stopExperiment] at a
        split at a
        · simp at a
        · split at a <;> simp at a
    · rename_i hgt
      refine ⟨?_, rfl, Or.inr ⟨?_, ?_, rfl, ?_⟩⟩
      · simp [completedTrials_append]
      · simp [enteredTrials_append]
      · simp [inFlight_append, Cont.inTrial]
      · show sys.state.currentTrial + 1 ≤ sys.state.totalTrials
        simp only [gt_iff_lt, not_lt] at hgt
        exact hgt

theorem opens_showAttentionCheck (sys : Sys) : Opens sys (showAttentionCheck sys) :=
  Opens.of_same rfl (by simp [showAttentionCheck, inFlight_append, Cont.inTrial]) rfl rfl

theorem opens_finishTrial (sys : Sys) : Opens sys (finishTrial sys) := by
  simp only [finishTrial]
  split
  · exact opens_showAttentionCheck sys
  · exact opens_runNextTrial sys

theorem opens_pauseExperiment (sys : Sys) : Opens sys (pauseExperiment sys) := by
  simp only [pauseExperiment]
  split
  · exact Opens.unchanged sys
  · split
    · exact Opens.of_same rfl rfl rfl rfl
    · exact Opens.after_same rfl rfl rfl rfl (opens_runNextTrial _)

theorem opens_setMode (mode : Mode) (sys : Sys) : Opens sys (setMode mode sys) := by
  simp only [setMode]
  split
  · exact Opens.unchanged sys
  · exact Opens.of_same rfl rfl rfl rfl

theorem opens_checkAttention (d : Direction) (sys : Sys) : Opens sys (checkAttention d sys) :=
  Opens.of_same rfl (by simp [checkAttention, inFlight_append, Cont.inTrial]) rfl rfl

/-- A call that enters at most one trial keeps the bookkeeping. -/
theorem Tally.of_opens {sys sys2 : Sys} {a : Nat} (h : Tally sys a) (ho : Opens sys sys2) :
    Tally sys2 a := by
  obtain ⟨t1, t2, t3⟩ := h
  obtain ⟨o1, o2, o3⟩ := ho
  unfold Tally
  rcases o3 with ⟨a1, b1, c1⟩ | ⟨a1, b1, c1, d1⟩
  · rw [o1, o2, a1, b1]
    exact ⟨t1, le_trans t2 c1, t3⟩
  · rw [o1, a1, b1]
    refine ⟨by omega, ?_, ?_⟩
    · rw [c1]
      push_cast
      omega
    · push_cast
      rw [c1] at d1
      omega

theorem inFlight_erase_other (l : List Cont) (c : Cont) (hc : c.inTrial = false) :
    inFlight (l.erase c) = inFlight l := by
  by_cases hmem : c ∈ l
  · have h := inFlight_erase l c hmem
    rw [hc] at h
    simpa using h
  · rw [List.erase_of_not_mem hmem]

/-- An activation resumed at a phase boundary: it returns when the run is paused or not
running (one trial fewer in progress, one more aborted if paused), otherwise `next` is
the continuation. -/
theorem tally_boundary (sys : Sys) (c : Cont) (a : Nat) (next : Sys) (h : Tally sys a)
    (hmem : c ∈ sys.pending) (hin : c.inTrial = true)
    (hnext : sys.state.isPaused = false →
      Tally next a) :
    Tally (if (!sys.state.isRunning || sys.state.isPaused) = true then
        { sys with pending := sys.pending.erase c } else next)
      (a + (if sys.state.isPaused = true then 1 else 0)) := by
  have hE := inFlight_erase sys.pending c hmem
  rw [hin] at hE
  simp only [if_true] at hE
  split
  · obtain ⟨t1, t2, t3⟩ := h
    refine ⟨?_, t2, t3⟩
    show completedTrials sys.timeline + (a + (if sys.state.isPaused = true then 1 else 0))
      + inFlight (sys.pending.erase c) ≤ enteredTrials sys.timeline
    split <;> omega
  · rename_i hg
    have hp : sys.state.isPaused = false := by
      cases hpp : sys.state.isPaused
      · rfl
      · rw [hpp] at hg
        simp at hg
    rw [hp]
    simpa using hnext hp

/-- A click on a mode button enters no trial, whether the button is disabled or not. -/
theorem opens_step_setMode (mode : Mode) (sys : Sys) :
    Opens sys (step sys (Event.setMode mode)) := by
  simp only [step]
  split
  · exact Opens.unchanged sys
  · exact opens_setMode mode sys

/-- The events of the connection form enter no trial. -/
theorem opens_step_connectForm (sys : Sys) (e : Event) (hform : e.usesConnectForm = true) :
    Opens sys (step sys e) := by
  cases e with
  | clickConfirmConnect complete =>
    simp only [step, connectToCrown]
    split
    · split
      · exact Opens.of_same rfl rfl rfl rfl
      · split
        · exact Opens.unchanged sys
        · exact Opens.of_same rfl rfl rfl rfl
    · exact Opens.unchanged sys
  | connectResponse o =>
    simp only [step, connectToCrownResponse]
    split
    · split
      · exact Opens.of_same rfl rfl rfl rfl
      · exact Opens.of_same rfl rfl rfl rfl
    · exact Opens.unchanged sys
  | connectTimer =>
    simp only [step]
    split
    · exact Opens.of_same rfl rfl rfl rfl
    · exact Opens.unchanged sys
  | setMode mode => simp [Event.usesConnectForm] at hform
  | clickStart now checks => simp [Event.usesConnectForm] at hform
  | clickPause => simp [Event.usesConnectForm] at hform
  | clickStop => simp [Event.usesConnectForm] at hform
  | answer d => simp [Event.usesConnectForm] at hform
  | wake c o => simp [Event.usesConnectForm] at hform

/-- The bookkeeping is kept by every event other than a click on Start; an event that
aborts a trial by a pause adds one to the aborted trials. -/
theorem tally_step (sys : Sys) (e : Event) (a : Nat) (h : Tally sys a)
    (he : e.notStart = true) :
    Tally (step sys e) (a + (if abortsAt sys e = true then 1 else 0)) := by
  cases e with
  | setMode mode => exact h.of_opens (opens_step_setMode mode sys)
  | clickConfirmConnect complete => exact h.of_opens (opens_step_connectForm sys _ rfl)
  | connectResponse o => exact h.of_opens (opens_step_connectForm sys _ rfl)
  | connectTimer => exact h.of_opens (opens_step_connectForm sys _ rfl)
  | clickStart now checks => simp [Event.notStart] at he
  | clickPause => exact h.of_opens (opens_pauseExperiment sys)
  | clickStop => exact h.of_opens (opens_stopExperiment sys)
  | answer d => exact h.of_opens (opens_checkAttention d sys)
  | wake c o =>
    by_cases hg : c ∈ sys.pending ∧ c ≠ Cont.attentionCheck
    · rw [step_wake_of_mem sys c o hg.1 hg.2]
      have hE := inFlight_erase sys.pending c hg.1
      have herase : ∀ a2 : Nat, c.inTrial = false → a2 = a →
          Tally { sys with pending := sys.pending.erase c } a2 := by
        intro a2 hc ha
        rw [hc] at hE
        obtain ⟨t1, t2, t3⟩ := h
        refine ⟨?_, t2, t3⟩
        show completedTrials sys.timeline + a2 + inFlight (sys.pending.erase c)
          ≤ enteredTrials sys.timeline
        simp at hE
        omega
      obtain ⟨t1, t2, t3⟩ := h
      cases c with
      | sessionStartFetch =>
        have h0 := herase a rfl rfl
        simp only [abortsAt, Cont.isPhaseBoundary, Bool.false_and, Bool.false_eq_true, if_false,
          Nat.add_zero, resume]
        split
        · exact h0.of_opens (Opens.of_same rfl (by simp [inFlight_append, Cont.inTrial])
            rfl rfl)
        · exact h0.of_opens (opens_stopExperiment _)
      | announce =>
        have h0 := herase a rfl rfl
        simp only [abortsAt, Cont.isPhaseBoundary, Bool.false_and, Bool.false_eq_true, if_false,
          Nat.add_zero, resume]
        exact h0.of_opens (opens_runNextTrial _)
      | rest =>
        have hab : abortsAt sys (Event.wake Cont.rest o) = sys.state.isPaused := by
          simp [abortsAt, Cont.isPhaseBoundary, hg.1]
        rw [hab]
        simp only [resume]
        apply tally_boundary sys Cont.rest a _ ⟨t1, t2, t3⟩ hg.1 rfl
        intro hp
        simp only [Cont.inTrial, if_true] at hE
        split
        · refine ⟨?_, ?_, ?_⟩ <;>
          simp [enterConcentration, inFlight_append, Cont.inTrial, completedTrials_append,
            enteredTrials_append] <;>
          omega
        · refine ⟨?_, ?_, ?_⟩ <;>
          simp [enterConcentration, inFlight_append, Cont.inTrial, completedTrials_append,
            enteredTrials_append] <;>
          omega
      | trialStartFetch =>
        simp only [abortsAt, Cont.isPhaseBoundary, Bool.false_and, Bool.false_eq_true, if_false,
          Nat.add_zero, resume]
        simp only [Cont.inTrial, if_true] at hE
        refine ⟨?_, ?_, ?_⟩ <;>
        simp [enterConcentration, inFlight_append, Cont.inTrial, completedTrials_append,
          enteredTrials_append] <;>
        omega
      | concentration =>
        have hab : abortsAt sys (Event.wake Cont.concentration o) = sys.state.isPaused := by
          simp [abortsAt, Cont.isPhaseBoundary, hg.1]
        rw [hab]
        simp only [resume]
        apply tally_boundary sys Cont.concentration a _ ⟨t1, t2, t3⟩ hg.1 rfl
        intro hp
        simp only [Cont.inTrial, if_true] at hE
        refine ⟨?_, ?_, ?_⟩ <;>
        simp [enterConcentration, inFlight_append, Cont.inTrial, completedTrials_append,
          enteredTrials_append] <;>
        omega
      | cue =>
        have hab : abortsAt sys (Event.wake Cont.cue o) = sys.state.isPaused := by
          simp [abortsAt, Cont.isPhaseBoundary, hg.1]
        rw [hab]
        simp only [resume]
        apply tally_boundary sys Cont.cue a _ ⟨t1, t2, t3⟩ hg.1 rfl
        intro hp
        simp only [Cont.inTrial, if_true] at hE
        refine ⟨?_, ?_, ?_⟩ <;>
        simp [enterConcentration, inFlight_append, Cont.inTrial, completedTrials_append,
          enteredTrials_append] <;>
        omega
      | action =>
        have hab : abortsAt sys (Event.wake Cont.action o) = sys.state.isPaused := by
          simp [abortsAt, Cont.isPhaseBoundary, hg.1]
        rw [hab]
        simp only [resume]
        apply tally_boundary sys Cont.action a _ ⟨t1, t2, t3⟩ hg.1 rfl
        intro hp
        simp only [Cont.inTrial, if_true] at hE
        refine ⟨?_, ?_, ?_⟩ <;>
        simp [enterConcentration, inFlight_append, Cont.inTrial, completedTrials_append,
          enteredTrials_append] <;>
        omega
      | relax =>
        have hab : abortsAt sys (Event.wake Cont.relax o) = sys.state.isPaused := by
          simp [abortsAt, Cont.isPhaseBoundary, hg.1]
        rw [hab]
        simp only [resume]
        apply tally_boundary sys Cont.relax a _ ⟨t1, t2, t3⟩ hg.1 rfl
        intro hp
        simp only [Cont.inTrial, if_true] at hE
        have hdone : Tally { sys with
            pending := sys.pending.erase Cont.relax,
            timeline := sys.timeline ++ [(sys.state.currentTrial, Phase.complete, 0)] } a := by
          refine ⟨?_, ?_, ?_⟩
          · simp only [completedTrials_append, enteredTrials_append]
            simp
            omega
          · simp only [enteredTrials_append]
            simpa using t2
          · simp only [enteredTrials_append]
            simpa using t3
        split
        · exact hdone.of_opens (Opens.of_same rfl (by simp [inFlight_append, Cont.inTrial])
            rfl rfl)
        · exact hdone.of_opens (opens_finishTrial _)
      | trialEndFetch =>
        have h0 := herase a rfl rfl
        simp only [abortsAt, Cont.isPhaseBoundary, Bool.false_and, Bool.false_eq_true, if_false,
          Nat.add_zero, resume]
        exact h0.of_opens (opens_finishTrial _)
      | attentionCheck => exact absurd rfl hg.2
      | feedbackDelay =>
        have h0 := herase a rfl rfl
        simp only [abortsAt, Cont.isPhaseBoundary, Bool.false_and, Bool.false_eq_true, if_false,
          Nat.add_zero, resume]
        exact h0.of_opens (Opens.of_same rfl (by simp [inFlight_append, Cont.inTrial])
          rfl rfl)
      | fadeOut =>
        have h0 := herase a rfl rfl
        simp only [abortsAt, Cont.isPhaseBoundary, Bool.false_and, Bool.false_eq_true, if_false,
          Nat.add_zero, resume]
        split
        · simp only [resumeAttentionCheck]
          have hX : Tally
              { sys with
                state := { sys.state with isPaused := false },
                pending := (sys.pending.erase Cont.fadeOut).erase Cont.attentionCheck,
                attentionCheckResolve := false } a :=
            h0.of_opens (Opens.of_same rfl
              (inFlight_erase_other (sys.pending.erase Cont.fadeOut) Cont.attentionCheck rfl)
              rfl rfl)
          exact hX.of_opens (opens_runNextTrial _)
        · exact h0.of_opens (Opens.of_same rfl rfl rfl rfl)
      | sessionEndFetch =>
        have h0 := herase a rfl rfl
        simp only [abortsAt, Cont.isPhaseBoundary, Bool.false_and, Bool.false_eq_true, if_false,
          Nat.add_zero, resume]
        exact h0
    · have hstep : step sys (Event.wake c o) = sys := by simp only [step, if_neg hg]
      have hab : abortsAt sys (Event.wake c o) = false := by
        by_cases hmem : c ∈ sys.pending
        · have hc : c = Cont.attentionCheck := by
            by_contra hne
            exact hg ⟨hmem, hne⟩
          subst hc
          simp [abortsAt, Cont.isPhaseBoundary]
        · simp [abortsAt, hmem]
      rw [hstep, hab]
      simpa using h

theorem tally_run :
    ∀ (events : List Event) (sys : Sys) (a : Nat), Tally sys a →
      (∀ e ∈ events, e.notStart = true) →
      Tally (run sys events) (a + abortedByPause sys events) := by
  intro events
  induction events with
  | nil => intro sys a h _; exact h
  | cons e events ih =>
    intro sys a h he
    have h1 := tally_step sys e a h (he e (List.mem_cons_self e events))
    have h2 := ih (step sys e) _ h1 (fun e2 he2 => he e2 (List.mem_cons_of_mem e he2))
    rw [run_cons]
    simp only [abortedByPause]
    rw [← Nat.add_assoc]
    exact h2

/-- No event changes the number of trials per session. -/
theorem step_totalTrials (sys : Sys) (e : Event) :
    (step sys e).state.totalTrials = sys.state.totalTrials := by
  cases e with
  | setMode mode => exact (opens_step_setMode mode sys).2.1
  | clickConfirmConnect complete =>
    exact (opens_step_connectForm sys (Event.clickConfirmConnect complete) rfl).2.1
  | connectResponse o => exact (opens_step_connectForm sys (Event.connectResponse o) rfl).2.1
  | connectTimer => exact (opens_step_connectForm sys Event.connectTimer rfl).2.1
  | clickStart now checks =>
    simp only [step, startExperiment]
    split
    · rfl
    · split
      · rfl
      · split
        · rfl
        · split <;> rfl
  | clickPause => exact (opens_pauseExperiment sys).2.1
  | clickStop => exact (opens_stopExperiment sys).2.1
  | answer d => rfl
  | wake c o =>
    by_cases hg : c ∈ sys.pending ∧ c ≠ Cont.attentionCheck
    · rw [step_wake_of_mem sys c o hg.1 hg.2]
      cases c with
      | sessionStartFetch =>
        simp only [resume]
        split
        · rfl
        · exact (opens_stopExperiment _).2.1
      | announce => exact (opens_runNextTrial _).2.1
      | rest =>
        simp only [resume]
        split
        · rfl
        · split <;> rfl
      | trialStartFetch => rfl
      | concentration =>
        simp only [resume]
        split <;> rfl
      | cue =>
        simp only [resume]
        split <;> rfl
      | action =>
        simp only [resume]
        split <;> rfl
      | relax =>
        simp only [resume]
        split
        · rfl
        · split
          · rfl
          · exact (opens_finishTrial _).2.1
      | trialEndFetch => exact (opens_finishTrial _).2.1
      | attentionCheck => exact (opens_runNextTrial _).2.1
      | feedbackDelay => rfl
      | fadeOut =>
        simp only [resume]
        split
        · exact (opens_runNextTrial _).2.1
        · rfl
      | sessionEndFetch => rfl
    · have hstep : step sys (Event.wake c o) = sys := by simp only [step, if_neg hg]
      rw [hstep]

theorem run_totalTrials (events : List Event) (sys : Sys) :
    (run sys events).state.totalTrials = sys.state.totalTrials := by
  induction events generalizing sys with
  | nil => rfl
  | cons e events ih => rw [run_cons, ih, step_totalTrials]

/-- A click on Pause on a running, unpaused run sets isPaused and nothing else. -/
theorem step_clickPause_pauses (sys : Sys) (hrun : sys.state.isRunning = true)
    (hpau : sys.state.isPaused = false) :
    step sys Event.clickPause = { sys with state := { sys.state with isPaused := true } } := by
  simp [step, pauseExperiment, hrun, hpau]

/-- A click on Pause on a running, paused run clears isPaused and calls runNextTrial. -/
theorem step_clickPause_resumes (sys : Sys) (hrun : sys.state.isRunning = true)
    (hpau : sys.state.isPaused = true) :
    step sys Event.clickPause
      = runNextTrial { sys with state := { sys.state with isPaused := false } } := by
  simp [step, pauseExperiment, hrun, hpau]

/-- An activation resumed at a phase boundary while the run is paused returns at once. -/
theorem step_boundary_paused (sys : Sys) (c : Cont) (o : Outcome)
    (hc : c.isPhaseBoundary = true) (hmem : c ∈ sys.pending)
    (hpau : sys.state.isPaused = true) :
    step sys (Event.wake c o) = { sys with pending := sys.pending.erase c } := by
  have hne : c ≠ Cont.attentionCheck := by
    intro h
    subst h
    simp [Cont.isPhaseBoundary] at hc
  rw [step_wake_of_mem sys c o hmem hne]
  cases c <;> simp [Cont.isPhaseBoundary] at hc <;> simp [resume, hpau]

/-- C29: a trial aborted by a pause is never re-run.  If a running, unpaused run is paused
while an activation of runNextTrial is suspended in trial k (in its rest, concentration,
cue, action or relax interval) and the pause is still in force when the interval ends,
the activation ends there: no phase entry, no device call, so no endTrial for trial k.
After resume the trial counter is k+1 and, on a connected device, the next call is
startTrial(k+1); when trial k was the last one, resume stops the run.  In every session
(one click on Start on a page with a mode selected and totalTrials >= 0, then any events
without a further click on Start) the number of completed trials plus the number of
trials aborted by a pause is at most totalTrials. -/
theorem aborted_trial_not_rerun (sys : Sys) (c : Cont) (o o2 : Outcome)
    (hc : c.isPhaseBoundary = true) (hmem : c ∈ sys.pending)
    (hrun : sys.state.isRunning = true) (hpau : sys.state.isPaused = false) :
    (run sys [Event.clickPause, Event.wake c o]
        = { sys with state := { sys.state with isPaused := true },
                     pending := sys.pending.erase c }) ∧
      (run sys [Event.clickPause, Event.wake c o]).calls = sys.calls ∧
      (run sys [Event.clickPause, Event.wake c o]).timeline = sys.timeline ∧
      abortedByPause sys [Event.clickPause, Event.wake c o] = 1 ∧
      (sys.state.currentTrial + 1 ≤ sys.state.totalTrials →
        (run sys [Event.clickPause, Event.wake c o, Event.clickPause]).state.currentTrial
          = sys.state.currentTrial + 1 ∧
        (run sys [Event.clickPause, Event.wake c o, Event.clickPause]).state.isRunning
          = true ∧
        (run sys [Event.clickPause, Event.wake c o, Event.clickPause]).calls = sys.calls ∧
        (sys.state.isConnectedToCrown = true →
          ∃ d, (run sys [Event.clickPause, Event.wake c o, Event.clickPause,
              Event.wake Cont.rest o2]).calls
            = sys.calls ++ [DeviceCall.startTrial (sys.state.currentTrial + 1) (some d)
                sys.state.currentMode])) ∧
      (sys.state.totalTrials < sys.state.currentTrial + 1 →
        (run sys [Event.clickPause, Event.wake c o, Event.clickPause]).state.isRunning
          = false ∧
        (run sys [Event.clickPause, Event.wake c o, Event.clickPause]).timeline
          = sys.timeline) ∧
      (∀ (state : State) (random : Nat → Draw) (now : Int) (checks : List Int)
          (events : List Event),
        state.currentMode ≠ none → state.isPaused = false → 0 ≤ state.totalTrials →
        (∀ e ∈ events, e.notStart = true) →
        ((completedTrials (run (Sys.init state random)
              (Event.clickStart now checks :: events)).timeline : Int)
            + (abortedByPause (step (Sys.init state random) (Event.clickStart now checks))
                events : Int)
          ≤ state.totalTrials)) := by
  have h1 := step_clickPause_pauses sys hrun hpau
  have h2 : step (step sys Event.clickPause) (Event.wake c o)
      = { sys with state := { sys.state with isPaused := true },
                   pending := sys.pending.erase c } := by
    rw [h1]
    exact step_boundary_paused _ c o hc hmem rfl
  have h3 : step (step (step sys Event.clickPause) (Event.wake c o)) Event.clickPause
      = runNextTrial { sys with pending := sys.pending.erase c } := by
    rw [h2]
    have hres := step_clickPause_resumes
      { sys with state := { sys.state with isPaused := true },
                 pending := sys.pending.erase c } hrun rfl
    rw [hres]
    have hs : ({ sys.state with isPaused := false } : State) = sys.state := by
      rw [← hpau]
    have hsys : ({ sys with state := { sys.state with isPaused := false },
                            pending := sys.pending.erase c } : Sys)
        = { sys with pending := sys.pending.erase c } := by
      rw [hs]
    exact congrArg runNextTrial hsys
  have hab : abortedByPause sys [Event.clickPause, Event.wake c o] = 1 := by
    simp only [abortedByPause, abortsAt, h1, hc, hmem]
    simp
  refine ⟨?_, ?_, ?_, hab, ?_, ?_, ?_⟩
  · simp only [run_cons, run_nil]
    exact h2
  · simp only [run_cons, run_nil]
    rw [h2]
  · simp only [run_cons, run_nil]
    rw [h2]
  · intro hmore
    have hnot : ¬ (sys.state.currentTrial + 1 > sys.state.totalTrials) := by omega
    have h3b : step (step (step sys Event.clickPause) (Event.wake c o)) Event.clickPause
        = { sys with
            state := { sys.state with currentTrial := sys.state.currentTrial + 1 },
            draws := sys.draws + 1,
            timeline := sys.timeline ++ [(sys.state.currentTrial + 1, Phase.rest,
              restDuration config.timings (sys.random sys.draws))],
            pending := sys.pending.erase c ++ [Cont.rest] } := by
      rw [h3]
      simp [runNextTrial, hrun, hpau, hnot]
    simp only [run_cons, run_nil]
    refine ⟨by rw [h3b], by rw [h3b]; exact hrun, by rw [h3b], ?_⟩
    intro hconn
    obtain ⟨d, hd⟩ := direction_drawn (sys.random (sys.draws + 1))
    refine ⟨d, ?_⟩
    rw [h3b, step_wake_of_mem _ Cont.rest o2 (by simp) (by simp)]
    simp [resume, hrun, hpau, hconn, hd]
  · intro hlast
    have hgt : sys.state.currentTrial + 1 > sys.state.totalTrials := by omega
    simp only [run_cons, run_nil]
    rw [h3]
    by_cases hconn : sys.state.isConnectedToCrown = true <;>
      simp [runNextTrial, stopExperiment, hrun, hpau, hgt, hconn]
  · intro state random now checks events hmode hp htot hev
    have hstart : Tally (step (Sys.init state random) (Event.clickStart now checks)) 0 := by
      by_cases hconn : state.isConnectedToCrown = true <;>
        simp [Tally, step, startExperiment, Sys.init, hmode, hp, hconn, completedTrials,
          enteredTrials, inFlight, htot, Cont.inTrial]
    have hfinal := tally_run events _ 0 hstart hev
    have htotal : (run (step (Sys.init state random) (Event.clickStart now checks))
        events).state.totalTrials = state.totalTrials := by
      rw [run_totalTrials]
      by_cases hconn : state.isConnectedToCrown = true <;>
        simp [step, startExperiment, Sys.init, hmode, hp, hconn]
    rw [run_cons]
    obtain ⟨t1, t2, t3⟩ := hfinal
    rw [htotal] at t3
    omega

/-- C29 witness: a pause during the action interval of trial 5 that outlasts the
interval: after resume the counter is 6 and the next call is startTrial(6), trial 5 having
received no endTrial.  In a three-trial session with one such pause during trial 1, two
trials are completed and one is aborted. -/
theorem aborted_trial_not_rerun_witness :
    Cont.action ∈ trialFiveAction.pending ∧ trialFiveAction.state.currentTrial = 5 ∧
      (run trialFiveAction [Event.clickPause, Event.wake Cont.action Outcome.ok,
        Event.clickPause]).state.currentTrial = trialFiveAction.state.currentTrial + 1 ∧
      (∃ d, (run trialFiveAction [Event.clickPause, Event.wake Cont.action Outcome.ok,
          Event.clickPause, Event.wake Cont.rest Outcome.ok]).calls
        = trialFiveAction.calls ++
            [DeviceCall.startTrial (trialFiveAction.state.currentTrial + 1) (some d)
              trialFiveAction.state.currentMode]) ∧
      completedTrials (run (Sys.init offlineThreeTrials (fun _ => Draw.zero))
        (Event.clickStart 0 [] :: pausedSessionEvents)).timeline = 2 ∧
      abortedByPause (step (Sys.init offlineThreeTrials (fun _ => Draw.zero))
        (Event.clickStart 0 [])) pausedSessionEvents = 1 ∧
      ((completedTrials (run (Sys.init offlineThreeTrials (fun _ => Draw.zero))
            (Event.clickStart 0 [] :: pausedSessionEvents)).timeline : Int)
          + (abortedByPause (step (Sys.init offlineThreeTrials (fun _ => Draw.zero))
              (Event.clickStart 0 [])) pausedSessionEvents : Int)
        ≤ offlineThreeTrials.totalTrials) :=
  ⟨by decide, rfl,
    ((aborted_trial_not_rerun trialFiveAction Cont.action Outcome.ok Outcome.ok rfl
      (by decide) rfl rfl).2.2.2.2.1 (by decide)).1,
    ((aborted_trial_not_rerun trialFiveAction Cont.action Outcome.ok Outcome.ok rfl
      (by decide) rfl rfl).2.2.2.2.1 (by decide)).2.2.2 rfl,
    by decide, by decide,
    (aborted_trial_not_rerun trialFiveAction Cont.action Outcome.ok Outcome.ok rfl
      (by decide) rfl rfl).2.2.2.2.2.2 offlineThreeTrials (fun _ => Draw.zero) 0 []
      pausedSessionEvents (by decide) rfl (by decide) (by decide)⟩

end Experiment

namespace UpDown

/-! ### C21 -/

/-- C21: in the up/down variant, startExperiment called while no device is connected
changes nothing: isRunning, currentTrial, sessionStartTime and every other field of the
state are unchanged and no device call is issued. -/
theorem startExperiment_not_connected (settings : Settings) (now : Int) (sys : Sys)
    (hconn : sys.state.isConnected = false) :
    startExperiment settings now sys = sys ∧
      (startExperiment settings now sys).state.isRunning = sys.state.isRunning ∧
      (startExperiment settings now sys).state.currentTrial = sys.state.currentTrial ∧
      (startExperiment settings now sys).state.sessionStartTime = sys.state.sessionStartTime ∧
      (startExperiment settings now sys).calls = sys.calls := by
  have h : startExperiment settings now sys = sys := by simp [startExperiment, hconn]
  refine ⟨h, ?_, ?_, ?_, ?_⟩ <;> rw [h]

/-- C21 witness: on the freshly loaded page no device is connected and a click on Start
changes nothing. -/
theorem startExperiment_not_connected_witness :
    loadedPage.state.isConnected = false ∧
      startExperiment config.settings 100 loadedPage = loadedPage :=
  ⟨rfl, (startExperiment_not_connected config.settings 100 loadedPage rfl).1⟩

end UpDown

namespace Crown

theorem crown_run_nil (crown : CrownInterface) : run crown [] = crown := rfl

theorem crown_run_cons (crown : CrownInterface) (e : Event) (events : List Event) :
    run crown (e :: events) = run (step crown e) events := rfl

theorem crown_run_append (crown : CrownInterface) (events later : List Event) :
    run crown (events ++ later) = run (run crown events) later := by
  simp [run, List.foldl_append]

theorem crown_run_snoc (crown : CrownInterface) (events : List Event) (e : Event) :
    run crown (events ++ [e]) = step (run crown events) e := by
  rw [crown_run_append]
  rfl

theorem samplesOf_append (events later : List Event) :
    samplesOf (events ++ later) = samplesOf events ++ samplesOf later := by
  induction events with
  | nil => rfl
  | cons e events ih =>
    cases e <;> simp [samplesOf, ih]

theorem getElem?_snoc_cases {α : Type} (l : List α) (a : α) (i : Nat) (x : α)
    (h : (l ++ [a])[i]? = some x) : l[i]? = some x ∨ (i = l.length ∧ x = a) := by
  by_cases hi : i < l.length
  · left
    rw [List.getElem?_append_left hi] at h
    exact h
  · right
    have hge : l.length ≤ i := Nat.le_of_not_lt hi
    rw [List.getElem?_append_right hge] at h
    have h0 : i - l.length = 0 := by
      by_contra hne
      have : 1 ≤ i - l.length := Nat.one_le_iff_ne_zero.mpr hne
      rw [List.getElem?_eq_none (by simpa using this)] at h
      exact absurd h (by simp)
    rw [h0] at h
    refine ⟨by omega, ?_⟩
    simpa using h.symm

theorem storedCopies_append (listeners : Nat) (samples later : List Sample) :
    storedCopies listeners (samples ++ later)
      = storedCopies listeners samples ++ storedCopies listeners later := by
  simp [storedCopies, List.flatMap_append]

theorem storedCopies_one (samples : List Sample) : storedCopies 1 samples = samples := by
  induction samples with
  | nil => rfl
  | cons s ss ih =>
    simp only [storedCopies, List.flatMap_cons] at ih ⊢
    rw [ih]
    rfl

/-! ### C28 -/

/-- C28 (code evaluated at the failing input): on a connected interface on which
startTrial was called without a session having been started, a trial is active (recording
true, currentTrial set), but endTrial does not return true and appends no trial: pushing
to the missing trial list throws (102), after the end time has been set, and recording
and currentTrial are not cleared. -/
theorem endTrial_without_session_throws :
    (startTrial trialOne 10 connectedNoSession).2.recording = true ∧
      (startTrial trialOne 10 connectedNoSession).2.currentTrial
        = some { info := trialOne, startTime := 10, data := [], endTime := none } ∧
      (endTrial 15 (startTrial trialOne 10 connectedNoSession).2).1 = EndTrialResult.threw ∧
      (endTrial 15 (startTrial trialOne 10 connectedNoSession).2).2.recording = true ∧
      (endTrial 15 (startTrial trialOne 10 connectedNoSession).2).2.currentTrial
        = some { info := trialOne, startTime := 10, data := [], endTime := some 15 } := by
  refine ⟨rfl, rfl, rfl, rfl, rfl⟩

/-- Method endTrial on an interface on which a session has been started: it returns true
if and only if a trial is active (recording true and currentTrial set); in that case the
session's trial list grows by exactly that trial, with its end time set, appended at the
end, currentTrial and recording are cleared and nothing else changes; otherwise it
returns false and the whole state is unchanged. -/
theorem endTrial_effect (now : Int) (crown : CrownInterface) (session : SessionData)
    (hs : crown.sessionData = some session) :
    ((endTrial now crown).1 = EndTrialResult.returned true ↔
        (crown.recording = true ∧ crown.currentTrial ≠ none)) ∧
      (∀ trial, crown.recording = true → crown.currentTrial = some trial →
        (endTrial now crown).2
          = { crown with
              sessionData := some { session with
                trials := session.trials ++ [{ trial with endTime := some now }] },
              recording := false,
              currentTrial := none } ∧
        trialsOf (endTrial now crown).2
          = trialsOf crown ++ [{ trial with endTime := some now }]) ∧
      ((crown.recording = false ∨ crown.currentTrial = none) →
        endTrial now crown = (EndTrialResult.returned false, crown)) := by
  refine ⟨?_, ?_, ?_⟩
  · cases hr : crown.recording
    · simp [endTrial, hr]
    · cases hc : crown.currentTrial
      · simp [endTrial, hr, hc]
      · simp [endTrial, hr, hc, hs]
  · intro trial hr hc
    simp [endTrial, hr, hc, hs, trialsOf]
  · rintro (hr | hc)
    · simp [endTrial, hr]
    · cases hr : crown.recording <;> simp [endTrial, hr, hc]

/-- Example: trial 1 started in a started session is ended: the call returns true and
the record holds exactly that trial. -/
theorem endTrial_effect_witness :
    (startTrial trialOne 10 sessionStarted).2.sessionData
        = some { info := { id := 1, mode := some Experiment.Mode.innerSpeech,
                           totalTrials := 3 },
                 startTime := 0, trials := [], endTime := none } ∧
      (endTrial 15 (startTrial trialOne 10 sessionStarted).2).1
        = EndTrialResult.returned true ∧
      trialsOf (endTrial 15 (startTrial trialOne 10 sessionStarted).2).2
        = trialsOf (startTrial trialOne 10 sessionStarted).2 ++
            [{ info := trialOne, startTime := 10, data := [], endTime := some 15 }] :=
  ⟨rfl,
    (endTrial_effect 15 (startTrial trialOne 10 sessionStarted).2 _ rfl).1.mpr
      ⟨rfl, by decide⟩,
    ((endTrial_effect 15 (startTrial trialOne 10 sessionStarted).2 _ rfl).2.1
      { info := trialOne, startTime := 10, data := [], endTime := none } rfl rfl).2⟩

/-! ### C25 -/

theorem attributed_snoc (crown : CrownInterface) (events : List Event) (e : Event) (k : Nat)
    (trial : Trial) (h : Attributed crown events k trial) :
    Attributed crown (events ++ [e]) k trial := by
  obtain ⟨before, arrived, after, trialInfo, start, stop, hev, hsam, htrial, hlen⟩ := h
  refine ⟨before, arrived, after ++ [e], trialInfo, start, stop, ?_, hsam, htrial, hlen⟩
  rw [hev]
  simp

theorem trialInv_snoc (crown : CrownInterface) (events : List Event) (e : Event)
    (h : TrialInv crown events (run crown events)) (he : e.isTrialLevel = true) :
    TrialInv crown (events ++ [e]) (run crown (events ++ [e])) := by
  rw [crown_run_snoc]
  obtain ⟨hconn, hl, ⟨session, hs⟩, hpre, hatt, hcur⟩ := h
  cases e with
  | initializeCrown loggedIn => simp [Event.isTrialLevel] at he
  | status online => simp [Event.isTrialLevel] at he
  | startSession sessionInfo now => simp [Event.isTrialLevel] at he
  | endSession now => simp [Event.isTrialLevel] at he
  | disconnect => simp [Event.isTrialLevel] at he
  | startTrial trialInfo now =>
    have hstep : step (run crown events) (Event.startTrial trialInfo now)
        = { run crown events with
            recording := true,
            currentTrial := some { info := trialInfo, startTime := now, data := [],
                                   endTime := none } } := by
      simp [step, startTrial, hconn]
    rw [hstep]
    refine ⟨hconn, hl, ⟨session, hs⟩, hpre, ?_, ?_⟩
    · intro k trial hk
      exact attributed_snoc crown events _ k trial (hatt k trial hk)
    · intro trial htrial
      refine ⟨rfl, events, [], trialInfo, now, rfl, by simp, ?_⟩
      simp only [Option.some.injEq] at htrial
      rw [← htrial]
      rfl
  | sample sample =>
    cases hc : (run crown events).currentTrial with
    | none =>
      have hstep : step (run crown events) (Event.sample sample) = run crown events := by
        simp only [step, onBrainwaves, hc]
        split <;> rfl
      rw [hstep]
      refine ⟨hconn, hl, ⟨session, hs⟩, hpre, ?_, ?_⟩
      · intro k trial hk
        exact attributed_snoc crown events _ k trial (hatt k trial hk)
      · intro trial htrial
        rw [hc] at htrial
        exact absurd htrial (by simp)
    | some current =>
      obtain ⟨hrec, before, arrived, trialInfo, start, hev, hsam, hcurrent⟩ := hcur current hc
      have hstep : step (run crown events) (Event.sample sample)
          = { run crown events with
              currentTrial := some { current with
                data := current.data ++ List.replicate crown.listeners sample } } := by
        simp [step, onBrainwaves, hc, hrec, hl]
      rw [hstep]
      refine ⟨hconn, hl, ⟨session, hs⟩, hpre, ?_, ?_⟩
      · intro k trial hk
        exact attributed_snoc crown events _ k trial (hatt k trial hk)
      · intro trial htrial
        refine ⟨hrec, before, arrived ++ [Event.sample sample], trialInfo, start, ?_, ?_, ?_⟩
        · rw [hev]
          simp
        · intro e hmem
          rcases List.mem_append.mp hmem with h1 | h1
          · exact hsam e h1
          · simp only [List.mem_singleton] at h1
            rw [h1]
            rfl
        · simp only [Option.some.injEq] at htrial
          rw [← htrial, hcurrent, samplesOf_append, storedCopies_append]
          simp [samplesOf, storedCopies]
  | endTrial now =>
    cases hc : (run crown events).currentTrial with
    | none =>
      have hstep : step (run crown events) (Event.endTrial now) = run crown events := by
        simp only [step, endTrial, hc]
        split <;> rfl
      rw [hstep]
      refine ⟨hconn, hl, ⟨session, hs⟩, hpre, ?_, ?_⟩
      · intro k trial hk
        exact attributed_snoc crown events _ k trial (hatt k trial hk)
      · intro trial htrial
        rw [hc] at htrial
        exact absurd htrial (by simp)
    | some current =>
      obtain ⟨hrec, before, arrived, trialInfo, start, hev, hsam, hcurrent⟩ := hcur current hc
      have hstep : step (run crown events) (Event.endTrial now)
          = { run crown events with
              sessionData := some { session with
                trials := session.trials ++ [{ current with endTime := some now }] },
              recording := false,
              currentTrial := none } := by
        simp [step, endTrial, hc, hrec, hs]
      have hold : trialsOf (run crown events) = session.trials := by
        simp [trialsOf, hs]
      rw [hstep]
      refine ⟨hconn, hl, ⟨_, rfl⟩, ?_, ?_, ?_⟩
      · show trialsOf crown <+: session.trials ++ [{ current with endTime := some now }]
        rw [← hold]
        exact hpre.trans (List.prefix_append _ _)
      · intro k trial hk
        have hk2 : (session.trials ++ [{ current with endTime := some now }])[
            (trialsOf crown).length + k]? = some trial := hk
        rcases getElem?_snoc_cases _ _ _ _ hk2 with hin | ⟨hidx, hnew⟩
        · rw [← hold] at hin
          exact attributed_snoc crown events _ k trial (hatt k trial hin)
        · refine ⟨before, arrived, [], trialInfo, start, now, ?_, hsam, ?_, ?_⟩
          · rw [hev]
          · rw [hnew, hcurrent]
          · rw [← hev, hold]
            exact hidx.symm
      · intro trial htrial
        exact absurd htrial (by simp)

theorem trialInv_run (crown : CrownInterface) (hconn : crown.isConnected = true)
    (hsession : crown.sessionData ≠ none)
    (hidle : crown.currentTrial = none) (events : List Event)
    (hev : ∀ e ∈ events, e.isTrialLevel = true) :
    TrialInv crown events (run crown events) := by
  induction events using List.reverseRecOn with
  | nil =>
    refine ⟨hconn, rfl, ?_, List.prefix_refl _, ?_, ?_⟩
    · cases hs : crown.sessionData with
      | none => exact absurd hs hsession
      | some session => exact ⟨session, hs⟩
    · intro k trial hk
      have hnone : (trialsOf crown)[(trialsOf crown).length + k]? = none :=
        List.getElem?_eq_none (by omega)
      rw [crown_run_nil, hnone] at hk
      exact absurd hk (by simp)
    · intro trial htrial
      rw [crown_run_nil, hidle] at htrial
      exact absurd htrial (by simp)
  | append_singleton events e ih =>
    have h1 := ih (fun e2 he2 => hev e2 (List.mem_append_left _ he2))
    exact trialInv_snoc crown events e h1 (hev e (by simp))

/-- On a disconnected interface without a trial in progress no trial-level event changes
anything: every startTrial is refused. -/
theorem run_disconnected_idle (crown : CrownInterface) (hconn : crown.isConnected = false)
    (hidle : crown.currentTrial = none) (events : List Event)
    (hev : ∀ e ∈ events, e.isTrialLevel = true) : run crown events = crown := by
  induction events with
  | nil => rfl
  | cons e events ih =>
    have hstep : step crown e = crown := by
      have he := hev e (List.mem_cons_self e events)
      cases e with
      | initializeCrown loggedIn => simp [Event.isTrialLevel] at he
      | status online => simp [Event.isTrialLevel] at he
      | startSession sessionInfo now => simp [Event.isTrialLevel] at he
      | endSession now => simp [Event.isTrialLevel] at he
      | disconnect => simp [Event.isTrialLevel] at he
      | startTrial trialInfo now => simp [step, startTrial, hconn]
      | sample sample =>
        simp only [step, onBrainwaves, hidle]
        split <;> rfl
      | endTrial now =>
        simp only [step, endTrial, hidle]
        split <;> rfl
    rw [crown_run_cons, hstep]
    exact ih (fun e2 he2 => hev e2 (List.mem_cons_of_mem e he2))

/-- C25: for every sequence of startTrial, incoming-sample and endTrial events on an
interface with a started session and no trial in progress, the trials recorded before
stay at the head of the record, and every newer recorded trial is attributed to one call
of startTrial: it carries the info (trialNumber, direction) and start time passed to that
call, its data are exactly the samples that arrived between that call and the endTrial
that ended it, in order (one copy per subscription of the session, so each sample once
when the session was started once), and it stands in the record at the position given by
the number of trials ended before it.  A sample that arrives while no trial is recording
changes nothing. -/
theorem trials_attributed (crown : CrownInterface) (events : List Event)
    (hsession : crown.sessionData ≠ none) (hidle : crown.currentTrial = none)
    (hev : ∀ e ∈ events, e.isTrialLevel = true) :
    trialsOf crown <+: trialsOf (run crown events) ∧
      (∀ k trial,
        (trialsOf (run crown events))[(trialsOf crown).length + k]? = some trial →
        Attributed crown events k trial) ∧
      (∀ trial, (run crown events).currentTrial = some trial →
        CurrentAttributed crown.listeners events trial) ∧
      (∀ samples, storedCopies 1 samples = samples) ∧
      (∀ (sample : Sample) (other : CrownInterface),
        (other.recording = false ∨ other.currentTrial = none) →
        onBrainwaves sample other = other) := by
  have hnowhere : ∀ (sample : Sample) (other : CrownInterface),
      (other.recording = false ∨ other.currentTrial = none) →
      onBrainwaves sample other = other := by
    intro sample other hother
    rcases hother with hr | hc
    · simp [onBrainwaves, hr]
    · simp only [onBrainwaves, hc]
      split <;> rfl
  by_cases hconn : crown.isConnected = true
  · have h := trialInv_run crown hconn hsession hidle events hev
    exact ⟨h.2.2.2.1, h.2.2.2.2.1, fun trial htrial => (h.2.2.2.2.2 trial htrial).2,
      storedCopies_one, hnowhere⟩
  · have hoff : crown.isConnected = false := by simpa using hconn
    have hsame := run_disconnected_idle crown hoff hidle events hev
    rw [hsame]
    refine ⟨List.prefix_refl _, ?_, ?_, storedCopies_one, hnowhere⟩
    · intro k trial hk
      have hnone : (trialsOf crown)[(trialsOf crown).length + k]? = none :=
        List.getElem?_eq_none (by omega)
      rw [hnone] at hk
      exact absurd hk (by simp)
    · intro trial htrial
      rw [hidle] at htrial
      exact absurd htrial (by simp)

/-- C25 witness: two trials in a started session, with samples before, inside and between
them: the record holds trial 1 with the one sample that arrived during it and trial 2
with its two samples, in the order in which they were ended. -/
theorem trials_attributed_witness :
    sessionStarted.listeners = 1 ∧
      trialsOf (run sessionStarted twoTrialEvents)
        = [{ info := trialOne, startTime := 10, data := [sampleA], endTime := some 15 },
            { info := trialTwo, startTime := 20, data := [sampleB, sampleA],
              endTime := some 25 }] ∧
      Attributed sessionStarted twoTrialEvents 1
        { info := trialTwo, startTime := 20, data := [sampleB, sampleA],
          endTime := some 25 } :=
  ⟨rfl, by decide,
    (trials_attributed sessionStarted twoTrialEvents (by decide) rfl
      (by decide)).2.1 1 _ (by decide)⟩

/-! ### C30 -/

/-- No event other than a call of endTrial adds a trial to the record. -/
theorem recorded_step_subset (crown : CrownInterface) (e : Event)
    (he : e.isEndTrial = false) :
    ∀ trial ∈ trialsOf (step crown e), trial ∈ trialsOf crown := by
  intro trial hmem
  cases e with
  | initializeCrown loggedIn =>
    simp only [step, initializeCrown] at hmem
    split at hmem
    · exact hmem
    · exact hmem
  | status online =>
    simp only [step, onStatus] at hmem
    split at hmem
    · exact hmem
    · exact hmem
  | startSession sessionInfo now =>
    simp only [step, startSession] at hmem
    split at hmem
    · exact hmem
    · split at hmem
      · simp [trialsOf] at hmem
      · simp [trialsOf] at hmem
  | startTrial trialInfo now =>
    simp only [step, startTrial] at hmem
    split at hmem
    · exact hmem
    · exact hmem
  | sample sample =>
    simp only [step, onBrainwaves] at hmem
    split at hmem
    · split at hmem
      · exact hmem
      · exact hmem
    · exact hmem
  | endTrial now => simp [Event.isEndTrial] at he
  | endSession now =>
    simp only [step, endSession] at hmem
    split at hmem
    · exact hmem
    · rename_i session hs
      simp only [trialsOf] at hmem
      simp only [trialsOf, hs]
      exact hmem
  | disconnect => exact hmem

theorem recorded_run_subset (events : List Event) (crown : CrownInterface)
    (he : ∀ e ∈ events, e.isEndTrial = false) :
    ∀ trial ∈ trialsOf (run crown events), trial ∈ trialsOf crown := by
  induction events generalizing crown with
  | nil => intro trial h; exact h
  | cons e events ih =>
    intro trial hmem
    rw [crown_run_cons] at hmem
    have h1 := ih (step crown e) (fun e2 he2 => he e2 (List.mem_cons_of_mem e he2)) trial hmem
    exact recorded_step_subset crown e (he e (List.mem_cons_self e events)) trial h1

/-- A trial info that does not occur in the interface does not occur after an event,
unless the event is a call of startTrial with that info. -/
theorem infoFree_step (trialInfo : TrialInfo) (crown : CrownInterface) (e : Event)
    (h : InfoFree trialInfo crown) (he : ∀ now, e ≠ Event.startTrial trialInfo now) :
    InfoFree trialInfo (step crown e) := by
  obtain ⟨hrec, hcur⟩ := h
  cases e with
  | initializeCrown loggedIn =>
    simp only [step, initializeCrown]
    split
    · exact ⟨hrec, hcur⟩
    · exact ⟨hrec, hcur⟩
  | status online =>
    simp only [step, onStatus]
    split
    · exact ⟨hrec, hcur⟩
    · exact ⟨hrec, hcur⟩
  | startSession sessionInfo now =>
    simp only [step, startSession]
    split
    · exact ⟨hrec, hcur⟩
    · split
      · exact ⟨by simp [trialsOf], hcur⟩
      · exact ⟨by simp [trialsOf], hcur⟩
  | startTrial other now =>
    have hne : other ≠ trialInfo := by
      intro heq
      exact he now (by rw [heq])
    simp only [step, startTrial]
    split
    · exact ⟨hrec, hcur⟩
    · refine ⟨hrec, ?_⟩
      intro trial htrial
      simp only [Option.some.injEq] at htrial
      rw [← htrial]
      exact hne
  | sample sample =>
    simp only [step, onBrainwaves]
    split
    · split
      · exact ⟨hrec, hcur⟩
      · rename_i current hc
        refine ⟨hrec, ?_⟩
        intro trial htrial
        simp only [Option.some.injEq] at htrial
        rw [← htrial]
        exact hcur current hc
    · exact ⟨hrec, hcur⟩
  | endTrial now =>
    simp only [step, endTrial]
    split
    · exact ⟨hrec, hcur⟩
    · split
      · exact ⟨hrec, hcur⟩
      · rename_i current hc
        split
        · refine ⟨hrec, ?_⟩
          intro trial htrial
          simp only [Option.some.injEq] at htrial
          rw [← htrial]
          exact hcur current hc
        · rename_i session hs
          refine ⟨?_, by simp⟩
          intro trial hmem
          simp only [trialsOf, List.mem_append, List.mem_singleton] at hmem
          rcases hmem with hold | hnew
          · apply hrec
            simp only [trialsOf, hs]
            exact hold
          · rw [hnew]
            exact hcur current hc
  | endSession now =>
    simp only [step, endSession]
    split
    · exact ⟨hrec, hcur⟩
    · rename_i session hs
      refine ⟨?_, hcur⟩
      intro trial hmem
      apply hrec
      simp only [trialsOf, hs]
      exact hmem
  | disconnect => exact ⟨hrec, hcur⟩

theorem infoFree_run (trialInfo : TrialInfo) (events : List Event) (crown : CrownInterface)
    (h : InfoFree trialInfo crown) (he : trialInfo ∉ startedInfos events) :
    InfoFree trialInfo (run crown events) := by
  induction events generalizing crown with
  | nil => exact h
  | cons e events ih =>
    rw [crown_run_cons]
    have hnot : ∀ now, e ≠ Event.startTrial trialInfo now := by
      intro now heq
      apply he
      rw [heq]
      simp [startedInfos]
    have hrest : trialInfo ∉ startedInfos events := by
      intro hmem
      apply he
      cases e <;> simp [startedInfos, hmem]
    exact ih (step crown e) (infoFree_step trialInfo crown e h hnot) hrest

/-- A sample that does not occur in the interface does not occur after an event, unless
the event is the arrival of that sample. -/
theorem sampleFree_step (sample : Sample) (crown : CrownInterface) (e : Event)
    (h : SampleFree sample crown) (he : e ≠ Event.sample sample) :
    SampleFree sample (step crown e) := by
  obtain ⟨hrec, hcur⟩ := h
  cases e with
  | initializeCrown loggedIn =>
    simp only [step, initializeCrown]
    split
    · exact ⟨hrec, hcur⟩
    · exact ⟨hrec, hcur⟩
  | status online =>
    simp only [step, onStatus]
    split
    · exact ⟨hrec, hcur⟩
    · exact ⟨hrec, hcur⟩
  | startSession sessionInfo now =>
    simp only [step, startSession]
    split
    · exact ⟨hrec, hcur⟩
    · split
      · exact ⟨by simp [trialsOf], hcur⟩
      · exact ⟨by simp [trialsOf], hcur⟩
  | startTrial other now =>
    simp only [step, startTrial]
    split
    · exact ⟨hrec, hcur⟩
    · refine ⟨hrec, ?_⟩
      intro trial htrial
      simp only [Option.some.injEq] at htrial
      rw [← htrial]
      simp
  | sample arriving =>
    have hne : arriving ≠ sample := by
      intro heq
      exact he (by rw [heq])
    simp only [step, onBrainwaves]
    split
    · split
      · exact ⟨hrec, hcur⟩
      · rename_i current hc
        refine ⟨hrec, ?_⟩
        intro trial htrial
        simp only [Option.some.injEq] at htrial
        rw [← htrial]
        intro hmem
        simp only [List.mem_append] at hmem
        rcases hmem with hold | hnew
        · exact hcur current hc hold
        · exact hne (List.eq_of_mem_replicate hnew).symm
    · exact ⟨hrec, hcur⟩
  | endTrial now =>
    simp only [step, endTrial]
    split
    · exact ⟨hrec, hcur⟩
    · split
      · exact ⟨hrec, hcur⟩
      · rename_i current hc
        split
        · refine ⟨hrec, ?_⟩
          intro trial htrial
          simp only [Option.some.injEq] at htrial
          rw [← htrial]
          exact hcur current hc
        · rename_i session hs
          refine ⟨?_, by simp⟩
          intro trial hmem
          simp only [trialsOf, List.mem_append, List.mem_singleton] at hmem
          rcases hmem with hold | hnew
          · apply hrec
            simp only [trialsOf, hs]
            exact hold
          · rw [hnew]
            exact hcur current hc
  | endSession now =>
    simp only [step, endSession]
    split
    · exact ⟨hrec, hcur⟩
    · rename_i session hs
      refine ⟨?_, hcur⟩
      intro trial hmem
      apply hrec
      simp only [trialsOf, hs]
      exact hmem
  | disconnect => exact ⟨hrec, hcur⟩

theorem sampleFree_run (sample : Sample) (events : List Event) (crown : CrownInterface)
    (h : SampleFree sample crown) (he : Event.sample sample ∉ events) :
    SampleFree sample (run crown events) := by
  induction events generalizing crown with
  | nil => exact h
  | cons e events ih =>
    rw [crown_run_cons]
    have hnot : e ≠ Event.sample sample := by
      intro heq
      apply he
      rw [heq]
      exact List.mem_cons_self _ _
    exact ih (step crown e) (sampleFree_step sample crown e h hnot)
      (fun hmem => he (List.mem_cons_of_mem e hmem))

/-- The record returned by endSession holds the trials of the session record. -/
theorem endSession_record (now : Int) (crown : CrownInterface) (record : SessionData)
    (h : (endSession now crown).1 = some record) : record.trials = trialsOf crown := by
  simp only [endSession] at h
  split at h
  · exact absurd h (by simp)
  · rename_i session hs
    simp only [Option.some.injEq] at h
    rw [← h]
    simp [trialsOf, hs]

/-- C30 as stated is refuted: in a started session, startTrial(trial 1) is followed by
startTrial(trial 2) with no endTrial in between, but the interface is disconnected
before the second call, which is therefore refused; the endTrial that follows ends trial
1, and the record returned by endSession holds trial 1 with its sample. -/
theorem refused_second_start_keeps_first :
    (startTrial trialTwo 20 (run sessionStarted
        [Event.startTrial trialOne 10, Event.sample sampleA, Event.disconnect])).1 = false ∧
      (endSession 30 (run sessionStarted disconnectedSecondStart)).1
        = some { info := { id := 1, mode := some Experiment.Mode.innerSpeech,
                           totalTrials := 3 },
                 startTime := 0,
                 trials := [{ info := trialOne, startTime := 10, data := [sampleA],
                              endTime := some 25 }],
                 endTime := some 30 } := by
  refine ⟨by decide, by decide⟩

/-- C30 (amended): a trial that is started and replaced by a successful startTrial before
it is ended is lost.  For every sequence of calls and callbacks in which startTrial(t1)
is followed, with no endTrial in between, by a startTrial(t2) that is accepted (the
interface is connected at that call), no trial with the info t1 and no sample that
arrived in between ever appears in the session record or in the record returned by
endSession, t1 and the sample being distinct from the infos and samples of the rest of
the sequence and of the initial state. -/
theorem unended_trial_lost (crown : CrownInterface) (before between after : List Event)
    (first second : TrialInfo) (start1 start2 : Int)
    (hbetween : ∀ e ∈ between, e.isEndTrial = false)
    (hconn : (run crown (before ++ Event.startTrial first start1 :: between)).isConnected
      = true) :
    (InfoFree first crown → first ∉ startedInfos before → first ≠ second →
      first ∉ startedInfos after →
      (∀ trial ∈ trialsOf (run crown ((before ++ Event.startTrial first start1 :: between)
          ++ Event.startTrial second start2 :: after)), trial.info ≠ first) ∧
      (∀ now record, (endSession now (run crown
          ((before ++ Event.startTrial first start1 :: between)
            ++ Event.startTrial second start2 :: after))).1 = some record →
        ∀ trial ∈ record.trials, trial.info ≠ first)) ∧
    (∀ sample, Event.sample sample ∈ between → SampleFree sample crown →
      Event.sample sample ∉ before → Event.sample sample ∉ after →
      (∀ trial ∈ trialsOf (run crown ((before ++ Event.startTrial first start1 :: between)
          ++ Event.startTrial second start2 :: after)), sample ∉ trial.data) ∧
      (∀ now record, (endSession now (run crown
          ((before ++ Event.startTrial first start1 :: between)
            ++ Event.startTrial second start2 :: after))).1 = some record →
        ∀ trial ∈ record.trials, sample ∉ trial.data)) := by
  have hsplit : run crown ((before ++ Event.startTrial first start1 :: between)
      ++ Event.startTrial second start2 :: after)
      = run (step (run crown (before ++ Event.startTrial first start1 :: between))
          (Event.startTrial second start2)) after := by
    rw [crown_run_append, crown_run_cons]
  have hmid : run crown (before ++ Event.startTrial first start1 :: between)
      = run (step (run crown before) (Event.startTrial first start1)) between := by
    rw [crown_run_append, crown_run_cons]
  have hsecond : step (run crown (before ++ Event.startTrial first start1 :: between))
      (Event.startTrial second start2)
      = { run crown (before ++ Event.startTrial first start1 :: between) with
          recording := true,
          currentTrial := some { info := second, startTime := start2, data := [],
                                 endTime := none } } := by
    simp [step, startTrial, hconn]
  have hkept : ∀ trial ∈ trialsOf (run crown (before ++ Event.startTrial first start1
      :: between)), trial ∈ trialsOf (run crown before) := by
    intro trial hmem
    rw [hmid] at hmem
    have h1 := recorded_run_subset between _ hbetween trial hmem
    exact recorded_step_subset (run crown before) (Event.startTrial first start1) rfl trial h1
  constructor
  · intro hfree hbefore hne hafter
    have h0 := infoFree_run first before crown hfree hbefore
    have h3 : InfoFree first (step (run crown (before ++ Event.startTrial first start1
        :: between)) (Event.startTrial second start2)) := by
      rw [hsecond]
      refine ⟨fun trial hmem => h0.1 trial (hkept trial hmem), ?_⟩
      intro trial htrial
      simp only [Option.some.injEq] at htrial
      rw [← htrial]
      exact fun h => hne h.symm
    have hfinal := infoFree_run first after _ h3 hafter
    rw [hsplit]
    refine ⟨hfinal.1, ?_⟩
    intro now record hrecord trial hmem
    rw [endSession_record now _ record hrecord] at hmem
    exact hfinal.1 trial hmem
  · intro sample _ hfree hbefore hafter
    have h0 := sampleFree_run sample before crown hfree hbefore
    have h3 : SampleFree sample (step (run crown (before ++ Event.startTrial first start1
        :: between)) (Event.startTrial second start2)) := by
      rw [hsecond]
      refine ⟨fun trial hmem => h0.1 trial (hkept trial hmem), ?_⟩
      intro trial htrial
      simp only [Option.some.injEq] at htrial
      rw [← htrial]
      simp
    have hfinal := sampleFree_run sample after _ h3 hafter
    rw [hsplit]
    refine ⟨hfinal.1, ?_⟩
    intro now record hrecord trial hmem
    rw [endSession_record now _ record hrecord] at hmem
    exact hfinal.1 trial hmem

/-- C30 witness: in a started session trial 1 is started and receives a sample, then
trial 2 is started, receives a sample and is ended: the record holds trial 2 only, and
neither the info of trial 1 nor its sample occurs in it. -/
theorem unended_trial_lost_witness :
    trialsOf (run sessionStarted (([] ++ Event.startTrial trialOne 10 ::
        [Event.sample sampleA]) ++ Event.startTrial trialTwo 20 ::
          [Event.sample sampleB, Event.endTrial 25]))
        = [{ info := trialTwo, startTime := 20, data := [sampleB], endTime := some 25 }] ∧
      (∀ trial ∈ trialsOf (run sessionStarted (([] ++ Event.startTrial trialOne 10 ::
          [Event.sample sampleA]) ++ Event.startTrial trialTwo 20 ::
            [Event.sample sampleB, Event.endTrial 25])), trial.info ≠ trialOne) ∧
      (∀ trial ∈ trialsOf (run sessionStarted (([] ++ Event.startTrial trialOne 10 ::
          [Event.sample sampleA]) ++ Event.startTrial trialTwo 20 ::
            [Event.sample sampleB, Event.endTrial 25])), sampleA ∉ trial.data) :=
  ⟨by decide,
    ((unended_trial_lost sessionStarted [] [Event.sample sampleA]
      [Event.sample sampleB, Event.endTrial 25] trialOne trialTwo 10 20 (by decide)
      (by decide)).1 ⟨by simp [trialsOf, sessionStarted, startSession, connectedNoSession, initializeCrown,
          CrownInterface.new],
        by simp [sessionStarted, startSession, connectedNoSession, initializeCrown,
          CrownInterface.new]⟩
      (by decide) (by decide) (by decide)).1,
    ((unended_trial_lost sessionStarted [] [Event.sample sampleA]
      [Event.sample sampleB, Event.endTrial 25] trialOne trialTwo 10 20 (by decide)
      (by decide)).2 sampleA (by decide)
      ⟨by simp [trialsOf, sessionStarted, startSession, connectedNoSession, initializeCrown,
          CrownInterface.new],
        by simp [sessionStarted, startSession, connectedNoSession, initializeCrown,
          CrownInterface.new]⟩
      (by decide) (by decide)).1⟩

end Crown

namespace Analysis

theorem foldl_add_eq_sum (values : List ℚ) (init : ℚ) :
    values.foldl (fun sum val => sum + val) init = init + values.sum := by
  induction values generalizing init with
  | nil => simp
  | cons v vs ih => simp [List.foldl_cons, ih, add_assoc]

theorem average_eq_arithmeticMean (values : List ℚ) : average values = arithmeticMean values := by
  unfold average arithmeticMean
  cases values with
  | nil => simp
  | cons v vs => simp [foldl_add_eq_sum]

theorem stdDev_eq_populationStdDev (sqrt : ℚ → ℚ) (values : List ℚ) :
    stdDev sqrt values = populationStdDev sqrt values := by
  unfold stdDev populationStdDev
  cases values with
  | nil => simp
  | cons v vs =>
    simp only [List.length_cons, Nat.succ_pos, if_true, foldl_add_eq_sum, zero_add,
      average_eq_arithmeticMean]
    simp

/-! ### C26 -/

/-- C26: for every list of per-trial values, calculateStatistics reports for each
direction and band the arithmetic mean of the values as bandAverages and the population
standard deviation (Math.sqrt of the mean squared deviation from that mean, dividing by
the count) as bandStdDeviations, and 0 for both when the list is empty; the directions
are reported in the order of the features. -/
theorem calculateStatistics_mean_stddev (sqrt : ℚ → ℚ) (features : Features)
    (entries : List (String × DirectionData))
    (h : features.directionFeatures = some entries) :
    (∃ statistics, calculateStatistics sqrt (some features) = some statistics ∧
      statistics.directionStats.map Prod.fst = entries.map Prod.fst ∧
      ∀ (i : Nat) (direction : String) (stats : DirectionStats),
        statistics.directionStats[i]? = some (direction, stats) →
        ∃ data, entries[i]? = some (direction, data) ∧
          ∀ band,
            stats.bandAverages band = arithmeticMean (data.averagePowerByBand band) ∧
            stats.bandStdDeviations band
              = populationStdDev sqrt (data.averagePowerByBand band)) ∧
      (∀ values : List ℚ, average values = arithmeticMean values ∧
        stdDev sqrt values = populationStdDev sqrt values) ∧
      average [] = 0 ∧ stdDev sqrt [] = 0 := by
  refine ⟨?_, fun values => ⟨average_eq_arithmeticMean values,
    stdDev_eq_populationStdDev sqrt values⟩, by simp [average], by simp [stdDev]⟩
  refine ⟨{ mode := features.mode, timestamp := features.timestamp,
            directionStats := entries.map (fun entry =>
              (entry.1,
                { bandAverages := fun band => average (entry.2.averagePowerByBand band),
                  bandStdDeviations := fun band =>
                    stdDev sqrt (entry.2.averagePowerByBand band) })) },
    by simp only [calculateStatistics, h], ?_, ?_⟩
  · simp [List.map_map, Function.comp_def]
  · intro i direction stats hget
    simp only [List.getElem?_map] at hget
    cases hentry : entries[i]? with
    | none =>
      rw [hentry] at hget
      simp at hget
    | some entry =>
      rw [hentry] at hget
      simp only [Option.map_some', Option.some.injEq, Prod.mk.injEq] at hget
      obtain ⟨hdir, hstats⟩ := hget
      refine ⟨entry.2, ?_, ?_⟩
      · rw [← hdir]
      · intro band
        rw [← hstats]
        exact ⟨average_eq_arithmeticMean _, stdDev_eq_populationStdDev sqrt _⟩

/-- C26 witness: for the per-trial delta values 1, 2, 3 of one direction the reported
average is 2 and the reported deviation is Math.sqrt(2/3); for the empty lists of the
other bands both are 0. -/
theorem calculateStatistics_mean_stddev_witness :
    sampleFeatures.directionFeatures = some [("up",
        { averagePowerByBand := fun band => if band = Band.delta then [1, 2, 3] else [],
          trialCount := 3 })] ∧
      (∀ sqrt : ℚ → ℚ, average [1, 2, 3] = arithmeticMean [1, 2, 3] ∧
        stdDev sqrt [1, 2, 3] = populationStdDev sqrt [1, 2, 3]) ∧
      arithmeticMean [1, 2, 3] = 2 ∧
      (∀ sqrt : ℚ → ℚ, populationStdDev sqrt [1, 2, 3] = sqrt (2 / 3)) :=
  ⟨rfl,
    fun sqrt => (calculateStatistics_mean_stddev sqrt sampleFeatures _ rfl).2.1 [1, 2, 3],
    by
      have hne : ([1, 2, 3] : List ℚ) ≠ [] := List.cons_ne_nil _ _
      simp only [arithmeticMean, if_neg hne]
      norm_num,
    fun sqrt => by
      have hne : ([1, 2, 3] : List ℚ) ≠ [] := List.cons_ne_nil _ _
      simp only [populationStdDev, arithmeticMean, if_neg hne]
      norm_num⟩

/-! ### C27 -/

theorem channel_foldl_eq_sum (band : Band) (channels : List Channel) (init : ℚ) :
    channels.foldl (fun sum channel => sum + channel.read band) init
      = init + (channels.map (fun channel => channel.read band)).sum := by
  induction channels generalizing init with
  | nil => simp
  | cons c cs ih => simp [List.foldl_cons, ih, add_assoc]

theorem sample_foldl_eq_sum (band : Band) (samples : List Sample) (init : ℚ) :
    samples.foldl
        (fun total sample =>
          match sample.channels with
          | none => total
          | some channels =>
            channels.foldl (fun sum channel => sum + channel.read band) total)
        init
      = init + ((channelReadings samples).map (fun channel => channel.read band)).sum := by
  induction samples generalizing init with
  | nil => simp [channelReadings]
  | cons s ss ih =>
    rw [List.foldl_cons, ih]
    cases hs : s.channels with
    | none => simp [channelReadings, hs]
    | some channels =>
      simp only [channel_foldl_eq_sum]
      simp [channelReadings, hs, add_assoc]

/-- The running sum of the code is the sum of the band over all channel readings. -/
theorem bandSum_eq_sum (band : Band) (samples : List Sample) :
    bandSum band samples
      = ((channelReadings samples).map (fun channel => channel.read band)).sum := by
  unfold bandSum
  rw [sample_foldl_eq_sum]
  simp

theorem sampleCount_foldl (samples : List Sample) (init : Nat) :
    samples.foldl
        (fun count sample =>
          match sample.channels with
          | none => count
          | some _ => count + 1)
        init
      = init + sampleCount samples := by
  unfold sampleCount
  induction samples generalizing init with
  | nil => simp
  | cons s ss ih =>
    rw [List.foldl_cons, List.foldl_cons, ih, ih (match s.channels with
      | none => 0
      | some _ => 0 + 1)]
    cases s.channels with
    | none => simp
    | some _ =>
      simp
      omega

/-- With the same number of channels in every sample that has channel data, the number of
channel readings is the product used by the code. -/
theorem channelReadings_length (samples : List Sample) (n : Nat)
    (hall : ∀ s ∈ samples, ∀ channels, s.channels = some channels → channels.length = n) :
    (channelReadings samples).length = sampleCount samples * n := by
  induction samples with
  | nil => simp [channelReadings, sampleCount]
  | cons s ss ih =>
    have hrest := ih (fun s2 hs2 => hall s2 (List.mem_cons_of_mem s hs2))
    have hcount : sampleCount (s :: ss)
        = (match s.channels with
          | none => 0
          | some _ => 0 + 1) + sampleCount ss := by
      unfold sampleCount
      rw [List.foldl_cons, sampleCount_foldl]
      rfl
    rw [hcount]
    cases hs : s.channels with
    | none =>
      simp only [channelReadings, List.flatMap_cons, hs] at hrest ⊢
      simpa using hrest
    | some channels =>
      have hlen := hall s (List.mem_cons_self s ss) channels hs
      simp only [channelReadings, List.flatMap_cons, hs, Option.getD_some,
        List.length_append] at hrest ⊢
      rw [hrest, hlen]
      ring

/-- On regular data the value pushed by the code is the average across all channels and
samples: when the first sample has channel data and every sample with channel data has
the same positive number of channels. -/
theorem trialValue_uniform (band : Band) (trial : Trial) (first : Sample)
    (others : List Sample) (channels : List Channel)
    (hb : trial.brainwaves = some (first :: others))
    (hfirst : first.channels = some channels) (hpos : 0 < channels.length)
    (hall : ∀ s ∈ first :: others, ∀ cs, s.channels = some cs →
      cs.length = channels.length) :
    trialValue band trial = some (averageOverReadings band (first :: others)) := by
  have hcc : channelCount (first :: others) = channels.length := by
    simp only [channelCount, hfirst]
    rw [if_neg (by omega)]
  have hcount : sampleCount (first :: others) = 1 + sampleCount others := by
    unfold sampleCount
    rw [List.foldl_cons, sampleCount_foldl, hfirst]
    rfl
  have hsc : sampleCount (first :: others) > 0 := by omega
  have hlen := channelReadings_length (first :: others) channels.length hall
  simp only [trialValue, hb, List.length_cons, Nat.succ_ne_zero, if_false, hsc, if_true]
  rw [hcc, bandSum_eq_sum]
  unfold averageOverReadings
  rw [hlen]

/-- C27 (code evaluated at failing inputs): for a trial whose first sample has no channel
data and whose second sample has two channels with delta powers 2 and 4, extractFeatures
pushes 6 for delta, while the average across all channel readings is 3: the divisor is
the number of samples with data times the channel count read from the first sample of the
trial (1 when that sample has no data), not the number of channel readings.  The same
happens when the samples differ in their number of channels (9/2 pushed, average 3).
With two channels in every sample the pushed value is the average (3). -/
theorem extractFeatures_divides_by_first_sample_count :
    trialValue Band.delta gappedTrial = some 6 ∧
      averageOverReadings Band.delta gappedSamples = 3 ∧
      trialValue Band.delta unevenTrial = some (9 / 2) ∧
      averageOverReadings Band.delta unevenSamples = 3 ∧
      trialValue Band.delta evenTrial = some 3 ∧
      averageOverReadings Band.delta evenSamples = 3 ∧
      (∃ features data,
        extractFeatures (some { mode := none, timestamp := none,
                                trials := some [gappedTrial] }) = some features ∧
        features.directionFeatures = some [("up", data)] ∧
        data.averagePowerByBand Band.delta = [6]) := by
  have hgap : trialValue Band.delta gappedTrial = some 6 := by
    norm_num [trialValue, gappedTrial, gappedSamples, bandSum, sampleCount, channelCount,
      Channel.read, deltaChannel]
  refine ⟨hgap, ?_, ?_, ?_, ?_, ?_, ?_⟩
  · norm_num [averageOverReadings, channelReadings, gappedSamples, Channel.read,
      deltaChannel]
  · norm_num [trialValue, unevenTrial, unevenSamples, bandSum, sampleCount, channelCount,
      Channel.read, deltaChannel]
  · norm_num [averageOverReadings, channelReadings, unevenSamples, Channel.read,
      deltaChannel]
  · norm_num [trialValue, evenTrial, evenSamples, bandSum, sampleCount, channelCount,
      Channel.read, deltaChannel]
  · norm_num [averageOverReadings, channelReadings, evenSamples, Channel.read,
      deltaChannel]
  · refine ⟨_, _, rfl, rfl, ?_⟩
    show List.filterMap (trialValue Band.delta) [gappedTrial] = [6]
    simp [List.filterMap_cons, hgap]

end Analysis
end Mindset
